import Mathlib

/-!
# Fastly CLI: configuration bootstrap and self-update

A shallow embedding of the process entry point (`cmd/fastly/main.go`), of the
self-update command (`pkg/commands/update/root.go`) and of the file copy helper
(`pkg/filesystem/directory.go`), and of the commands
`logging papertrail list`, `logging openstack create`, `vcl snippet create`
and `stats realtime`, together with the properties established about them.

Conventions of the embedding:

* Go `error` values are terms of `GoError`; a nil error is `none`.
* The file system is a map from paths to nodes. Calls into the Go standard
  library (`os.Rename`, `os.Remove`, `os.Stat`, ...) are environment
  operations: each takes an optional injected failure, and otherwise acts on
  the map as the library documents.
* Collaborators whose code lies outside the embedded files (the version
  resolver, the configuration file loader, the command dispatcher) are
  parameters of the run: their results are fields of an environment record.
-/

namespace FastlyCLI

/-! ## Errors -/

/-- Go error values: a plain message, a message wrapping an inner error
(`fmt.Errorf` with `%w`), or an `errors.RemediationError`. -/
inductive GoError where
  | msg (text : String)
  | wrap (text : String) (inner : GoError)
  | remediation (inner : GoError) (remediation : String)
  deriving DecidableEq, Repr

namespace GoError

/-- The test `errors.Is err target`: `err` or an error it wraps equals `target`. -/
def is : GoError → GoError → Bool
  | .msg t, target => decide (GoError.msg t = target)
  | .wrap t inner, target => decide (GoError.wrap t inner = target) || is inner target
  | .remediation inner r, target => decide (GoError.remediation inner r = target)

/-- Whether the dynamic type of the error is `errors.RemediationError`. -/
def isRemediation : GoError → Bool
  | .remediation _ _ => true
  | _ => false

end GoError

/-- The sentinel `fs.ErrNotExist`. -/
def ErrNotExist : GoError := .msg "file does not exist"

/-! ## File system -/

abbrev Path := String

/-- A file system node: whether it is a regular file, its identity (what
`os.SameFile` compares), its bytes, and whether they were flushed to storage. -/
structure Node where
  regular : Bool
  ino : Nat
  data : List Nat
  synced : Bool
  deriving DecidableEq, Repr

abbrev FS := Path → Option Node

/-- The file map with the entry at `p` replaced. -/
def FS.set (fs : FS) (p : Path) (n : Option Node) : FS :=
  fun q => if q = p then n else fs q

/-- Whether the file at `p` exists and holds exactly the bytes `d`. -/
def holdsData (fs : FS) (p : Path) (d : List Nat) : Bool :=
  match fs p with
  | some n => decide (n.data = d)
  | none => false

/-- Environment operation `os.Stat`. -/
def osStat (fault : Option GoError) (p : Path) (fs : FS) : Except GoError Node :=
  match fault with
  | some e => .error e
  | none =>
    match fs p with
    | none => .error ErrNotExist
    | some n => .ok n

/-- Environment operation `os.Rename`: moves the node at `old` to `new`,
replacing what was there. A failed rename changes nothing. -/
def osRename (fault : Option GoError) (old new : Path) (fs : FS) : Option GoError × FS :=
  match fault with
  | some e => (some e, fs)
  | none =>
    match fs old with
    | none => (some ErrNotExist, fs)
    | some n => if old = new then (none, fs) else (none, (fs.set new (some n)).set old none)

/-- Environment operation `os.Remove`: fails when there is nothing to remove. -/
def osRemove (fault : Option GoError) (p : Path) (fs : FS) : Option GoError × FS :=
  match fault with
  | some e => (some e, fs)
  | none =>
    match fs p with
    | none => (some ErrNotExist, fs)
    | some _ => (none, fs.set p none)

/-- Environment operation `os.RemoveAll`: returns nil when the path does not
exist. -/
def osRemoveAll (fault : Option GoError) (p : Path) (fs : FS) : Option GoError × FS :=
  match fault with
  | some e => (some e, fs)
  | none => (none, fs.set p none)

namespace filesystem

/-- Injected failures of the library calls made by `CopyFile`, in call order.
`copy` carries the number of bytes written before `io.Copy` failed; `newIno`
is the identity the system gives to a file that `os.Create` creates. -/
structure CopyFaults where
  statSrc : Option GoError := none
  statDst : Option GoError := none
  openSrc : Option GoError := none
  mkdirAll : Option GoError := none
  create : Option GoError := none
  copy : Option (Nat × GoError) := none
  sync : Option GoError := none
  close : Option GoError := none
  newIno : Nat := 0
  deriving Repr

/-- The part of `CopyFile` from `os.Open` on (directory.go lines 55-91): open
the source, create the destination directories, create (truncate) the
destination, copy, flush, and close the destination in the deferred call,
whose error is reported when nothing failed before. Directories are not
tracked in the file map, so `os.MkdirAll` only succeeds or fails, and paths
are taken to be clean already, so `filepath.Clean(src)` names the same file
as `src`. -/
def copyContents (f : CopyFaults) (src dst : Path) (fs : FS) : Option GoError × FS :=
  match f.openSrc, fs src with
  | some e, _ => (some (.wrap "error reading source file: " e), fs)
  | none, none => (some (.wrap "error reading source file: " ErrNotExist), fs)
  | none, some inNode =>
    match f.mkdirAll with
    | some e => (some (.wrap "creating destination directory: " e), fs)
    | none =>
      match f.create with
      | some e => (some (.wrap "error creating destination file: " e), fs)
      | none =>
        let ino := match fs dst with
          | some d => d.ino
          | none => f.newIno
        let created : Node := { regular := true, ino := ino, data := [], synced := false }
        match f.copy with
        | some (written, e) =>
          (some (.wrap "error copying file contents: " e),
            fs.set dst (some { created with data := inNode.data.take written }))
        | none =>
          let copied : Node := { created with data := inNode.data }
          match f.sync with
          | some e => (some e, fs.set dst (some copied))
          | none => (f.close, fs.set dst (some { copied with synced := true }))

/-- The function `CopyFile(src, dst)` of directory.go. -/
def CopyFile (f : CopyFaults) (src dst : Path) (fs : FS) : Option GoError × FS :=
  match osStat f.statSrc src fs with
  | .error _ => (some (.msg ("cannot read source file: " ++ src)), fs)
  | .ok ss =>
    if !ss.regular then
      (some (.msg ("non-regular source file: " ++ src)), fs)
    else
      match osStat f.statDst dst fs with
      | .error e =>
        if !(e.is ErrNotExist) then
          (some (.msg ("cannot read destination file: " ++ dst)), fs)
        else
          copyContents f src dst fs
      | .ok ds =>
        if !ds.regular then
          (some (.msg ("non-regular destination file: " ++ src)), fs)
        else if ss.ino = ds.ino then
          (none, fs)
        else
          copyContents f src dst fs

end filesystem

namespace update

/-- File-level calls made by a run of the update command, in call order. -/
inductive Op where
  | download (version : String)
  | executable
  | abs (p : Path)
  | rename (old new : Path)
  | remove (p : Path)
  | copyFile (src dst : Path)
  | removeAll (p : Path)
  deriving DecidableEq, Repr

/-- What the command writes to `out`: the calls into the text package. -/
inductive OutEv where
  | lineBreak
  | output (s : String)
  | progressStep (s : String)
  | progressFail
  | progressDone
  | success (s : String)
  deriving DecidableEq, Repr

/-- The surroundings of one run of `RootCommand.Exec`: the platform, the
result of `Check` (current version, latest version, whether to update), what
the versioner's `Download` returns and leaves at the returned path, the
results of `os.Executable` and `filepath.Abs`, and the injected failures of
the file operations. -/
structure ExecEnv where
  windows : Bool
  current : String
  latest : String
  shouldUpdate : Bool
  dlPath : Path
  dlErr : Option GoError
  dlFile : Option Node
  executable : Except GoError Path
  abs : Path → Except GoError Path
  renameAside : Option GoError
  removeAside : Option GoError
  renameStaged : Option GoError
  copy : filesystem.CopyFaults
  removeAll : Option GoError

/-- The observable outcome of a run of `RootCommand.Exec`. -/
structure ExecResult where
  err : Option GoError
  fs : FS
  ops : List Op
  out : List OutEv
  errLog : List GoError

/-- The effect of `Download` on the file map: it only touches the path it
returns. -/
def downloaded (e : ExecEnv) (fs : FS) : FS :=
  match e.dlFile with
  | some n => fs.set e.dlPath (some n)
  | none => fs

/-- The Windows branch of `Exec` (root.go lines 91-98): rename the running
executable aside; when that fails, log the error, try to remove the
`~` file and log that error too. Nothing is returned. -/
def renameRunningAside (e : ExecEnv) (execPath : Path) (r : ExecResult) : ExecResult :=
  if e.windows then
    match osRename e.renameAside execPath (execPath ++ "~") r.fs with
    | (some err, fs1) =>
      match osRemove e.removeAside (execPath ++ "~") fs1 with
      | (some err2, fs2) =>
        { r with fs := fs2,
                 ops := r.ops ++ [.rename execPath (execPath ++ "~"), .remove (execPath ++ "~")],
                 errLog := r.errLog ++ [err, err2] }
      | (none, fs2) =>
        { r with fs := fs2,
                 ops := r.ops ++ [.rename execPath (execPath ++ "~"), .remove (execPath ++ "~")],
                 errLog := r.errLog ++ [err] }
    | (none, fs1) =>
      { r with fs := fs1, ops := r.ops ++ [.rename execPath (execPath ++ "~")] }
  else r

/-- The replacement step of `Exec` (root.go lines 100-115): rename the staged
binary into place, fall back to `CopyFile` when the rename fails, and report
success. -/
def moveIntoPlace (e : ExecEnv) (latestPath currentPath : Path) (r : ExecResult) : ExecResult :=
  match osRename e.renameStaged latestPath currentPath r.fs with
  | (none, fs1) =>
    { r with err := none, fs := fs1,
             ops := r.ops ++ [.rename latestPath currentPath],
             out := r.out ++ [.progressDone,
               .success ("Updated " ++ currentPath ++ " to " ++ e.latest ++ ".")] }
  | (some _, fs1) =>
    match filesystem.CopyFile e.copy latestPath currentPath fs1 with
    | (some err, fs2) =>
      { r with err := some (.wrap "error moving latest binary in place: " err), fs := fs2,
               ops := r.ops ++ [.rename latestPath currentPath, .copyFile latestPath currentPath],
               out := r.out ++ [.progressFail],
               errLog := r.errLog ++ [err] }
    | (none, fs2) =>
      { r with err := none, fs := fs2,
               ops := r.ops ++ [.rename latestPath currentPath, .copyFile latestPath currentPath],
               out := r.out ++ [.progressDone,
                 .success ("Updated " ++ currentPath ++ " to " ++ e.latest ++ ".")] }

/-- The part of `Exec` after a successful download and before the deferred
removal runs (root.go lines 66-115). -/
def replaceBinary (e : ExecEnv) (r : ExecResult) : ExecResult :=
  let r1 : ExecResult :=
    { r with out := r.out ++ [.progressStep "Replacing binary..."],
             ops := r.ops ++ [.executable] }
  match e.executable with
  | .error err =>
    { r1 with err := some (.wrap "error determining executable path: " err),
              out := r1.out ++ [.progressFail], errLog := r1.errLog ++ [err] }
  | .ok execPath =>
    let r2 : ExecResult := { r1 with ops := r1.ops ++ [.abs execPath] }
    match e.abs execPath with
    | .error err =>
      { r2 with err := some (.wrap "error determining absolute target path: " err),
                out := r2.out ++ [.progressFail], errLog := r2.errLog ++ [err] }
    | .ok currentPath =>
      moveIntoPlace e e.dlPath currentPath (renameRunningAside e execPath r2)

/-- The method `RootCommand.Exec` of root.go. The deferred
`os.RemoveAll(latestPath)` is registered once `Download` has succeeded and runs
on every return after that; its error is dropped. -/
def Exec (e : ExecEnv) (fs : FS) : ExecResult :=
  let out0 : List OutEv :=
    [.lineBreak, .output ("Current version: " ++ e.current),
     .output ("Latest version: " ++ e.latest), .lineBreak,
     .progressStep "Updating versioning information...",
     .progressStep "Checking CLI binary update..."]
  if !e.shouldUpdate then
    { err := none, fs := fs, ops := [], out := out0 ++ [.output "No update required."],
      errLog := [] }
  else
    let out1 := out0 ++ [.progressStep "Fetching latest release..."]
    match e.dlErr with
    | some err =>
      { err := some (.wrap "error downloading latest release: " err), fs := downloaded e fs,
        ops := [.download e.latest], out := out1 ++ [.progressFail], errLog := [err] }
    | none =>
      let r := replaceBinary e
        { err := none, fs := downloaded e fs, ops := [.download e.latest], out := out1,
          errLog := [] }
      { r with fs := (osRemoveAll e.removeAll e.dlPath r.fs).2,
               ops := r.ops ++ [.removeAll e.dlPath] }

/-- The state in which a run of `Exec` reaches the rename of the staged binary
(root.go line 100), when the download succeeded and the executable's path
resolved to `execPath`. -/
def beforeMove (e : ExecEnv) (fs : FS) (execPath : Path) : ExecResult :=
  renameRunningAside e execPath
    { err := none, fs := downloaded e fs,
      ops := [.download e.latest, .executable, .abs execPath],
      out := [.lineBreak, .output ("Current version: " ++ e.current),
        .output ("Latest version: " ++ e.latest), .lineBreak,
        .progressStep "Updating versioning information...",
        .progressStep "Checking CLI binary update...",
        .progressStep "Fetching latest release...",
        .progressStep "Replacing binary..."],
      errLog := [] }

/-- Sample original binary at the executable's path. -/
def sampleOrig : Node := { regular := true, ino := 1, data := [1, 2, 3], synced := true }

/-- Sample staged binary left by a successful download. -/
def sampleStaged : Node := { regular := true, ino := 2, data := [7, 8, 9, 10], synced := true }

/-- Sample file map: only the running executable exists. -/
def sampleFS : FS := fun p => if p = "/bin/fastly" then some sampleOrig else none

/-- Sample run in which nothing fails. -/
def sampleEnv : ExecEnv :=
  { windows := false, current := "1.0.0", latest := "2.0.0", shouldUpdate := true,
    dlPath := "/tmp/fastly-dl", dlErr := none, dlFile := some sampleStaged,
    executable := .ok "/bin/fastly", abs := fun p => .ok p,
    renameAside := none, removeAside := none, renameStaged := none,
    copy := {}, removeAll := none }

/-- Sample run in which the rename of the staged binary fails (a cross-device
move) and the fallback copy fails after two bytes. -/
def sampleCopyFails : ExecEnv :=
  { sampleEnv with renameStaged := some (.msg "invalid cross-device link"),
                   copy := { copy := some (2, .msg "no space left on device") } }

/-- Sample Windows run in which renaming the running executable aside fails. -/
def sampleAsideFails : ExecEnv :=
  { sampleEnv with windows := true, renameAside := some (.msg "access is denied") }

/-- Sample Windows run in which the rename aside works, the rename of the
staged binary fails and the fallback copy cannot read its source. -/
def sampleWindowsCopyFails : ExecEnv :=
  { sampleEnv with windows := true, renameStaged := some (.msg "invalid cross-device link"),
                   copy := { statSrc := some (.msg "input/output error") } }

/-- Sample run in which the download fails after leaving part of the release
at the path it returns. -/
def sampleDownloadFails : ExecEnv :=
  { sampleEnv with dlErr := some (.msg "unexpected EOF"),
                   dlFile := some { regular := true, ino := 2, data := [7, 8], synced := false } }

/-- Sample run in which the staged binary is copied into place and the
deferred removal of the staging file then fails. -/
def sampleRemoveAllFails : ExecEnv :=
  { sampleEnv with renameStaged := some (.msg "invalid cross-device link"),
                   removeAll := some (.msg "permission denied") }

/-- Sample run in which the rename of the staged binary fails and the
fallback copy cannot create its destination. -/
def sampleCreateFails : ExecEnv :=
  { sampleEnv with renameStaged := some (.msg "invalid cross-device link"),
                   copy := { create := some (.msg "text file busy") } }

/-- Sample file map: the running executable and a staged binary. -/
def sampleTwoFiles : FS := fun p =>
  if p = "/bin/fastly" then some sampleOrig
  else if p = "/tmp/fastly-dl" then some sampleStaged
  else none

end update

namespace cmd

/-! ## The process entry point (`cmd/fastly/main.go`) -/

/-- The part of `config.File` that `main` reads: `file.CLI.LastChecked`,
`file.CLI.TTL` and `file.CLI.RemoteConfig`. -/
structure Doc where
  lastChecked : String
  ttl : String
  remoteConfig : String
  deriving DecidableEq, Repr

/-- The informational texts `main` writes to `out`. -/
inductive Text where
  | legacyNotice
  | createNotice
  | lineBreak
  | retryWarning
  | backgroundInfo
  | updateSuccessful
  deriving DecidableEq, Repr

/-- Observable events of a run of `main`, in the order they happen. -/
inductive Ev where
  /-- The call `file.Read(configFilePath)`. -/
  | read
  /-- A text written to `out`. -/
  | out (t : Text)
  /-- A synchronous call `file.Load(url, httpClient)` made by `main`. -/
  | load (url : String)
  /-- A `RemediationError` printed to `os.Stderr`. -/
  | printErr (e : GoError)
  /-- The line `errors.Deduce(err).Print(os.Stderr)` for the error of `app.Run`. -/
  | printDeduced (e : GoError)
  /-- The statement `go func() ...`: the background refresh is started. -/
  | go
  /-- The call `file.Load(url, httpClient)` made by the background refresh. -/
  | bgLoad (url : String)
  /-- The background refresh assigns `errLoadConfig`. -/
  | setErrLoadConfig (e : GoError)
  /-- The background refresh completes `waitForWrite <- true`. -/
  | send
  /-- The call `app.Run(args, env, file, ...)` on the main line, with the copy
  of `file` taken when the call is made. -/
  | run (file : Doc)
  /-- The main line completes `<-waitForWrite`. -/
  | recv
  /-- The main line reads `errLoadConfig` as an argument for `afterWrite`. -/
  | readErrLoadConfig (v : Option GoError)
  /-- The call of `afterWrite`. -/
  | afterWrite
  /-- The unchecked type assertion in `afterWrite` panics. -/
  | assertionPanic
  /-- The process ends with this status. -/
  | exit (code : Nat)
  deriving DecidableEq, Repr

/-- The surroundings of one run of `main`: the command line, the constants of
the `config` and `errors` packages that `main` names, and the collaborators.
`read` is the error of `file.Read` and the document it leaves in `file`;
`load n url doc` is the error of the call number `n` of `file.Load(url, ...)`
on a `file` holding `doc`, and the document it leaves; `stale` is
`check.Stale`; `run` is the error of `app.Run` for the `file` it is given. -/
structure World where
  args : List String
  remoteEndpoint : String
  networkRemediation : String
  bugRemediation : String
  errLegacyConfig : GoError
  read : Option GoError × Doc
  load : Nat → String → Doc → Option GoError × Doc
  stale : String → String → Bool
  run : Doc → Option GoError

/-- Where the main line of execution stands once the bootstrap is over. -/
inductive MainPC where
  | callRun
  | reportErr
  | receive
  | callAfterWrite
  | finish
  | halted
  deriving DecidableEq, Repr

/-- Where the background refresh stands. -/
inductive BgPC where
  | idle
  | load
  | setErr (e : GoError)
  | send
  | finished
  deriving DecidableEq, Repr

/-- The state of the process: the variables of `main` shared with the
background refresh, the position of both lines of execution, and the events
so far. -/
structure State where
  file : Doc
  errLoadConfig : Option GoError
  wait : Bool
  verboseOutput : Bool
  loads : Nat
  runErr : Option GoError
  mpc : MainPC
  bpc : BgPC
  trace : List Ev
  exit : Option Nat
  deriving DecidableEq, Repr

/-- The loop of main.go lines 45-50: whether `-v` or `--verbose` is among the
arguments. -/
def verboseOutput (args : List String) : Bool :=
  args.foldl (fun acc seg => if seg = "-v" ∨ seg = "--verbose" then true else acc) false

/-- The function `afterWrite` of main.go: the events it produces, ending in a
panic when the type assertion `errLoadConfig.(errors.RemediationError)` is
reached with an error of another type. -/
def afterWrite (verboseOutput : Bool) (errLoadConfig : Option GoError) : List Ev :=
  (if verboseOutput && errLoadConfig.isNone then [Ev.out .updateSuccessful] else []) ++
  (match errLoadConfig with
    | none => []
    | some e => if e.isRemediation then [Ev.printErr e] else [Ev.assertionPanic])

/-- The process is over: `os.Exit(1)` after a failed bootstrap load. -/
def exitAtBootstrap (verbose : Bool) (doc : Doc) (loads : Nat) (t : List Ev) (e : GoError)
    (w : World) : State :=
  { file := doc, errLoadConfig := none, wait := false, verboseOutput := verbose,
    loads := loads, runErr := none, mpc := .halted, bpc := .idle,
    trace := t ++ [.printErr (.remediation e w.networkRemediation), .exit 1],
    exit := some 1 }

/-- Lines 111-142 of main.go: the staleness check and the start of the
background refresh. The state returned is the one in which `main` is about to
call `app.Run`. -/
def launch (w : World) (verbose : Bool) (doc : Doc) (loads : Nat) (t : List Ev) : State :=
  if w.stale doc.lastChecked doc.ttl then
    { file := doc, errLoadConfig := none, wait := true, verboseOutput := verbose,
      loads := loads, runErr := none, mpc := .callRun, bpc := .load,
      trace := t ++ (if verbose then [Ev.out .backgroundInfo] else []) ++ [.go],
      exit := none }
  else
    { file := doc, errLoadConfig := none, wait := false, verboseOutput := verbose,
      loads := loads, runErr := none, mpc := .callRun, bpc := .idle,
      trace := t, exit := none }

/-- Lines 81-109 of main.go: when the document in memory has an empty
`lastChecked`, load it again from the fixed endpoint; a failure ends the
process. -/
def repair (w : World) (verbose : Bool) (doc : Doc) (loads : Nat) (t : List Ev) : State :=
  if doc.lastChecked = "" then
    let t1 := t ++ (if verbose then [Ev.out .retryWarning, Ev.out .lineBreak] else []) ++
      [.load w.remoteEndpoint]
    match w.load loads w.remoteEndpoint doc with
    | (some e, doc1) => exitAtBootstrap verbose doc1 (loads + 1) t1 e w
    | (none, doc1) => launch w verbose doc1 (loads + 1) t1
  else
    launch w verbose doc loads t

/-- Lines 45-142 of main.go, which run before any other line of execution
exists: read the local file, load from the fixed endpoint when the read
fails, repair an empty `lastChecked`, and start the background refresh when
the document is stale. -/
def bootstrap (w : World) : State :=
  let verbose := verboseOutput w.args
  match w.read with
  | (some err, doc0) =>
    let t1 := [Ev.read] ++
      (if verbose then
        [Ev.out (if err = w.errLegacyConfig then .legacyNotice else .createNotice),
         Ev.out .lineBreak]
       else []) ++ [.load w.remoteEndpoint]
    match w.load 0 w.remoteEndpoint doc0 with
    | (some e, doc1) => exitAtBootstrap verbose doc1 1 t1 e w
    | (none, doc1) => repair w verbose doc1 1 t1
  | (none, doc0) => repair w verbose doc0 0 [Ev.read]

/-- Where the main line goes after `app.Run` and the report of its error:
to the receive when a refresh was started (`if wait`), else to the end. -/
def afterRun (s : State) : MainPC :=
  if s.wait then .receive else .finish

/-- One step of the main line of execution (main.go lines 144-195). The
receive on the unbuffered channel is taken together with the send of the
background refresh. A panic in `afterWrite` ends the process with status 2. -/
def stepMain (w : World) (s : State) : State :=
  match s.mpc with
  | .callRun =>
    let err := w.run s.file
    { s with runErr := err, trace := s.trace ++ [.run s.file],
             mpc := if err.isSome then .reportErr else afterRun s }
  | .reportErr =>
    match s.runErr with
    | some err => { s with trace := s.trace ++ [.printDeduced err], mpc := afterRun s }
    | none => { s with mpc := afterRun s }
  | .receive =>
    { s with trace := s.trace ++ [.send, .recv], mpc := .callAfterWrite, bpc := .finished }
  | .callAfterWrite =>
    let t := s.trace ++ [.readErrLoadConfig s.errLoadConfig, .afterWrite] ++
      afterWrite s.verboseOutput s.errLoadConfig
    if Ev.assertionPanic ∈ afterWrite s.verboseOutput s.errLoadConfig then
      { s with trace := t ++ [.exit 2], mpc := .halted, exit := some 2 }
    else
      { s with trace := t, mpc := .finish }
  | .finish =>
    let code := if s.runErr.isSome then 1 else 0
    { s with trace := s.trace ++ [.exit code], mpc := .halted, exit := some code }
  | .halted => s

/-- One step of the background refresh (main.go lines 128-141) up to its send.
The call of `file.Load` is one step: `file` changes at once. -/
def stepBg (w : World) (s : State) : State :=
  match s.bpc with
  | .load =>
    match w.load s.loads s.file.remoteConfig s.file with
    | (some err, doc1) =>
      { s with file := doc1, loads := s.loads + 1,
               trace := s.trace ++ [.bgLoad s.file.remoteConfig], bpc := .setErr err }
    | (none, doc1) =>
      { s with file := doc1, loads := s.loads + 1,
               trace := s.trace ++ [.bgLoad s.file.remoteConfig], bpc := .send }
  | .setErr err =>
    let e : GoError := .remediation
      (.wrap "there was a problem updating the versioning information for the Fastly CLI:\n\n" err)
      w.bugRemediation
    { s with errLoadConfig := some e, trace := s.trace ++ [.setErrLoadConfig e], bpc := .send }
  | _ => s

/-- Whether the main line can take a step: it cannot once the process is
over, nor at the receive while the background refresh has not reached its
send. -/
def mainCanStep (s : State) : Bool :=
  match s.mpc with
  | .halted => false
  | .receive => decide (s.bpc = .send)
  | _ => true

/-- Whether the background refresh can take a step on its own. -/
def bgCanStep (s : State) : Bool :=
  match s.mpc, s.bpc with
  | .halted, _ => false
  | _, .load => true
  | _, .setErr _ => true
  | _, _ => false

/-- One step of the process: the scheduler picks the main line (`true`) or the
background refresh (`false`); when the picked line cannot move the other one
does, and when neither can the state stays. -/
def step (w : World) (pick : Bool) (s : State) : State :=
  if pick then
    if mainCanStep s then stepMain w s else if bgCanStep s then stepBg w s else s
  else
    if bgCanStep s then stepBg w s else if mainCanStep s then stepMain w s else s

/-- Run `n` steps under the schedule `sched`. -/
def steps (w : World) : Nat → (Nat → Bool) → State → State
  | 0, _, s => s
  | n + 1, sched, s => steps w n (fun i => sched (i + 1)) (step w (sched 0) s)

/-- The function `main` of main.go: the bootstrap followed by the concurrent
part under the schedule `sched`. Eight steps are enough for every run to
reach its end (`main_halts`). -/
def main (w : World) (sched : Nat → Bool) : State :=
  steps w 8 sched (bootstrap w)

/-! ### What a run looks like, line by line -/

/-- Events of the main line of execution after the bootstrap (the send is
listed with the receive it completes). -/
def Ev.isMain : Ev → Bool
  | .run _ => true
  | .printDeduced _ => true
  | .send => true
  | .recv => true
  | .readErrLoadConfig _ => true
  | .afterWrite => true
  | .assertionPanic => true
  | .printErr _ => true
  | .out .updateSuccessful => true
  | .exit _ => true
  | _ => false

/-- Events of the background refresh before its send. -/
def Ev.isBg : Ev → Bool
  | .bgLoad _ => true
  | .setErrLoadConfig _ => true
  | _ => false

/-- The receive, the read of `errLoadConfig`, the call of `afterWrite` and the
end of the process. -/
def Ev.isRendezvous : Ev → Bool
  | .recv => true
  | .readErrLoadConfig _ => true
  | .afterWrite => true
  | .exit _ => true
  | _ => false

/-- The document the background refresh leaves in `file`, for the state `b` in
which the bootstrap ended. -/
def refreshed (w : World) (b : State) : Doc :=
  (w.load b.loads b.file.remoteConfig b.file).2

/-- The value the background refresh leaves in `errLoadConfig`. -/
def refreshErr (w : World) (b : State) : Option GoError :=
  match (w.load b.loads b.file.remoteConfig b.file).1 with
  | some err => some (.remediation
      (.wrap "there was a problem updating the versioning information for the Fastly CLI:\n\n" err)
      w.bugRemediation)
  | none => none

/-- The report of the error of `app.Run`. -/
def report (runErr : Option GoError) : List Ev :=
  match runErr with
  | some e => [.printDeduced e]
  | none => []

/-- The rendezvous: send and receive, the read of `errLoadConfig`, and
`afterWrite`. -/
def rendezvous (verbose : Bool) (v : Option GoError) : List Ev :=
  [.send, .recv, .readErrLoadConfig v, .afterWrite] ++ afterWrite verbose v

/-- The events of the main line up to the position `pc`, when `app.Run` was
given the document `d`. -/
def mainLine (w : World) (b : State) (d : Doc) : MainPC → List Ev
  | .callRun => []
  | .reportErr => [.run d]
  | .receive => .run d :: report (w.run d)
  | .callAfterWrite => .run d :: report (w.run d) ++ [.send, .recv]
  | .finish => .run d :: report (w.run d) ++
      (if b.wait then rendezvous b.verboseOutput (refreshErr w b) else [])
  | .halted => .run d :: report (w.run d) ++
      (if b.wait then rendezvous b.verboseOutput (refreshErr w b) else []) ++
      [.exit (if (w.run d).isSome then 1 else 0)]

/-- The events of the background refresh up to the position `pc`. -/
def bgLine (w : World) (b : State) : BgPC → List Ev
  | .idle => []
  | .load => []
  | .setErr _ => [.bgLoad b.file.remoteConfig]
  | _ => .bgLoad b.file.remoteConfig ::
      (match refreshErr w b with
        | some e => [.setErrLoadConfig e]
        | none => [])

/-- What the background refresh has done to the shared variables at the
position `pc`. -/
def bgVars (w : World) (b s : State) : BgPC → Prop
  | .idle => b.wait = false ∧ b.file = s.file ∧ s.errLoadConfig = none
  | .load => b.wait = true ∧ b.file = s.file ∧ s.loads = b.loads ∧ s.errLoadConfig = none ∧
      (s.mpc = .callRun ∨ s.mpc = .reportErr ∨ s.mpc = .receive)
  | .setErr e => b.wait = true ∧ refreshed w b = s.file ∧ s.errLoadConfig = none ∧
      (w.load b.loads b.file.remoteConfig b.file).1 = some e ∧
      (s.mpc = .callRun ∨ s.mpc = .reportErr ∨ s.mpc = .receive)
  | .send => b.wait = true ∧ refreshed w b = s.file ∧ s.errLoadConfig = refreshErr w b ∧
      (s.mpc = .callRun ∨ s.mpc = .reportErr ∨ s.mpc = .receive)
  | .finished => b.wait = true ∧ refreshed w b = s.file ∧ s.errLoadConfig = refreshErr w b ∧
      (s.mpc = .callAfterWrite ∨ s.mpc = .finish ∨ s.mpc = .halted)

/-- The invariant of the concurrent part, relative to the state `b` in which
the bootstrap ended: the trace is the bootstrap trace followed by an
interleaving of the main line (up to its position, for the document `d` given
to `app.Run`) and of the background refresh (up to its position). -/
structure Inv (w : World) (b s : State) (d : Doc) (mid : List Ev) : Prop where
  trace_eq : s.trace = b.trace ++ mid
  wait_eq : s.wait = b.wait
  verbose_eq : s.verboseOutput = b.verboseOutput
  doc : b.file = d ∨ (b.wait = true ∧ refreshed w b = d)
  doc_run : s.mpc = .callRun ∨ s.runErr = w.run d
  doc_next : s.mpc = .callRun → s.file = d
  report_err : s.mpc = .reportErr → (w.run d).isSome = true
  exit_eq : s.exit = if s.mpc = .halted then some (if (w.run d).isSome then 1 else 0) else none
  main_line : mid.filter Ev.isMain = mainLine w b d s.mpc
  bg_line : mid.filter Ev.isBg = bgLine w b s.bpc
  bg_vars : bgVars w b s s.bpc
  bg_wait : b.wait = true ∨ s.bpc = .idle
  no_wait : b.wait = false → s.mpc ≠ .receive ∧ s.mpc ≠ .callAfterWrite

/-- The steps the main line still has to take. -/
def mainLeft : MainPC → Nat
  | .callRun => 5
  | .reportErr => 4
  | .receive => 3
  | .callAfterWrite => 2
  | .finish => 1
  | .halted => 0

/-- The steps the background refresh still has to take before its send. -/
def bgLeft : BgPC → Nat
  | .load => 2
  | .setErr _ => 1
  | _ => 0

/-- The steps the process still has to take. -/
def remaining (s : State) : Nat :=
  mainLeft s.mpc + bgLeft s.bpc

/-- Events of the bootstrap of a run that reaches `app.Run`. -/
def Ev.isBootstrap : Ev → Bool
  | .read => true
  | .out .updateSuccessful => false
  | .out _ => true
  | .load _ => true
  | .go => true
  | _ => false

/-- Sample document, stale under `sampleWorld`. -/
def sampleDoc : Doc :=
  { lastChecked := "2021-06-01T10:00:00Z", ttl := "5m", remoteConfig := "https://example.org/cfg" }

/-- Sample run: the local file reads fine and is stale, the background load
fails, the command succeeds. -/
def sampleWorld : World :=
  { args := ["service", "list"], remoteEndpoint := "https://example.org/fixed",
    networkRemediation := "check your network connection",
    bugRemediation := "file an issue",
    errLegacyConfig := .msg "legacy config",
    read := (none, sampleDoc),
    load := fun _ _ d => (some (.msg "connection refused"), d),
    stale := fun _ _ => true,
    run := fun _ => none }

/-- Sample run: no local file, and the bootstrap load fails. -/
def sampleOffline : World :=
  { sampleWorld with read := (some (.msg "no such file"), sampleDoc) }

/-- Sample run: the local file is read with an empty `lastChecked`; the
repair load returns without error and leaves `lastChecked` empty; an empty
`lastChecked` counts as stale, and the background load sets the field. -/
def sampleStillEmpty : World :=
  { sampleWorld with
    read := (none, { sampleDoc with lastChecked := "" }),
    load := fun n _ d =>
      if n = 0 then (none, d) else (none, { d with lastChecked := "2021-06-01T10:00:00Z" }),
    stale := fun lc _ => decide (lc = "") }

/-- Sample run: the local file reads fine and is not stale. -/
def sampleFresh : World :=
  { sampleWorld with stale := fun _ _ => false }

/-- The loads made by the background refresh. -/
def Ev.isBgLoad : Ev → Bool
  | .bgLoad _ => true
  | _ => false

/-- The informational texts written to `out`. -/
def Ev.isText : Ev → Bool
  | .out _ => true
  | _ => false

/-- A trace without the informational texts: the calls, the channel
operations, the errors printed and the exit. -/
def control (t : List Ev) : List Ev :=
  t.filter (fun ev => !ev.isText)

/-- Two states of the process that agree on everything but the verbose flag
and the informational texts written so far. -/
def sameControl (s1 s2 : State) : Prop :=
  s1.file = s2.file ∧ s1.errLoadConfig = s2.errLoadConfig ∧ s1.wait = s2.wait ∧
  s1.loads = s2.loads ∧ s1.runErr = s2.runErr ∧ s1.mpc = s2.mpc ∧ s1.bpc = s2.bpc ∧
  s1.exit = s2.exit ∧ control s1.trace = control s2.trace

end cmd

namespace check

/-! ## The staleness policy -/

/-- Modelled from the spec: the staleness policy `isStale(lastChecked, ttl, now)`
of section 4.3, whose code (`check.Stale`, called at main.go line 120) is not
among the embedded files. A missing (empty) `lastChecked` and one that does not
parse as a timestamp are stale; otherwise the document is stale when its age
exceeds its time to live. The timestamp parser is a parameter, and times and
durations are counted in seconds. -/
def isStale (parseTime : String → Option Int) (lastChecked : String) (ttl now : Int) : Bool :=
  if lastChecked = "" then true
  else
    match parseTime lastChecked with
    | none => true
    | some t => decide (now - t > ttl)

/-- Sample timestamp parser: seconds since the epoch, in decimal. -/
def sampleParseTime (s : String) : Option Int :=
  if s.data = [] then none
  else
    s.data.foldl
      (fun acc c =>
        match acc with
        | none => none
        | some n =>
          if 48 ≤ c.toNat ∧ c.toNat ≤ 57 then some (n * 10 + ((c.toNat : Int) - 48)) else none)
      (some 0)

end check

namespace errors

/-- The value `ErrInvalidVerboseJSONCombo` of errors.go. -/
def ErrInvalidVerboseJSONCombo : GoError :=
  .remediation (.msg "invalid flag combination, --verbose and --json")
    "Use either --verbose or --json, not both."

end errors

namespace papertrail

/-! ## `logging papertrail list` (`pkg/commands/logging/papertrail/list.go`) -/

/-- The fields of `fastly.Papertrail` that the command prints. -/
structure Papertrail where
  serviceID : String
  serviceVersion : Nat
  name : String
  address : String
  port : Nat
  format : String
  formatVersion : Nat
  responseCondition : String
  placement : String
  deriving DecidableEq, Repr

/-- Calls made by the command to its collaborators. -/
inductive Call where
  | serviceDetails
  | listPapertrails (serviceID : String) (serviceVersion : Nat)
  deriving DecidableEq, Repr

/-- What the command puts on `out`. -/
inductive OutEv where
  | write (s : String)
  | table (header : List String) (rows : List (List String))
  deriving DecidableEq, Repr

/-- The surroundings of one run of `ListCommand.Exec`: the result of
`c.Globals.Verbose()`, the `--json` flag, the result of `cmd.ServiceDetails`
(service ID and version number, or an error) and what it writes to `out`, the
result of `ListPapertrails` for the input it is given, the result of
`json.Marshal`, and the error of `out.Write`. -/
structure ListEnv where
  verbose : Bool
  json : Bool
  serviceDetails : Except GoError (String × Nat)
  serviceDetailsOut : List OutEv
  listPapertrails : String → Nat → Except GoError (List Papertrail)
  marshal : List Papertrail → Except GoError String
  write : String → Option GoError

/-- The observable outcome of a run of `ListCommand.Exec`. -/
structure ListResult where
  err : Option GoError
  calls : List Call
  out : List OutEv
  errLog : List GoError
  deriving DecidableEq, Repr

/-- The lines printed for the endpoint number `i` (from 0) of `n` in verbose
mode (list.go lines 116-125). -/
def verboseLines (i n : Nat) (p : Papertrail) : List OutEv :=
  [.write ("\tPapertrail " ++ toString (i + 1) ++ "/" ++ toString n ++ "\n"),
   .write ("\t\tService ID: " ++ p.serviceID ++ "\n"),
   .write ("\t\tVersion: " ++ toString p.serviceVersion ++ "\n"),
   .write ("\t\tName: " ++ p.name ++ "\n"),
   .write ("\t\tAddress: " ++ p.address ++ "\n"),
   .write ("\t\tPort: " ++ toString p.port ++ "\n"),
   .write ("\t\tFormat: " ++ p.format ++ "\n"),
   .write ("\t\tFormat version: " ++ toString p.formatVersion ++ "\n"),
   .write ("\t\tResponse condition: " ++ p.responseCondition ++ "\n"),
   .write ("\t\tPlacement: " ++ p.placement ++ "\n")]

/-- The output of `Exec` once the list is known (list.go lines 91-129). -/
def printList (e : ListEnv) (serviceVersion : Nat) (papertrails : List Papertrail)
    (r : ListResult) : ListResult :=
  if !e.verbose then
    if e.json then
      match e.marshal papertrails with
      | .error err => { r with err := some err }
      | .ok data =>
        match e.write data with
        | some err =>
          { r with err := some (.wrap "error: unable to write data to stdout: " err),
                   errLog := r.errLog ++ [err] }
        | none => { r with err := none, out := r.out ++ [.write data] }
    else
      { r with err := none,
               out := r.out ++ [.table ["SERVICE", "VERSION", "NAME"]
                 (papertrails.map
                   (fun p => [p.serviceID, toString p.serviceVersion, p.name]))] }
  else
    { r with err := none,
             out := r.out ++ [.write ("Version: " ++ toString serviceVersion ++ "\n")] ++
               (papertrails.enum.map
                 (fun ip => verboseLines ip.1 papertrails.length ip.2)).flatten ++
               [.write "\n"] }

/-- The method `ListCommand.Exec` of list.go. -/
def Exec (e : ListEnv) : ListResult :=
  if e.verbose && e.json then
    { err := some errors.ErrInvalidVerboseJSONCombo, calls := [], out := [], errLog := [] }
  else
    match e.serviceDetails with
    | .error err =>
      { err := some err, calls := [.serviceDetails], out := e.serviceDetailsOut,
        errLog := [err] }
    | .ok (serviceID, serviceVersion) =>
      match e.listPapertrails serviceID serviceVersion with
      | .error err =>
        { err := some err,
          calls := [.serviceDetails, .listPapertrails serviceID serviceVersion],
          out := e.serviceDetailsOut, errLog := [err] }
      | .ok papertrails =>
        printList e serviceVersion papertrails
          { err := none,
            calls := [.serviceDetails, .listPapertrails serviceID serviceVersion],
            out := e.serviceDetailsOut, errLog := [] }

/-- Sample endpoint. -/
def samplePapertrail : Papertrail :=
  { serviceID := "123", serviceVersion := 1, name := "logs", address := "example.com",
    port := 123, format := "%h %l %u %t", formatVersion := 2,
    responseCondition := "Prevent default logging", placement := "none" }

/-- Sample run of the list command, in table mode. -/
def sampleList : ListEnv :=
  { verbose := false, json := false, serviceDetails := .ok ("123", 1),
    serviceDetailsOut := [],
    listPapertrails := fun _ _ => .ok [samplePapertrail],
    marshal := fun _ => .ok "[]", write := fun _ => none }

end papertrail

namespace openstack

/-! ## `logging openstack create` (`pkg/commands/logging/openstack/create.go`) -/

/-- An optional string flag (`cmd.OptionalString`): whether it was given on
the command line, and its value. -/
structure OptionalString where
  wasSet : Bool
  value : String
  deriving DecidableEq, Repr

/-- An optional unsigned flag (`cmd.OptionalUint`, `cmd.OptionalUint8`). -/
structure OptionalUint where
  wasSet : Bool
  value : Nat
  deriving DecidableEq, Repr

/-- The fields of `CreateCommand` that `ConstructInput` reads. -/
structure CreateCommand where
  endpointName : String
  bucketName : String
  accessKey : String
  user : String
  url : String
  publicKey : OptionalString
  path : OptionalString
  period : OptionalUint
  gzipLevel : OptionalUint
  messageType : OptionalString
  format : OptionalString
  formatVersion : OptionalUint
  responseCondition : OptionalString
  timestampFormat : OptionalString
  placement : OptionalString
  compressionCodec : OptionalString
  deriving DecidableEq, Repr

/-- The fields of `fastly.CreateOpenstackInput` that `ConstructInput` sets;
the others keep their zero value. -/
structure CreateOpenstackInput where
  serviceID : String := ""
  serviceVersion : Int := 0
  name : String := ""
  bucketName : String := ""
  accessKey : String := ""
  user : String := ""
  url : String := ""
  publicKey : String := ""
  path : String := ""
  period : Nat := 0
  gzipLevel : Nat := 0
  format : String := ""
  formatVersion : Nat := 0
  responseCondition : String := ""
  messageType : String := ""
  timestampFormat : String := ""
  placement : String := ""
  compressionCodec : String := ""
  deriving DecidableEq, Repr

/-- The error `ConstructInput` returns when both flags were set. -/
def errMutuallyExclusive : GoError :=
  .msg ("error parsing arguments: the --compression-codec flag is mutually exclusive " ++
    "with the --gzip-level flag")

/-- The method `CreateCommand.ConstructInput` of create.go: the input (nil is
`none`) and the error. Every block `if c.X.WasSet { input.X = c.X.Value }`
gives the field `X` the flag's value when the flag was set and leaves it at
its zero value otherwise. -/
def ConstructInput (c : CreateCommand) (serviceID : String) (serviceVersion : Int) :
    Option CreateOpenstackInput × Option GoError :=
  if c.compressionCodec.wasSet && c.gzipLevel.wasSet then
    (none, some errMutuallyExclusive)
  else
    (some
      { serviceID := serviceID
        serviceVersion := serviceVersion
        name := c.endpointName
        bucketName := c.bucketName
        accessKey := c.accessKey
        user := c.user
        url := c.url
        publicKey := if c.publicKey.wasSet then c.publicKey.value else ""
        path := if c.path.wasSet then c.path.value else ""
        period := if c.period.wasSet then c.period.value else 0
        gzipLevel := if c.gzipLevel.wasSet then c.gzipLevel.value else 0
        format := if c.format.wasSet then c.format.value else ""
        formatVersion := if c.formatVersion.wasSet then c.formatVersion.value else 0
        responseCondition :=
          if c.responseCondition.wasSet then c.responseCondition.value else ""
        messageType := if c.messageType.wasSet then c.messageType.value else ""
        timestampFormat := if c.timestampFormat.wasSet then c.timestampFormat.value else ""
        placement := if c.placement.wasSet then c.placement.value else ""
        compressionCodec :=
          if c.compressionCodec.wasSet then c.compressionCodec.value else "" },
     none)

/-- Sample command: the required flags and `--gzip-level 9`. -/
def sampleCreate : CreateCommand :=
  { endpointName := "log", bucketName := "bucket", accessKey := "foo", user := "user",
    url := "https://example.com",
    publicKey := ⟨false, ""⟩, path := ⟨false, ""⟩, period := ⟨false, 0⟩,
    gzipLevel := ⟨true, 9⟩, messageType := ⟨false, ""⟩, format := ⟨false, ""⟩,
    formatVersion := ⟨false, 0⟩, responseCondition := ⟨false, ""⟩,
    timestampFormat := ⟨false, ""⟩, placement := ⟨false, ""⟩,
    compressionCodec := ⟨false, ""⟩ }

end openstack

namespace cmd

/-! ## `parseEnv` (main.go lines 209-220) -/

/-- The split of a string at its first `=`: the text before it and the text
after it, or nothing when there is no `=`. -/
def splitAtEq : List Char → Option (List Char × List Char)
  | [] => none
  | c :: cs =>
    if c = '=' then some ([], cs)
    else
      match splitAtEq cs with
      | some (a, b) => some (c :: a, b)
      | none => none

/-- The call `strings.SplitN(kv, "=", 2)`: the string itself when it has no
`=`, else the text before the first `=` and the text after it. -/
def splitN2 (kv : String) : List String :=
  match splitAtEq kv.data with
  | none => [kv]
  | some (a, b) => [String.mk a, String.mk b]

/-- A Go `map[string]string`, as a lookup function. -/
abbrev EnvMap := String → Option String

/-- The body of the loop of `parseEnv`: skip the entry when the split does not
give two tokens, otherwise `env[k] = v`. -/
def parseEnvStep (env : EnvMap) (kv : String) : EnvMap :=
  match splitN2 kv with
  | [k, v] => fun q => if q = k then some v else env q
  | _ => env

/-- The function `parseEnv` of main.go. -/
def parseEnv (environ : List String) : EnvMap :=
  environ.foldl parseEnvStep (fun _ => none)

/-- The entry `kv` reads `key=value`, where `key` has no `=`: the key is the
text before the first `=` and the value is everything after it. -/
def isEntry (kv key value : String) : Prop :=
  kv = key ++ "=" ++ value ∧ '=' ∉ key.data

/-- Sample environment: a repeated key, a value with `=` in it, and an entry
without `=`. -/
def sampleEnviron : List String :=
  ["HOME=/root", "FASTLY_API_TOKEN=a=b", "junk", "HOME=/tmp"]

end cmd

namespace snippet

/-! ## `vcl snippet create` (`pkg/commands/vcl/snippet/create.go`) -/

/-- An optional boolean flag (`cmd.OptionalBool`): whether it was given on the
command line (`WasSet`, recorded by the flag's action `Set`), and the value
parsed for it (`Value`). -/
structure OptionalBool where
  wasSet : Bool
  value : Bool
  deriving DecidableEq, Repr

/-- An optional integer flag (`cmd.OptionalInt`). -/
structure OptionalInt where
  wasSet : Bool
  value : Int
  deriving DecidableEq, Repr

/-- The fields of `CreateCommand` that `constructInput` reads. -/
structure CreateCommand where
  content : String
  dynamic : OptionalBool
  location : String
  name : String
  priority : OptionalInt
  deriving DecidableEq, Repr

/-- The fields of `fastly.CreateSnippetInput` that `constructInput` sets; a
field that is not assigned keeps its zero value, 0 for the integer `Dynamic`
and nil (`none`) for the pointer `Priority`. -/
structure CreateSnippetInput where
  serviceID : String := ""
  serviceVersion : Int := 0
  name : String := ""
  type : String := ""
  content : String := ""
  dynamic : Int := 0
  priority : Option Int := none
  deriving DecidableEq, Repr

/-- The method `CreateCommand.constructInput` of create.go lines 108-126. The
function `cmd.Content`, which turns the `--content` argument into the snippet
text, is the parameter `content`; `fastly.Int v` is a pointer to `v`. -/
def constructInput (content : String → String) (c : CreateCommand) (serviceID : String)
    (serviceVersion : Int) : CreateSnippetInput :=
  let input : CreateSnippetInput := {}
  let input := { input with content := content c.content }
  let input := { input with name := c.name }
  let input := { input with serviceID := serviceID }
  let input := { input with serviceVersion := serviceVersion }
  let input := { input with type := c.location }
  let input := if c.dynamic.wasSet then { input with dynamic := 1 } else input
  let input := if c.priority.wasSet then { input with priority := some c.priority.value }
    else input
  input

/-- Sample command: `--dynamic=false` given explicitly, no `--priority`. -/
def sampleCreate : CreateCommand :=
  { content := "# some vcl", dynamic := ⟨true, false⟩, location := "recv", name := "foo",
    priority := ⟨false, 0⟩ }

/-- Sample command: no `--dynamic`, `--priority 1`. -/
def samplePriority : CreateCommand :=
  { content := "# some vcl", dynamic := ⟨false, false⟩, location := "recv", name := "foo",
    priority := ⟨true, 1⟩ }

end snippet

namespace stats

/-! ## `stats realtime` (`pkg/commands/stats/realtime.go`) -/

/-- The input of one request (`fastly.GetRealtimeStatsInput`). The timestamp
is a `uint64`; the loops only copy it, so it is a natural number here. -/
structure GetRealtimeStatsInput where
  serviceID : String
  timestamp : Nat
  deriving DecidableEq, Repr

/-- The envelope a response is decoded into: its timestamp and its data. -/
structure Envelope (α : Type) where
  timestamp : Nat
  data : List α
  deriving DecidableEq, Repr

/-- A value held in a Go `map[string]any`: an unsigned integer such as
`block.Recorded`, or any other decoded value, kept as its JSON text. -/
inductive Value where
  | uint (n : Nat)
  | json (raw : String)
  deriving DecidableEq, Repr

/-- A Go map with string keys that is not nil, as an association list. -/
abbrev Agg := List (String × Value)

/-- The builtin `delete(m, k)`. -/
def mapDelete (m : Agg) (k : String) : Agg :=
  m.filter (fun kv => kv.1 != k)

/-- The assignment `m[k] = v` on a map that is not nil. -/
def mapSet (m : Agg) (k : String) (v : Value) : Agg :=
  mapDelete m k ++ [(k, v)]

/-- The fields of a block of a realtime response that `loopText` reads; the
map `Aggregated` may be nil (`none`). -/
structure Block where
  recorded : Nat
  aggregated : Option Agg
  deriving DecidableEq, Repr

/-- What the loops put on `out`: `text.Error(out, format, err)` with the error
the format wraps, a successful `out.Write(data)`, `text.Break(out)`, and the
call `fmtBlock(out, service, agg)`. -/
inductive OutEv where
  | error (err : GoError)
  | write (data : String)
  | break
  | fmtBlock (service : String) (agg : Agg)
  deriving DecidableEq, Repr

/-- The surroundings of `loopJSON`: the answer of the client to its call number
`i` (from 0) with a given input, and the error of `out.Write` for given data
after what was put on `out` before. -/
structure JSONEnv where
  getRealtimeStatsJSON : Nat → GetRealtimeStatsInput → Except GoError (Envelope String)
  write : List OutEv → String → Option GoError

/-- The surroundings of `loopText`: the client, and the error `fmtBlock`
returns for a service and a map after what was put on `out` before. -/
structure TextEnv where
  getRealtimeStatsJSON : Nat → GetRealtimeStatsInput → Except GoError (Envelope Block)
  fmtBlock : List OutEv → String → Agg → Option GoError

/-- The state of a loop between two turns: the variable `timestamp`, the
inputs of the requests sent so far, and what was put on `out`. -/
structure Loop where
  timestamp : Nat
  requests : List GetRealtimeStatsInput
  out : List OutEv
  deriving DecidableEq, Repr

/-- Where a loop stands after some turns: still looping, returned to its
caller with an error, or stopped by a runtime panic. -/
inductive Outcome where
  | running (s : Loop)
  | returned (err : GoError) (s : Loop)
  | panicked (s : Loop)
  deriving DecidableEq, Repr

/-- The state an outcome carries. -/
def Outcome.state : Outcome → Loop
  | .running s => s
  | .returned _ s => s
  | .panicked s => s

/-- The state at the declaration `var timestamp uint64`. -/
def start : Loop :=
  { timestamp := 0, requests := [], out := [] }

/-- The statement `for { body }`, observed after at most `n` turns: a turn is
run only while the loop is still looping. -/
def loopFor (body : Loop → Outcome) : Nat → Outcome
  | 0 => .running start
  | n + 1 =>
    match loopFor body n with
    | .running s => body s
    | o => o

/-- The inner loop of `loopJSON` (realtime.go lines 98-105) over the data that
is left: what is on `out` afterwards, and the error returned when a write
failed. -/
def writeData (write : List OutEv → String → Option GoError) :
    List String → List OutEv → List OutEv × Option GoError
  | [], out => (out, none)
  | data :: rest, out =>
    match write out data with
    | some err => (out, some (.wrap "error: unable to write data to stdout: " err))
    | none => writeData write rest (out ++ [.write data, .break])

/-- One turn of the `for` of `loopJSON` (realtime.go lines 84-106). -/
def turnJSON (e : JSONEnv) (service : String) (s : Loop) : Outcome :=
  let input : GetRealtimeStatsInput := { serviceID := service, timestamp := s.timestamp }
  match e.getRealtimeStatsJSON s.requests.length input with
  | .error err =>
    .running { s with requests := s.requests ++ [input],
                      out := s.out ++ [.error (.wrap "fetching stats: " err)] }
  | .ok envelope =>
    match writeData e.write envelope.data s.out with
    | (out, some err) =>
      .returned err
        { timestamp := envelope.timestamp, requests := s.requests ++ [input], out := out }
    | (out, none) =>
      .running
        { timestamp := envelope.timestamp, requests := s.requests ++ [input], out := out }

/-- The function `loopJSON` of realtime.go, observed after at most `n` turns
of its loop. -/
def loopJSON (e : JSONEnv) (service : String) (n : Nat) : Outcome :=
  loopFor (turnJSON e service) n

/-- The inner loop of `loopText` (realtime.go lines 126-137) over the blocks
that are left: what is on `out` afterwards, and whether the assignment
`agg["start_time"] = block.Recorded` hit a nil map, which is a runtime panic.
An error of `fmtBlock` is printed and the next block is handled. -/
def fmtBlocks (fmtBlock : List OutEv → String → Agg → Option GoError) (service : String) :
    List Block → List OutEv → List OutEv × Bool
  | [], out => (out, false)
  | block :: rest, out =>
    match block.aggregated with
    | none => (out, true)
    | some agg =>
      let agg := mapSet agg "start_time" (.uint block.recorded)
      let agg := mapDelete agg "miss_histogram"
      match fmtBlock out service agg with
      | some err =>
        fmtBlocks fmtBlock service rest
          (out ++ [.fmtBlock service agg, .error (.wrap "formatting stats: " err)])
      | none => fmtBlocks fmtBlock service rest (out ++ [.fmtBlock service agg])

/-- One turn of the `for` of `loopText` (realtime.go lines 112-138). -/
def turnText (e : TextEnv) (service : String) (s : Loop) : Outcome :=
  let input : GetRealtimeStatsInput := { serviceID := service, timestamp := s.timestamp }
  match e.getRealtimeStatsJSON s.requests.length input with
  | .error err =>
    .running { s with requests := s.requests ++ [input],
                      out := s.out ++ [.error (.wrap "fetching stats: " err)] }
  | .ok envelope =>
    match fmtBlocks e.fmtBlock service envelope.data s.out with
    | (out, true) =>
      .panicked
        { timestamp := envelope.timestamp, requests := s.requests ++ [input], out := out }
    | (out, false) =>
      .running
        { timestamp := envelope.timestamp, requests := s.requests ++ [input], out := out }

/-- The function `loopText` of realtime.go, observed after at most `n` turns
of its loop. -/
def loopText (e : TextEnv) (service : String) (n : Nat) : Outcome :=
  loopFor (turnText e service) n

/-! ### Vocabulary for the properties of the loops -/

/-- The answers of a client to a list of inputs sent as its calls number `i`,
`i + 1`, and so on. -/
def responsesFrom {α : Type}
    (client : Nat → GetRealtimeStatsInput → Except GoError (Envelope α)) :
    Nat → List GetRealtimeStatsInput → List (Except GoError (Envelope α))
  | _, [] => []
  | i, input :: rest => client i input :: responsesFrom client (i + 1) rest

/-- The timestamp of the last successful response of a list, and 0 when none
was successful. -/
def lastSuccess {α : Type} (rs : List (Except GoError (Envelope α))) : Nat :=
  rs.foldl
    (fun t r =>
      match r with
      | .ok envelope => envelope.timestamp
      | .error _ => t)
    0

/-- What `loopJSON` puts on `out` for data it wrote without error. -/
def written (ds : List String) : List OutEv :=
  (ds.map (fun d => [OutEv.write d, OutEv.break])).flatten

/-! ### Sample runs -/

/-- Sample surroundings of `loopJSON`: the first and the third request fail,
the second is answered with timestamp 100 and the later ones with timestamp
200; writing the data `third` fails. -/
def sampleJSON : JSONEnv :=
  { getRealtimeStatsJSON := fun i _ =>
      if i = 0 then .error (.msg "timeout")
      else if i = 1 then .ok { timestamp := 100, data := ["first"] }
      else if i = 2 then .error (.msg "timeout")
      else .ok { timestamp := 200, data := ["second", "third", "fourth"] }
    write := fun _ data => if data = "third" then some (.msg "broken pipe") else none }

/-- Sample surroundings of `loopText`: the first request fails, the second is
answered with timestamp 100 and two blocks, the later ones with the timestamp
they sent plus one and no block; `fmtBlock` fails for the first block. -/
def sampleText : TextEnv :=
  { getRealtimeStatsJSON := fun i input =>
      if i = 0 then .error (.msg "timeout")
      else if i = 1 then
        .ok { timestamp := 100,
              data := [⟨98, some [("hits", .json "1"), ("miss_histogram", .json "h")]⟩,
                       ⟨99, some [("start_time", .uint 0)]⟩] }
      else .ok { timestamp := input.timestamp + 1, data := [] }
    fmtBlock := fun out _ _ => if out.length = 1 then some (.msg "bad value") else none }

/-- Sample surroundings of `loopText` whose responses carry a block with a nil
map. -/
def sampleNilMap : TextEnv :=
  { getRealtimeStatsJSON := fun _ _ => .ok { timestamp := 7, data := [⟨1, none⟩] }
    fmtBlock := fun _ _ _ => none }

end stats

end FastlyCLI

/-! # Properties -/

namespace FastlyCLI

theorem append_tilde_ne (p : Path) : p ++ "~" ≠ p := by
  intro h
  have hl := congrArg String.length h
  simp [String.length_append] at hl
  exact absurd hl (by decide)

theorem FS.set_same (fs : FS) (p : Path) (n : Option Node) : fs.set p n p = n := by
  simp [FS.set]

theorem FS.set_other (fs : FS) (p q : Path) (n : Option Node) (h : q ≠ p) :
    fs.set p n q = fs q := by
  simp [FS.set, h]

namespace filesystem

/-- What `copyContents` leaves at the destination: nothing changed and an
error, or the whole of the source, or an error from a failed byte copy. -/
theorem copyContents_cases (f : CopyFaults) (src dst : Path) (fs : FS) :
    ((copyContents f src dst fs).2 = fs ∧ (copyContents f src dst fs).1 ≠ none) ∨
    (∃ n, fs src = some n ∧ f.copy = none ∧
      holdsData (copyContents f src dst fs).2 dst n.data = true) ∨
    ((copyContents f src dst fs).1 ≠ none ∧ f.copy ≠ none) := by
  unfold copyContents
  cases ho : f.openSrc with
  | some e => simp
  | none =>
    cases hs : fs src with
    | none => simp
    | some inNode =>
      cases hm : f.mkdirAll with
      | some e => simp
      | none =>
        cases hc : f.create with
        | some e => simp
        | none =>
          cases hcp : f.copy with
          | some we => simp
          | none =>
            right; left
            refine ⟨inNode, rfl, rfl, ?_⟩
            cases hsy : f.sync <;> simp [holdsData, FS.set]

/-- What `CopyFile` leaves at the destination: nothing changed (with an error,
or with an existing destination), or the whole of the source, or an error from
a failed byte copy. -/
theorem CopyFile_cases (f : CopyFaults) (src dst : Path) (fs : FS) :
    ((CopyFile f src dst fs).2 = fs ∧
      ((CopyFile f src dst fs).1 ≠ none ∨ (fs dst).isSome = true)) ∨
    (∃ n, fs src = some n ∧ f.copy = none ∧
      holdsData (CopyFile f src dst fs).2 dst n.data = true) ∨
    ((CopyFile f src dst fs).1 ≠ none ∧ f.copy ≠ none) := by
  have hcc := copyContents_cases f src dst fs
  have hcc2 : ((copyContents f src dst fs).2 = fs ∧
      ((copyContents f src dst fs).1 ≠ none ∨ (fs dst).isSome = true)) ∨
    (∃ n, fs src = some n ∧ f.copy = none ∧
      holdsData (copyContents f src dst fs).2 dst n.data = true) ∨
    ((copyContents f src dst fs).1 ≠ none ∧ f.copy ≠ none) := by
    rcases hcc with h | h | h
    · exact Or.inl ⟨h.1, Or.inl h.2⟩
    · exact Or.inr (Or.inl h)
    · exact Or.inr (Or.inr h)
  unfold CopyFile
  cases hss : osStat f.statSrc src fs with
  | error e => simp
  | ok ss =>
    by_cases hreg : ss.regular = true
    · cases hds : osStat f.statDst dst fs with
      | error e =>
        by_cases hne : e.is ErrNotExist = true
        · simpa [hreg, hne] using hcc2
        · simp [hreg, hne]
      | ok ds =>
        by_cases hdreg : ds.regular = true
        · by_cases hino : ss.ino = ds.ino
          · have hex : (fs dst).isSome = true := by
              unfold osStat at hds
              cases hf : f.statDst with
              | some e => simp [hf] at hds
              | none =>
                cases hd : fs dst with
                | none => simp [hf, hd] at hds
                | some d => simp
            simp [hreg, hdreg, hino, hex]
          · simpa [hreg, hdreg, hino] using hcc2
        · simp [hreg, hdreg]
    · simp [hreg]

end filesystem

end FastlyCLI

namespace FastlyCLI

namespace update

theorem Exec_eq_of_reached (e : ExecEnv) (fs : FS) (execPath cur : Path)
    (hup : e.shouldUpdate = true) (hdl : e.dlErr = none)
    (hexe : e.executable = .ok execPath) (habs : e.abs execPath = .ok cur) :
    Exec e fs =
      { moveIntoPlace e e.dlPath cur (beforeMove e fs execPath) with
        fs := (osRemoveAll e.removeAll e.dlPath
          (moveIntoPlace e e.dlPath cur (beforeMove e fs execPath)).fs).2,
        ops := (moveIntoPlace e e.dlPath cur (beforeMove e fs execPath)).ops
          ++ [.removeAll e.dlPath] } := by
  simp [Exec, replaceBinary, beforeMove, hup, hdl, hexe, habs]

/-- C3: when the version check says that no update is needed, `Exec` returns
nil, the last thing printed is "No update required.", and nothing else
happens: no `Download`, no rename, remove or copy, and the file map is
untouched. -/
theorem Exec_no_update_required (e : ExecEnv) (fs : FS) (h : e.shouldUpdate = false) :
    (Exec e fs).err = none ∧
    (Exec e fs).out.getLast? = some (.output "No update required.") ∧
    (Exec e fs).ops = [] ∧
    (Exec e fs).fs = fs := by
  simp [Exec, h]

theorem Exec_no_update_required_witness :
    (Exec { sampleEnv with shouldUpdate := false } sampleFS).err = none ∧
    (Exec { sampleEnv with shouldUpdate := false } sampleFS).out.getLast?
      = some (.output "No update required.") ∧
    (Exec { sampleEnv with shouldUpdate := false } sampleFS).ops = [] ∧
    (Exec { sampleEnv with shouldUpdate := false } sampleFS).fs = sampleFS :=
  Exec_no_update_required { sampleEnv with shouldUpdate := false } sampleFS rfl

/-- C10: a failing `Download`, `os.Executable` or `filepath.Abs` aborts the
run. `Exec` returns an error wrapping the step's error, makes no rename,
remove or copy call (the only file operation after a successful download is
the deferred removal of the staging path), and leaves every path other than
the staging path as it was. -/
theorem Exec_failing_step_aborts (e : ExecEnv) (fs : FS) (err : GoError)
    (hup : e.shouldUpdate = true) :
    (e.dlErr = some err →
      (Exec e fs).err = some (.wrap "error downloading latest release: " err) ∧
      (Exec e fs).ops = [.download e.latest]) ∧
    (e.dlErr = none → e.executable = .error err →
      (Exec e fs).err = some (.wrap "error determining executable path: " err) ∧
      (Exec e fs).ops = [.download e.latest, .executable, .removeAll e.dlPath]) ∧
    (∀ execPath, e.dlErr = none → e.executable = .ok execPath → e.abs execPath = .error err →
      (Exec e fs).err = some (.wrap "error determining absolute target path: " err) ∧
      (Exec e fs).ops =
        [.download e.latest, .executable, .abs execPath, .removeAll e.dlPath]) ∧
    ((e.dlErr = some err ∨ e.executable = .error err ∨
        ∃ execPath, e.executable = .ok execPath ∧ e.abs execPath = .error err) →
      ∀ p, p ≠ e.dlPath → (Exec e fs).fs p = fs p) := by
  refine ⟨?_, ?_, ?_, ?_⟩
  · intro hdl
    simp [Exec, hup, hdl]
  · intro hdl hexe
    simp [Exec, replaceBinary, hup, hdl, hexe]
  · intro execPath hdl hexe habs
    simp [Exec, replaceBinary, hup, hdl, hexe, habs]
  · intro h p hp
    have hdown : downloaded e fs p = fs p := by
      unfold downloaded
      cases e.dlFile <;> simp [FS.set, hp]
    cases hd : e.dlErr with
    | some derr => simp [Exec, hup, hd, hdown]
    | none =>
      have hrm : ∀ g : FS, (osRemoveAll e.removeAll e.dlPath g).2 p = g p := by
        intro g
        unfold osRemoveAll
        cases e.removeAll <;> simp [FS.set, hp]
      rcases h with h | h | ⟨execPath, hexe, habs⟩
      · simp [hd] at h
      · simp [Exec, replaceBinary, hup, hd, h, hrm, hdown]
      · simp [Exec, replaceBinary, hup, hd, hexe, habs, hrm, hdown]

theorem Exec_failing_step_aborts_witness :
    (Exec { sampleEnv with dlErr := some (.msg "timeout") } sampleFS).err
      = some (.wrap "error downloading latest release: " (.msg "timeout")) ∧
    (Exec { sampleEnv with executable := .error (.msg "no proc") } sampleFS).ops
      = [.download "2.0.0", .executable, .removeAll "/tmp/fastly-dl"] ∧
    (Exec { sampleEnv with abs := fun _ => .error (.msg "no cwd") } sampleFS).ops
      = [.download "2.0.0", .executable, .abs "/bin/fastly", .removeAll "/tmp/fastly-dl"] ∧
    (Exec { sampleEnv with dlErr := some (.msg "timeout") } sampleFS).fs "/bin/fastly"
      = some sampleOrig :=
  ⟨((Exec_failing_step_aborts { sampleEnv with dlErr := some (.msg "timeout") } sampleFS
      (.msg "timeout") rfl).1 rfl).1,
   ((Exec_failing_step_aborts { sampleEnv with executable := .error (.msg "no proc") } sampleFS
      (.msg "no proc") rfl).2.1 rfl rfl).2,
   ((Exec_failing_step_aborts { sampleEnv with abs := fun _ => .error (.msg "no cwd") } sampleFS
      (.msg "no cwd") rfl).2.2.1 "/bin/fastly" rfl rfl rfl).2,
   (Exec_failing_step_aborts { sampleEnv with dlErr := some (.msg "timeout") } sampleFS
      (.msg "timeout") rfl).2.2.2 (Or.inl rfl) "/bin/fastly" (by decide)⟩

/-- C2, refuted as stated: on Windows, with the rename aside failing, `Exec`
still moves the staged binary into place and returns nil, not the rename
error. -/
theorem Exec_windows_aside_failure_proceeds :
    sampleAsideFails.windows = true ∧
    (osRename sampleAsideFails.renameAside "/bin/fastly" "/bin/fastly~"
      (downloaded sampleAsideFails sampleFS)).1 = some (.msg "access is denied") ∧
    (Exec sampleAsideFails sampleFS).err = none ∧
    Op.rename "/tmp/fastly-dl" "/bin/fastly" ∈ (Exec sampleAsideFails sampleFS).ops := by
  decide

/-- C2, amended: on Windows, when renaming the running executable aside fails
with `err`, `Exec` records `err` in the error log, attempts to delete the `~`
file and records the error of that removal too when it fails, and then goes on
to the rename of the staged binary into the original path as in any other run.
The error log is exactly: the rename error, the removal error if any, and the
error of the fallback copy if any; the file map in which the replacement step
starts is the one the removal left. What `Exec` returns is nil or the error of
the replacement step, in which the rename error does not appear. -/
theorem Exec_windows_aside_failure (e : ExecEnv) (fs : FS) (execPath cur : Path) (err : GoError)
    (hup : e.shouldUpdate = true) (hdl : e.dlErr = none)
    (hexe : e.executable = .ok execPath) (habs : e.abs execPath = .ok cur)
    (hwin : e.windows = true)
    (hfail : (osRename e.renameAside execPath (execPath ++ "~") (downloaded e fs)).1 = some err) :
    (∃ rest, (Exec e fs).ops =
      [.download e.latest, .executable, .abs execPath,
        .rename execPath (execPath ++ "~"), .remove (execPath ++ "~"),
        .rename e.dlPath cur] ++ rest) ∧
    err ∈ (Exec e fs).errLog ∧
    ((Exec e fs).err = none ∨
      ∃ cerr, (filesystem.CopyFile e.copy e.dlPath cur
          (osRename e.renameStaged e.dlPath cur (beforeMove e fs execPath).fs).2).1 = some cerr ∧
        (Exec e fs).err = some (.wrap "error moving latest binary in place: " cerr)) ∧
    (Exec e fs).errLog =
      err ::
        ((osRemove e.removeAside (execPath ++ "~")
            (osRename e.renameAside execPath (execPath ++ "~") (downloaded e fs)).2).1.toList ++
          (if (osRename e.renameStaged e.dlPath cur (beforeMove e fs execPath).fs).1 = none then []
           else (filesystem.CopyFile e.copy e.dlPath cur
            (osRename e.renameStaged e.dlPath cur (beforeMove e fs execPath).fs).2).1.toList)) ∧
    (∀ err2, (osRemove e.removeAside (execPath ++ "~")
        (osRename e.renameAside execPath (execPath ++ "~") (downloaded e fs)).2).1 = some err2 →
      err2 ∈ (Exec e fs).errLog) ∧
    (beforeMove e fs execPath).fs =
      (osRemove e.removeAside (execPath ++ "~")
        (osRename e.renameAside execPath (execPath ++ "~") (downloaded e fs)).2).2 := by
  have hb : (beforeMove e fs execPath).ops =
      [.download e.latest, .executable, .abs execPath,
        .rename execPath (execPath ++ "~"), .remove (execPath ++ "~")] ∧
      (beforeMove e fs execPath).errLog =
        err :: (osRemove e.removeAside (execPath ++ "~")
          (osRename e.renameAside execPath (execPath ++ "~") (downloaded e fs)).2).1.toList ∧
      (beforeMove e fs execPath).fs =
        (osRemove e.removeAside (execPath ++ "~")
          (osRename e.renameAside execPath (execPath ++ "~") (downloaded e fs)).2).2 := by
    unfold beforeMove renameRunningAside
    rcases hra : osRename e.renameAside execPath (execPath ++ "~") (downloaded e fs)
      with ⟨_ | rerr, fs1⟩
    · simp [hra] at hfail
    · simp [hra] at hfail
      subst hfail
      rcases hrm : osRemove e.removeAside (execPath ++ "~") fs1 with ⟨_ | rmerr, fs2⟩ <;>
        simp [hwin, hra, hrm]
  have hlog : (Exec e fs).errLog =
      err ::
        ((osRemove e.removeAside (execPath ++ "~")
            (osRename e.renameAside execPath (execPath ++ "~") (downloaded e fs)).2).1.toList ++
          (if (osRename e.renameStaged e.dlPath cur (beforeMove e fs execPath).fs).1 = none then []
           else (filesystem.CopyFile e.copy e.dlPath cur
            (osRename e.renameStaged e.dlPath cur (beforeMove e fs execPath).fs).2).1.toList)) := by
    rw [Exec_eq_of_reached e fs execPath cur hup hdl hexe habs]
    unfold moveIntoPlace
    rcases hmv : osRename e.renameStaged e.dlPath cur (beforeMove e fs execPath).fs
      with ⟨_ | rerr, fs1⟩
    · simp [hb.2.1]
    · rcases hcp : filesystem.CopyFile e.copy e.dlPath cur fs1 with ⟨_ | cerr, fs2⟩ <;>
        simp [hcp, hb.2.1]
  refine ⟨?_, by rw [hlog]; exact List.mem_cons_self _ _, ?_, hlog, ?_, hb.2.2⟩
  · rw [Exec_eq_of_reached e fs execPath cur hup hdl hexe habs]
    unfold moveIntoPlace
    rcases hmv : osRename e.renameStaged e.dlPath cur (beforeMove e fs execPath).fs
      with ⟨_ | rerr, fs1⟩
    · simp [hb.1]
    · rcases hcp : filesystem.CopyFile e.copy e.dlPath cur fs1 with ⟨_ | cerr, fs2⟩ <;>
        simp [hcp, hb.1]
  · rw [Exec_eq_of_reached e fs execPath cur hup hdl hexe habs]
    unfold moveIntoPlace
    rcases hmv : osRename e.renameStaged e.dlPath cur (beforeMove e fs execPath).fs
      with ⟨_ | rerr, fs1⟩
    · simp
    · rcases hcp : filesystem.CopyFile e.copy e.dlPath cur fs1 with ⟨_ | cerr, fs2⟩ <;>
        simp [hcp]
  · intro err2 h2
    rw [hlog, h2]
    simp

theorem Exec_windows_aside_failure_witness :
    GoError.msg "access is denied" ∈ (Exec sampleAsideFails sampleFS).errLog ∧
    (∃ rest, (Exec sampleAsideFails sampleFS).ops =
      [.download "2.0.0", .executable, .abs "/bin/fastly",
        .rename "/bin/fastly" ("/bin/fastly" ++ "~"), .remove ("/bin/fastly" ++ "~"),
        .rename "/tmp/fastly-dl" "/bin/fastly"] ++ rest) ∧
    ErrNotExist ∈ (Exec sampleAsideFails sampleFS).errLog ∧
    (Exec sampleAsideFails sampleFS).errLog = [.msg "access is denied", ErrNotExist] ∧
    (Exec { sampleAsideFails with removeAside := some (.msg "sharing violation") }
      sampleFS).errLog = [.msg "access is denied", .msg "sharing violation"] :=
  ⟨(Exec_windows_aside_failure sampleAsideFails sampleFS "/bin/fastly" "/bin/fastly"
      (.msg "access is denied") rfl rfl rfl rfl rfl (by decide)).2.1,
   (Exec_windows_aside_failure sampleAsideFails sampleFS "/bin/fastly" "/bin/fastly"
      (.msg "access is denied") rfl rfl rfl rfl rfl (by decide)).1,
   (Exec_windows_aside_failure sampleAsideFails sampleFS "/bin/fastly" "/bin/fastly"
      (.msg "access is denied") rfl rfl rfl rfl rfl (by decide)).2.2.2.2.1 ErrNotExist
      (by decide),
   (Exec_windows_aside_failure sampleAsideFails sampleFS "/bin/fastly" "/bin/fastly"
      (.msg "access is denied") rfl rfl rfl rfl rfl (by decide)).2.2.2.1.trans (by decide),
   by decide⟩

/-- C9, refuted as stated: a failed download that left a file at the path it
returned is followed by no removal, so the file is still there when `Exec`
returns; and when the deferred removal itself fails after a successful copy,
the staging file outlives a successful run. -/
theorem Exec_staging_file_left_behind :
    (Exec sampleDownloadFails sampleFS).err ≠ none ∧
    (Exec sampleDownloadFails sampleFS).ops = [.download "2.0.0"] ∧
    ((Exec sampleDownloadFails sampleFS).fs "/tmp/fastly-dl").isSome = true ∧
    (Exec sampleRemoveAllFails sampleFS).err = none ∧
    (Exec sampleRemoveAllFails sampleFS).fs "/tmp/fastly-dl" = some sampleStaged := by
  decide

/-- C9, amended: in every run in which `Download` succeeded, whatever happens
afterwards (failure to resolve the executable path, failure to make it
absolute, copy failure, success), the last file operation of `Exec` is
`os.RemoveAll` on the staging path, and the staging file is absent after
`Exec` returns provided that removal does not itself fail. When `Download`
fails, `Exec` attempts no removal. -/
theorem Exec_staging_removed (e : ExecEnv) (fs : FS) (hup : e.shouldUpdate = true) :
    (e.dlErr = none →
      (Exec e fs).ops.getLast? = some (.removeAll e.dlPath) ∧
      (e.removeAll = none → (Exec e fs).fs e.dlPath = none)) ∧
    (∀ err, e.dlErr = some err →
      (Exec e fs).ops = [.download e.latest] ∧ (Exec e fs).fs = downloaded e fs) := by
  constructor
  · intro hdl
    constructor
    · simp [Exec, hup, hdl]
    · intro hrm
      simp [Exec, hup, hdl, hrm, osRemoveAll, FS.set]
  · intro err hdl
    simp [Exec, hup, hdl]

theorem Exec_staging_removed_witness :
    (Exec sampleCopyFails sampleFS).err ≠ none ∧
    (Exec sampleCopyFails sampleFS).ops.getLast? = some (.removeAll "/tmp/fastly-dl") ∧
    (Exec sampleCopyFails sampleFS).fs "/tmp/fastly-dl" = none ∧
    (Exec sampleDownloadFails sampleFS).ops = [.download "2.0.0"] :=
  ⟨by decide,
   ((Exec_staging_removed sampleCopyFails sampleFS rfl).1 rfl).1,
   ((Exec_staging_removed sampleCopyFails sampleFS rfl).1 rfl).2 rfl,
   ((Exec_staging_removed sampleDownloadFails sampleFS rfl).2 _ rfl).1⟩

theorem osRename_cases (fault : Option GoError) (old new : Path) (fs : FS) :
    ((osRename fault old new fs).1 ≠ none ∧ (osRename fault old new fs).2 = fs) ∨
    ((osRename fault old new fs).1 = none ∧
      ∃ n, fs old = some n ∧ (osRename fault old new fs).2 new = some n) := by
  unfold osRename
  cases fault with
  | some e => simp
  | none =>
    cases h : fs old with
    | none => simp
    | some n =>
      by_cases hon : old = new
      · subst hon; simp [h]
      · simp [hon, FS.set, Ne.symm hon]

theorem moveIntoPlace_fs (e : ExecEnv) (l c : Path) (r : ExecResult) :
    (moveIntoPlace e l c r).fs =
      if (osRename e.renameStaged l c r.fs).1 = none then (osRename e.renameStaged l c r.fs).2
      else (filesystem.CopyFile e.copy l c (osRename e.renameStaged l c r.fs).2).2 := by
  unfold moveIntoPlace
  rcases hmv : osRename e.renameStaged l c r.fs with ⟨_ | rerr, fs1⟩
  · simp
  · rcases hcp : filesystem.CopyFile e.copy l c fs1 with ⟨_ | cerr, fs2⟩ <;> simp [hcp]

theorem moveIntoPlace_err (e : ExecEnv) (l c : Path) (r : ExecResult) :
    (moveIntoPlace e l c r).err =
      if (osRename e.renameStaged l c r.fs).1 = none then none
      else ((filesystem.CopyFile e.copy l c (osRename e.renameStaged l c r.fs).2).1).map
        (GoError.wrap "error moving latest binary in place: ") := by
  unfold moveIntoPlace
  rcases hmv : osRename e.renameStaged l c r.fs with ⟨_ | rerr, fs1⟩
  · simp
  · rcases hcp : filesystem.CopyFile e.copy l c fs1 with ⟨_ | cerr, fs2⟩ <;> simp [hcp]

/-- The file map when the replacement step is reached: the target still holds
the original unless the Windows rename aside moved it away, and the staging
path holds the staged binary or, when it coincides with the `~` path, the
original. -/
theorem beforeMove_fs (e : ExecEnv) (fs : FS) (cur : Path) (orig staged : Node)
    (horig : fs cur = some orig) (hstaged : e.dlFile = some staged) (hne : e.dlPath ≠ cur) :
    ((beforeMove e fs cur).fs cur = some orig ∨
      ((beforeMove e fs cur).fs cur = none ∧ e.windows = true ∧ e.renameAside = none)) ∧
    (∀ n, (beforeMove e fs cur).fs e.dlPath = some n → n = staged ∨ n = orig) := by
  have hD : downloaded e fs = fs.set e.dlPath (some staged) := by simp [downloaded, hstaged]
  have hDcur : downloaded e fs cur = some orig := by
    rw [hD, FS.set_other _ _ _ _ (Ne.symm hne), horig]
  have hDdl : downloaded e fs e.dlPath = some staged := by rw [hD, FS.set_same]
  have htl : cur ≠ cur ++ "~" := Ne.symm (append_tilde_ne cur)
  unfold beforeMove renameRunningAside
  cases hw : e.windows with
  | false => simp [hDcur, hDdl]
  | true =>
    cases hra : e.renameAside with
    | none =>
      by_cases hdt : e.dlPath = cur ++ "~"
      · simp [osRename, hDcur, htl, FS.set, hdt]
      · simp [osRename, hDcur, htl, FS.set, hdt, hne, hDdl]
    | some rerr =>
      cases hrm : e.removeAside with
      | some e2 => simp [osRename, osRemove, hDcur, hDdl]
      | none =>
        cases hex : downloaded e fs (cur ++ "~") with
        | none => simp [osRename, osRemove, hex, hDcur, hDdl]
        | some x =>
          by_cases hdt : e.dlPath = cur ++ "~"
          · simp [osRename, osRemove, hex, FS.set, htl, hDcur, hdt]
          · simp [osRename, osRemove, hex, FS.set, htl, hDcur, hdt, hDdl]

/-- C1, refuted as stated. Off Windows: the rename of the staged binary fails
and the fallback copy fails after two bytes, which leaves a truncated file at
the target. On Windows: the running executable is renamed aside, the rename of
the staged binary fails and the copy fails, which leaves nothing at the
target while the original sits at the `~` path. -/
theorem Exec_target_lost_or_truncated :
    (Exec sampleCopyFails sampleFS).fs "/bin/fastly"
      = some { regular := true, ino := 1, data := [7, 8], synced := false } ∧
    holdsData (Exec sampleCopyFails sampleFS).fs "/bin/fastly" sampleOrig.data = false ∧
    holdsData (Exec sampleCopyFails sampleFS).fs "/bin/fastly" sampleStaged.data = false ∧
    (Exec sampleWindowsCopyFails sampleFS).fs "/bin/fastly" = none ∧
    (Exec sampleWindowsCopyFails sampleFS).fs "/bin/fastly~" = some sampleOrig := by
  decide

/-- C1, amended: with the original binary at the target path and the staged
binary at a different path, the file at the target path after `Exec` returns
holds the complete original or the complete new binary whenever `Exec`
returns nil, or stops before the replacement (no update needed, download
failed), or no byte copy fails and the running executable was not renamed
aside (off Windows, or the Windows rename aside was refused). -/
theorem Exec_target_original_or_new (e : ExecEnv) (fs : FS) (cur : Path) (orig staged : Node)
    (hexe : e.executable = .ok cur) (habs : e.abs cur = .ok cur)
    (horig : fs cur = some orig) (hstaged : e.dlFile = some staged) (hne : e.dlPath ≠ cur)
    (hguard : (Exec e fs).err = none ∨ e.shouldUpdate = false ∨ e.dlErr.isSome = true ∨
      (e.copy.copy = none ∧ (e.windows = false ∨ e.renameAside.isSome = true))) :
    holdsData (Exec e fs).fs cur orig.data = true ∨
    holdsData (Exec e fs).fs cur staged.data = true := by
  have hD : downloaded e fs cur = some orig := by
    simp [downloaded, hstaged, FS.set, Ne.symm hne, horig]
  cases hup : e.shouldUpdate with
  | false => left; simp [Exec, hup, holdsData, horig]
  | true =>
    cases hdl : e.dlErr with
    | some derr => left; simp [Exec, hup, hdl, holdsData, hD]
    | none =>
      have hrm : ∀ g : FS, (osRemoveAll e.removeAll e.dlPath g).2 cur = g cur := by
        intro g
        unfold osRemoveAll
        cases e.removeAll <;> simp [FS.set, Ne.symm hne]
      obtain ⟨hBcur, hBdl⟩ := beforeMove_fs e fs cur orig staged horig hstaged hne
      have hfs : (Exec e fs).fs cur = (moveIntoPlace e e.dlPath cur (beforeMove e fs cur)).fs cur := by
        rw [Exec_eq_of_reached e fs cur cur hup hdl hexe habs]
        exact hrm _
      have herr : (Exec e fs).err = (moveIntoPlace e e.dlPath cur (beforeMove e fs cur)).err := by
        rw [Exec_eq_of_reached e fs cur cur hup hdl hexe habs]
      rw [herr, moveIntoPlace_err] at hguard
      simp only [holdsData, hfs, moveIntoPlace_fs]
      have hdata : ∀ n, (beforeMove e fs cur).fs e.dlPath = some n → ∀ g : FS,
          holdsData g cur n.data = true →
          holdsData g cur orig.data = true ∨ holdsData g cur staged.data = true := by
        intro n hn g hg
        rcases hBdl n hn with h | h
        · right; rw [← h]; exact hg
        · left; rw [← h]; exact hg
      simp only [holdsData] at hdata
      rcases osRename_cases e.renameStaged e.dlPath cur (beforeMove e fs cur).fs
        with ⟨hfail, hsame⟩ | ⟨hok, n, hn, hcur⟩
      · rw [if_neg hfail, hsame]
        rw [if_neg hfail, hsame] at hguard
        rcases filesystem.CopyFile_cases e.copy e.dlPath cur (beforeMove e fs cur).fs
          with ⟨hunch, hex⟩ | ⟨n, hn, -, hd⟩ | ⟨hbad, hcopy⟩
        · rw [hunch]
          rcases hBcur with h | ⟨h, hw, hra⟩
          · left; simp [h]
          · exfalso
            rcases hex with hex | hex
            · rcases hguard with hg | hg | hg | hg
              · simp at hg; exact hex hg
              · simp [hup] at hg
              · simp [hdl] at hg
              · simp [hw, hra] at hg
            · simp [h] at hex
        · exact hdata n hn _ hd
        · exfalso
          rcases hguard with hg | hg | hg | hg
          · simp at hg; exact hbad hg
          · simp [hup] at hg
          · simp [hdl] at hg
          · exact hcopy hg.1
      · rw [if_pos hok]
        apply hdata n hn
        simp [hcur]

theorem Exec_target_original_or_new_witness :
    (Exec sampleEnv sampleFS).err = none ∧
    holdsData (Exec sampleEnv sampleFS).fs "/bin/fastly" sampleStaged.data = true ∧
    (Exec sampleCreateFails sampleFS).err ≠ none ∧
    (holdsData (Exec sampleCreateFails sampleFS).fs "/bin/fastly" sampleOrig.data = true ∨
      holdsData (Exec sampleCreateFails sampleFS).fs "/bin/fastly" sampleStaged.data = true) :=
  ⟨by decide,
   (Exec_target_original_or_new sampleEnv sampleFS "/bin/fastly" sampleOrig sampleStaged
     rfl rfl rfl rfl (by decide) (Or.inl (by decide))).resolve_left (by decide),
   by decide,
   Exec_target_original_or_new sampleCreateFails sampleFS "/bin/fastly" sampleOrig sampleStaged
     rfl rfl rfl rfl (by decide) (Or.inr (Or.inr (Or.inr ⟨rfl, Or.inl rfl⟩)))⟩

end update

end FastlyCLI

namespace FastlyCLI

namespace cmd

theorem step_cases (w : World) (pick : Bool) (s : State) :
    (step w pick s = s ∧ mainCanStep s = false ∧ bgCanStep s = false) ∨
    (step w pick s = stepMain w s ∧ mainCanStep s = true) ∨
    (step w pick s = stepBg w s ∧ bgCanStep s = true) := by
  unfold step
  cases pick <;> cases hm : mainCanStep s <;> cases hb : bgCanStep s <;> simp

theorem steps_invariant (w : World) (I : State → Prop)
    (hmain : ∀ s, I s → mainCanStep s = true → I (stepMain w s))
    (hbg : ∀ s, I s → bgCanStep s = true → I (stepBg w s)) :
    ∀ (n : Nat) (sched : Nat → Bool) (s : State), I s → I (steps w n sched s) := by
  intro n
  induction n with
  | zero => intro sched s hs; exact hs
  | succ n ih =>
    intro sched s hs
    apply ih
    rcases step_cases w (sched 0) s with ⟨h, -, -⟩ | ⟨h, hc⟩ | ⟨h, hc⟩
    · rw [h]; exact hs
    · rw [h]; exact hmain s hs hc
    · rw [h]; exact hbg s hs hc

theorem steps_halted (w : World) (n : Nat) (sched : Nat → Bool) (s : State)
    (h : s.mpc = .halted) : steps w n sched s = s := by
  induction n generalizing sched with
  | zero => rfl
  | succ n ih =>
    have hst : step w (sched 0) s = s := by
      simp [step, mainCanStep, bgCanStep, h]
    simp only [steps, hst]
    exact ih _

theorem afterWrite_refreshErr_no_panic (w : World) (b : State) (verbose : Bool) :
    Ev.assertionPanic ∉ afterWrite verbose (refreshErr w b) := by
  unfold afterWrite refreshErr
  cases (w.load b.loads b.file.remoteConfig b.file).1 <;>
    cases verbose <;> simp [GoError.isRemediation]

theorem afterWrite_filter_isMain (verbose : Bool) (v : Option GoError) :
    (afterWrite verbose v).filter Ev.isMain = afterWrite verbose v := by
  unfold afterWrite
  cases v with
  | none => cases verbose <;> simp [Ev.isMain]
  | some e => cases verbose <;> by_cases h : e.isRemediation = true <;> simp [h, Ev.isMain]

theorem afterWrite_filter_isBg (verbose : Bool) (v : Option GoError) :
    (afterWrite verbose v).filter Ev.isBg = [] := by
  unfold afterWrite
  cases v with
  | none => cases verbose <;> simp [Ev.isBg]
  | some e => cases verbose <;> by_cases h : e.isRemediation = true <;> simp [h, Ev.isBg]

theorem Inv_bpc_of_wait_false (w : World) (b s : State) (d : Doc) (mid : List Ev)
    (h : Inv w b s d mid) (hw : b.wait = false) : s.bpc = .idle := by
  rcases h.bg_wait with h1 | h1
  · simp [hw] at h1
  · exact h1


theorem Inv_stepMain (w : World) (b s : State) (d : Doc) (mid : List Ev)
    (h : Inv w b s d mid) (hc : mainCanStep s = true) :
    ∃ d1 mid1, Inv w b (stepMain w s) d1 mid1 := by
  obtain ⟨hte, hwe, hve, hdoc, hdr, hdn, hre, hex, hml, hbl, hbv, hbw, hnw⟩ := h
  obtain ⟨file, elc, wait, verbose, loads, runErr, mpc, bpc, trace, exit⟩ := s
  simp only at hte hwe hve hdoc hdr hdn hre hex hml hbl hbv hbw hnw
  subst hte hwe hve
  cases mpc with
  | callRun =>
    have hd : file = d := hdn rfl
    subst hd
    clear hdn hdr hre hc hnw
    refine ⟨file, mid ++ [.run file], ?_⟩
    simp only [mainLine] at hml
    simp only [stepMain]
    cases hr : w.run file <;> cases hw : b.wait <;> cases bpc <;>
      simp only [bgVars, bgLine, hw, false_and, true_and, reduceCtorEq, or_false, or_true,
        false_or, and_true, and_false] at hbv hbl hbw <;>
      (constructor <;> first | exact hdoc |
          simp [*, afterRun, bgVars, bgLine, mainLine, report, Ev.isMain, Ev.isBg])
  | reportErr =>
    have hrun : runErr = w.run d := by simpa using hdr
    have hsome : (w.run d).isSome = true := hre rfl
    subst hrun
    clear hdn hdr hre hc hnw
    cases hr : w.run d with
    | none => simp [hr] at hsome
    | some err =>
      refine ⟨d, mid ++ [.printDeduced err], ?_⟩
      simp only [mainLine] at hml
      simp only [stepMain, hr]
      cases hw : b.wait <;> cases bpc <;>
        simp only [bgVars, bgLine, hw, false_and, true_and, reduceCtorEq, or_false, or_true,
          false_or, and_true, and_false] at hbv hbl hbw <;>
        (constructor <;> first | exact hdoc |
            simp [*, afterRun, bgVars, bgLine, mainLine, report, Ev.isMain, Ev.isBg])
  | receive =>
    have hsend : bpc = .send := by simpa [mainCanStep] using hc
    subst hsend
    have hrun : runErr = w.run d := by simpa using hdr
    subst hrun
    clear hdn hdr hre hc hnw
    refine ⟨d, mid ++ [.send, .recv], ?_⟩
    simp only [mainLine] at hml
    simp only [stepMain]
    simp only [bgVars, bgLine, reduceCtorEq, or_false, or_true, false_or, and_true, and_false]
      at hbv hbl hbw
    constructor <;> first | exact hdoc |
      simp [*, afterRun, bgVars, bgLine, mainLine, report, Ev.isMain, Ev.isBg]
  | callAfterWrite =>
    have hrun : runErr = w.run d := by simpa using hdr
    subst hrun
    have hw : b.wait = true := by
      cases hw : b.wait with
      | false => simp [hw] at hnw
      | true => rfl
    have hfin : bpc = .finished := by
      cases bpc <;> simp_all [bgVars]
    subst hfin
    clear hdn hdr hre hc hnw
    simp only [bgVars, bgLine, reduceCtorEq, or_false, or_true, false_or, and_true, and_false, true_or]
      at hbv hbl hbw
    obtain ⟨-, hfile, helc⟩ := hbv
    subst helc
    have hnp := afterWrite_refreshErr_no_panic w b b.verboseOutput
    have hf1 := afterWrite_filter_isMain b.verboseOutput (refreshErr w b)
    have hf2 := afterWrite_filter_isBg b.verboseOutput (refreshErr w b)
    refine ⟨d, mid ++ ([.readErrLoadConfig (refreshErr w b), .afterWrite] ++
      afterWrite b.verboseOutput (refreshErr w b)), ?_⟩
    simp only [mainLine] at hml
    simp only [stepMain, hnp, if_false]
    constructor <;> first | exact hdoc |
      simp [*, afterRun, bgVars, bgLine, mainLine, report, rendezvous, Ev.isMain, Ev.isBg]
  | finish =>
    have hrun : runErr = w.run d := by simpa using hdr
    subst hrun
    clear hdn hdr hre hc
    refine ⟨d, mid ++ [.exit (if (w.run d).isSome then 1 else 0)], ?_⟩
    simp only [mainLine] at hml
    simp only [stepMain]
    cases hw : b.wait <;> cases bpc <;>
      simp only [bgVars, bgLine, hw, false_and, true_and, reduceCtorEq, or_false, or_true,
        false_or, and_true, and_false] at hbv hbl hbw <;>
      (constructor <;> first | exact hdoc |
          simp [*, afterRun, bgVars, bgLine, mainLine, report, Ev.isMain, Ev.isBg])
  | halted => simp [mainCanStep] at hc

theorem Inv_stepBg (w : World) (b s : State) (d : Doc) (mid : List Ev)
    (h : Inv w b s d mid) (hc : bgCanStep s = true) :
    ∃ d1 mid1, Inv w b (stepBg w s) d1 mid1 := by
  obtain ⟨hte, hwe, hve, hdoc, hdr, hdn, hre, hex, hml, hbl, hbv, hbw, hnw⟩ := h
  obtain ⟨file, elc, wait, verbose, loads, runErr, mpc, bpc, trace, exit⟩ := s
  simp only at hte hwe hve hdoc hdr hdn hre hex hml hbl hbv hbw hnw
  subst hte hwe hve
  cases bpc with
  | load =>
    simp only [bgVars, bgLine] at hbv hbl
    obtain ⟨hw, hfile, hloads, helc, hphase⟩ := hbv
    subst hfile hloads helc
    have hrd : refreshed w b = (w.load b.loads b.file.remoteConfig b.file).2 := rfl
    have hre2 : refreshErr w b = match (w.load b.loads b.file.remoteConfig b.file).1 with
      | some err => some (.remediation
          (.wrap "there was a problem updating the versioning information for the Fastly CLI:\n\n"
            err) w.bugRemediation)
      | none => none := rfl
    rcases hld : w.load b.loads b.file.remoteConfig b.file with ⟨_ | lerr, doc1⟩
    · rw [hld] at hrd hre2
      simp only at hrd hre2
      cases mpc with
      | callRun =>
        have hd : b.file = d := hdn rfl
        subst hd
        clear hdn hdr hre hc hnw hdoc
        refine ⟨doc1, mid ++ [.bgLoad b.file.remoteConfig], ?_⟩
        simp only [mainLine] at hml
        simp only [stepBg, hld]
        constructor <;>
          simp [*, bgVars, bgLine, mainLine, Ev.isMain, Ev.isBg]
      | halted => simp [bgCanStep] at hc
      | _ =>
        simp only [reduceCtorEq, false_or, or_false, or_true, or_self] at hphase hdr <;>
        (clear hdn hc
         refine ⟨d, mid ++ [.bgLoad b.file.remoteConfig], ?_⟩
         simp only [mainLine] at hml
         simp only [stepBg, hld]
         constructor <;> first | exact hdoc |
           simp [*, bgVars, bgLine, mainLine, Ev.isMain, Ev.isBg])
    · rw [hld] at hrd hre2
      simp only at hrd hre2
      cases mpc with
      | callRun =>
        have hd : b.file = d := hdn rfl
        subst hd
        clear hdn hdr hre hc hnw hdoc
        refine ⟨doc1, mid ++ [.bgLoad b.file.remoteConfig], ?_⟩
        simp only [mainLine] at hml
        simp only [stepBg, hld]
        constructor <;>
          simp [*, bgVars, bgLine, mainLine, Ev.isMain, Ev.isBg]
      | halted => simp [bgCanStep] at hc
      | _ =>
        simp only [reduceCtorEq, false_or, or_false, or_true, or_self] at hphase hdr <;>
        (clear hdn hc
         refine ⟨d, mid ++ [.bgLoad b.file.remoteConfig], ?_⟩
         simp only [mainLine] at hml
         simp only [stepBg, hld]
         constructor <;> first | exact hdoc |
           simp [*, bgVars, bgLine, mainLine, Ev.isMain, Ev.isBg])
  | setErr e =>
    simp only [bgVars, bgLine] at hbv hbl
    obtain ⟨hw, hfile, helc, hload, hphase⟩ := hbv
    subst helc
    have hre2 : refreshErr w b = some (.remediation
        (.wrap "there was a problem updating the versioning information for the Fastly CLI:\n\n"
          e) w.bugRemediation) := by
      simp [refreshErr, hload]
    refine ⟨d, mid ++ [.setErrLoadConfig (.remediation
        (.wrap "there was a problem updating the versioning information for the Fastly CLI:\n\n"
          e) w.bugRemediation)], ?_⟩
    simp only [stepBg]
    cases mpc <;>
      simp only [mainLine, reduceCtorEq, false_or, or_false, or_true, or_self, true_or]
        at hphase hml hdr <;>
      (constructor <;> first | exact hdoc | exact hdn |
        simp [*, bgVars, bgLine, mainLine, Ev.isMain, Ev.isBg])
  | idle => cases mpc <;> simp [bgCanStep] at hc
  | send => cases mpc <;> simp [bgCanStep] at hc
  | finished => cases mpc <;> simp [bgCanStep] at hc

theorem Inv_step (w : World) (b s : State) (pick : Bool)
    (h : ∃ d mid, Inv w b s d mid) : ∃ d mid, Inv w b (step w pick s) d mid := by
  obtain ⟨d, mid, hi⟩ := h
  rcases step_cases w pick s with ⟨hs, -, -⟩ | ⟨hs, hc⟩ | ⟨hs, hc⟩
  · rw [hs]; exact ⟨d, mid, hi⟩
  · rw [hs]; exact Inv_stepMain w b s d mid hi hc
  · rw [hs]; exact Inv_stepBg w b s d mid hi hc

theorem Inv_steps (w : World) (b : State) (n : Nat) (sched : Nat → Bool) (s : State)
    (h : ∃ d mid, Inv w b s d mid) : ∃ d mid, Inv w b (steps w n sched s) d mid := by
  induction n generalizing sched s with
  | zero => exact h
  | succ n ih => exact ih _ _ (Inv_step w b s (sched 0) h)

theorem stepMain_left (w : World) (s : State) (hc : mainCanStep s = true) :
    mainLeft (stepMain w s).mpc < mainLeft s.mpc ∧
    bgLeft (stepMain w s).bpc ≤ bgLeft s.bpc := by
  obtain ⟨file, elc, wait, verbose, loads, runErr, mpc, bpc, trace, exit⟩ := s
  cases mpc with
  | callRun =>
    simp only [stepMain, afterRun]
    cases (w.run file).isSome <;> cases wait <;> simp [mainLeft]
  | reportErr =>
    simp only [stepMain, afterRun]
    cases runErr <;> cases wait <;> simp [mainLeft]
  | receive =>
    have hsend : bpc = .send := by simpa [mainCanStep] using hc
    subst hsend
    simp [stepMain, mainLeft, bgLeft]
  | callAfterWrite =>
    simp only [stepMain]
    split <;> simp [mainLeft]
  | finish => simp [stepMain, mainLeft]
  | halted => simp [mainCanStep] at hc

theorem stepBg_left (w : World) (s : State) (hc : bgCanStep s = true) :
    (stepBg w s).mpc = s.mpc ∧ bgLeft (stepBg w s).bpc < bgLeft s.bpc := by
  obtain ⟨file, elc, wait, verbose, loads, runErr, mpc, bpc, trace, exit⟩ := s
  cases bpc with
  | load =>
    simp only [stepBg]
    rcases w.load loads file.remoteConfig file with ⟨_ | lerr, doc1⟩ <;> simp [bgLeft]
  | setErr e => simp [stepBg, bgLeft]
  | idle => cases mpc <;> simp [bgCanStep] at hc
  | send => cases mpc <;> simp [bgCanStep] at hc
  | finished => cases mpc <;> simp [bgCanStep] at hc

/-- No deadlock: while the process has not ended, every step makes progress. -/
theorem step_remaining (w : World) (b s : State) (d : Doc) (mid : List Ev) (pick : Bool)
    (h : Inv w b s d mid) (hne : s.mpc ≠ .halted) :
    remaining (step w pick s) < remaining s := by
  rcases step_cases w pick s with ⟨-, hm, hb⟩ | ⟨hs, hc⟩ | ⟨hs, hc⟩
  · exfalso
    have hbv := h.bg_vars
    have hnw := h.no_wait
    obtain ⟨file, elc, wait, verbose, loads, runErr, mpc, bpc, trace, exit⟩ := s
    simp only at hbv hnw hne
    cases mpc <;> simp [mainCanStep] at hm hne
    cases bpc <;> simp [bgCanStep, bgVars] at hm hb hbv
    simp [hbv.1] at hnw
  · rw [hs]
    have := stepMain_left w s hc
    unfold remaining
    omega
  · rw [hs]
    have := stepBg_left w s hc
    unfold remaining
    rw [this.1]
    omega

theorem steps_halt (w : World) (b : State) (n : Nat) (sched : Nat → Bool) (s : State)
    (h : ∃ d mid, Inv w b s d mid) (hn : remaining s ≤ n) :
    (steps w n sched s).mpc = .halted := by
  induction n generalizing sched s with
  | zero =>
    have h0 : remaining s = 0 := Nat.le_zero.mp hn
    unfold remaining at h0
    cases hm : s.mpc <;> simp [hm, mainLeft] at h0
    simpa [steps] using hm
  | succ n ih =>
    by_cases hm : s.mpc = .halted
    · rw [steps_halted w _ sched s hm]; exact hm
    · obtain ⟨d, mid, hi⟩ := h
      have hlt := step_remaining w b s d mid (sched 0) hi hm
      exact ih _ _ (Inv_step w b s (sched 0) ⟨d, mid, hi⟩) (by omega)

theorem launch_Inv (w : World) (verbose : Bool) (doc : Doc) (loads : Nat) (t : List Ev) :
    Inv w (launch w verbose doc loads t) (launch w verbose doc loads t) doc [] := by
  unfold launch
  cases w.stale doc.lastChecked doc.ttl <;>
    (constructor <;> simp [mainLine, bgLine, bgVars])

theorem launch_remaining (w : World) (verbose : Bool) (doc : Doc) (loads : Nat) (t : List Ev) :
    remaining (launch w verbose doc loads t) ≤ 8 := by
  unfold launch remaining
  cases w.stale doc.lastChecked doc.ttl <;> simp [mainLeft, bgLeft]

theorem launch_mpc (w : World) (verbose : Bool) (doc : Doc) (loads : Nat) (t : List Ev) :
    (launch w verbose doc loads t).mpc = .callRun := by
  unfold launch
  cases w.stale doc.lastChecked doc.ttl <;> rfl

theorem launch_trace (w : World) (verbose : Bool) (doc : Doc) (loads : Nat) (t : List Ev)
    (ht : ∀ ev ∈ t, Ev.isBootstrap ev = true) :
    ∀ ev ∈ (launch w verbose doc loads t).trace, Ev.isBootstrap ev = true := by
  unfold launch
  cases w.stale doc.lastChecked doc.ttl <;> cases verbose <;>
    simpa [Ev.isBootstrap, or_imp, forall_and] using ht

theorem isBootstrap_notice (c : Prop) [Decidable c] :
    Ev.isBootstrap (.out (if c then .legacyNotice else .createNotice)) = true := by
  split <;> rfl

theorem notice_ne_go (c : Prop) [Decidable c] :
    Ev.go ≠ Ev.out (if c then .legacyNotice else .createNotice) := by
  simp

/-- The two ways the bootstrap ends: the process is over with status 1 after
a failed load, or `main` is about to call `app.Run`. -/
theorem bootstrap_cases (w : World) :
    ((bootstrap w).mpc = .halted ∧ (bootstrap w).exit = some 1 ∧
      ∃ pre e, (bootstrap w).trace = pre ++ [.load w.remoteEndpoint,
          .printErr (.remediation e w.networkRemediation), .exit 1] ∧
        (∀ ev ∈ pre, Ev.isBootstrap ev = true) ∧ Ev.go ∉ pre) ∨
    (∃ verbose doc loads t, bootstrap w = launch w verbose doc loads t ∧
      (∀ ev ∈ t, Ev.isBootstrap ev = true) ∧ Ev.go ∉ t) := by
  unfold bootstrap
  rcases hr : w.read with ⟨_ | rerr, d0⟩
  · simp only [repair]
    by_cases hl : d0.lastChecked = ""
    · rcases hld : w.load 0 w.remoteEndpoint d0 with ⟨_ | e, d1⟩
      · right
        simp only [hl, if_true]
        refine ⟨_, _, _, _, rfl, ?_, ?_⟩ <;>
          cases verboseOutput w.args <;> simp [Ev.isBootstrap]
      · left
        simp only [hl, if_true, exitAtBootstrap, true_and]
        refine ⟨[Ev.read] ++ (if verboseOutput w.args = true then
          [Ev.out .retryWarning, Ev.out .lineBreak] else []), e, by simp, ?_, ?_⟩ <;>
          cases verboseOutput w.args <;> simp [Ev.isBootstrap]
    · right
      simp only [hl, if_false]
      exact ⟨_, _, _, _, rfl, by simp [Ev.isBootstrap], by simp⟩
  · simp only
    have hn : Ev.isBootstrap
        (.out (if rerr = w.errLegacyConfig then .legacyNotice else .createNotice)) = true :=
      isBootstrap_notice _
    rcases hld0 : w.load 0 w.remoteEndpoint d0 with ⟨_ | e0, d1⟩
    · simp only [repair]
      by_cases hl : d1.lastChecked = ""
      · rcases hld : w.load 1 w.remoteEndpoint d1 with ⟨_ | e, d2⟩
        · right
          simp only [hl, if_true]
          refine ⟨_, _, _, _, rfl, ?_, ?_⟩ <;>
            cases verboseOutput w.args <;> simp [hn] <;> simp [Ev.isBootstrap]
        · left
          simp only [hl, if_true, exitAtBootstrap, true_and]
          refine ⟨[Ev.read] ++ (if verboseOutput w.args = true then
            [Ev.out (if rerr = w.errLegacyConfig then .legacyNotice else .createNotice),
              Ev.out .lineBreak] else []) ++ [.load w.remoteEndpoint] ++
            (if verboseOutput w.args = true then
              [Ev.out .retryWarning, Ev.out .lineBreak] else []), e, by simp, ?_, ?_⟩ <;>
            cases verboseOutput w.args <;> simp [hn] <;> simp [Ev.isBootstrap]
      · right
        simp only [hl, if_false]
        refine ⟨_, _, _, _, rfl, ?_, ?_⟩ <;>
          cases verboseOutput w.args <;> simp [hn] <;> simp [Ev.isBootstrap]
    · left
      simp only [exitAtBootstrap, true_and]
      refine ⟨[Ev.read] ++ (if verboseOutput w.args = true then
        [Ev.out (if rerr = w.errLegacyConfig then .legacyNotice else .createNotice),
          Ev.out .lineBreak] else []), e0, by simp, ?_, ?_⟩ <;>
        cases verboseOutput w.args <;> simp [hn] <;> simp [Ev.isBootstrap]

theorem isMain_of_isBootstrap (ev : Ev) (h : Ev.isBootstrap ev = true) : Ev.isMain ev = false := by
  cases ev with
  | out t => cases t <;> simp_all [Ev.isBootstrap, Ev.isMain]
  | _ => simp_all [Ev.isBootstrap, Ev.isMain]

theorem isBg_of_isBootstrap (ev : Ev) (h : Ev.isBootstrap ev = true) : Ev.isBg ev = false := by
  cases ev <;> simp_all [Ev.isBootstrap, Ev.isBg]

theorem filter_isMain_bootstrap (t : List Ev) (h : ∀ ev ∈ t, Ev.isBootstrap ev = true) :
    t.filter Ev.isMain = [] := by
  rw [List.filter_eq_nil_iff]
  intro ev hev
  simp [isMain_of_isBootstrap ev (h ev hev)]

theorem filter_isBg_bootstrap (t : List Ev) (h : ∀ ev ∈ t, Ev.isBootstrap ev = true) :
    t.filter Ev.isBg = [] := by
  rw [List.filter_eq_nil_iff]
  intro ev hev
  simp [isBg_of_isBootstrap ev (h ev hev)]

/-- Every run whose bootstrap succeeds reaches its end within the eight steps
of `main`, for every schedule, in a state that satisfies the invariant. -/
theorem main_halts (w : World) (sched : Nat → Bool) (h : (bootstrap w).mpc = .callRun) :
    (main w sched).mpc = .halted ∧
    (∀ ev ∈ (bootstrap w).trace, Ev.isBootstrap ev = true) ∧
    ∃ d mid, Inv w (bootstrap w) (main w sched) d mid := by
  rcases bootstrap_cases w with ⟨hh, -⟩ | ⟨verbose, doc, loads, t, hb, ht, -⟩
  · rw [h] at hh; exact absurd hh (by decide)
  · have hinv : ∃ d mid, Inv w (bootstrap w) (bootstrap w) d mid := by
      rw [hb]; exact ⟨doc, [], launch_Inv w verbose doc loads t⟩
    have hrem : remaining (bootstrap w) ≤ 8 := by
      rw [hb]; exact launch_remaining w verbose doc loads t
    refine ⟨steps_halt w (bootstrap w) 8 sched (bootstrap w) hinv hrem, ?_,
      Inv_steps w (bootstrap w) 8 sched (bootstrap w) hinv⟩
    rw [hb]
    exact launch_trace w verbose doc loads t ht

/-- A run whose bootstrap fails is over when the bootstrap is. -/
theorem main_of_bootstrap_halted (w : World) (sched : Nat → Bool)
    (h : (bootstrap w).mpc = .halted) : main w sched = bootstrap w :=
  steps_halted w 8 sched (bootstrap w) h

theorem launch_go (w : World) (verbose : Bool) (doc : Doc) (loads : Nat) (t : List Ev)
    (ht : Ev.go ∉ t) :
    (Ev.go ∈ (launch w verbose doc loads t).trace ↔ (launch w verbose doc loads t).wait = true) ∧
    ((launch w verbose doc loads t).wait = w.stale doc.lastChecked doc.ttl) ∧
    (launch w verbose doc loads t).file = doc := by
  unfold launch
  cases w.stale doc.lastChecked doc.ttl <;> cases verbose <;> simp [ht]

theorem getLast_append_singleton {α : Type} (l : List α) (a : α) :
    (l ++ [a]).getLast? = some a := by
  simp

/-- Once the process is over, the last event is its exit. -/
theorem main_exit_last (w : World) (sched : Nat → Bool) :
    (main w sched).mpc = .halted → ∃ c, (main w sched).trace.getLast? = some (.exit c) := by
  unfold main
  apply steps_invariant w (fun s => s.mpc = .halted → ∃ c, s.trace.getLast? = some (.exit c))
  · intro s hs hc
    obtain ⟨file, elc, wait, verbose, loads, runErr, mpc, bpc, trace, exit⟩ := s
    cases mpc with
    | callRun => simp only [stepMain, afterRun]; split <;> (try split) <;> simp
    | reportErr => simp only [stepMain, afterRun]; (repeat' split) <;> simp
    | receive => simp [stepMain]
    | callAfterWrite =>
      simp only [stepMain]
      split
      · intro _; exact ⟨2, getLast_append_singleton _ _⟩
      · simp
    | finish => simp [stepMain]
    | halted => simp [mainCanStep] at hc
  · intro s hs hc
    have hne : s.mpc ≠ .halted := by
      intro hm
      obtain ⟨file, elc, wait, verbose, loads, runErr, mpc, bpc, trace, exit⟩ := s
      simp only at hm
      subst hm
      simp [bgCanStep] at hc
    intro hm
    rw [(stepBg_left w s hc).1] at hm
    exact absurd hm hne
  · rcases bootstrap_cases w with ⟨-, -, pre, e, htr, -⟩ | ⟨verbose, doc, loads, t, hb, -⟩
    · intro _
      exact ⟨1, by rw [htr]; simp⟩
    · intro hm
      rw [hb, launch_mpc] at hm
      exact absurd hm (by decide)

theorem filter_isRendezvous_eq (t : List Ev) :
    t.filter Ev.isRendezvous = (t.filter Ev.isMain).filter Ev.isRendezvous := by
  rw [List.filter_filter]
  congr 1
  funext ev
  cases ev <;> simp [Ev.isRendezvous, Ev.isMain]

theorem afterWrite_filter_isRendezvous (verbose : Bool) (v : Option GoError) :
    (afterWrite verbose v).filter Ev.isRendezvous = [] := by
  unfold afterWrite
  cases v with
  | none => cases verbose <;> simp [Ev.isRendezvous]
  | some e =>
    cases verbose <;> by_cases h : e.isRemediation = true <;> simp [h, Ev.isRendezvous]

theorem report_filter_isRendezvous (r : Option GoError) :
    (report r).filter Ev.isRendezvous = [] := by
  cases r <;> simp [report, Ev.isRendezvous]

/-- The shape of every run whose bootstrap succeeded, for every schedule: the
events of the main line are, in this order, the call of `app.Run`, the report
of its error, the rendezvous when a refresh was started, and the exit. -/
theorem main_line_of_run (w : World) (sched : Nat → Bool) (h : (bootstrap w).mpc = .callRun) :
    ∃ d mid, Inv w (bootstrap w) (main w sched) d mid ∧
      (main w sched).mpc = .halted ∧
      (main w sched).trace = (bootstrap w).trace ++ mid ∧
      (∀ ev ∈ (bootstrap w).trace, Ev.isBootstrap ev = true) ∧
      (main w sched).trace.filter Ev.isMain =
        .run d :: report (w.run d) ++
          (if (bootstrap w).wait then
            rendezvous (bootstrap w).verboseOutput (refreshErr w (bootstrap w)) else []) ++
          [.exit (if (w.run d).isSome then 1 else 0)] ∧
      (main w sched).exit = some (if (w.run d).isSome then 1 else 0) := by
  obtain ⟨hh, hb, d, mid, hi⟩ := main_halts w sched h
  refine ⟨d, mid, hi, hh, hi.trace_eq, hb, ?_, ?_⟩
  · rw [hi.trace_eq, List.filter_append, filter_isMain_bootstrap _ hb, hi.main_line, hh]
    simp [mainLine]
  · rw [hi.exit_eq, hh]
    simp

/-- The shared variables when a run whose bootstrap succeeded is over: with a
refresh started, `file` holds what the background call of `file.Load` on the
`RemoteConfig` address left and `errLoadConfig` what the refresh assigned;
without one, both are as the bootstrap left them. -/
theorem main_final_vars (w : World) (sched : Nat → Bool) (h : (bootstrap w).mpc = .callRun) :
    (main w sched).file =
      (if (bootstrap w).wait then
        (w.load (bootstrap w).loads (bootstrap w).file.remoteConfig (bootstrap w).file).2
       else (bootstrap w).file) ∧
    (main w sched).errLoadConfig =
      (if (bootstrap w).wait then refreshErr w (bootstrap w) else none) := by
  obtain ⟨hh, -, d, mid, hi⟩ := main_halts w sched h
  have hbv := hi.bg_vars
  cases hb2 : (main w sched).bpc <;> rw [hb2] at hbv <;>
    simp only [bgVars, hh, refreshed] at hbv
  · obtain ⟨h1, h2, h3⟩ := hbv
    simp [h1, h2, h3]
  · simp at hbv
  · simp at hbv
  · simp at hbv
  · obtain ⟨h1, h2, h3, -⟩ := hbv
    simp [h1, h2, h3]

theorem bootstrap_errLoadConfig (w : World) : (bootstrap w).errLoadConfig = none := by
  unfold bootstrap repair launch exitAtBootstrap
  repeat' split
  all_goals rfl

theorem launch_trace_go (w : World) (verbose : Bool) (doc : Doc) (loads : Nat) (t : List Ev)
    (hs : w.stale doc.lastChecked doc.ttl = true) :
    (launch w verbose doc loads t).trace =
      (t ++ (if verbose then [Ev.out .backgroundInfo] else [])) ++ [.go] := by
  simp [launch, hs]

/-- C6: when a synchronous bootstrap load fails (the load after a failed
read, or the repair load after an empty `lastChecked`), the process ends at
once with status 1: the failed load is followed by the print of a
`RemediationError` carrying the load error and the network remediation and by
the exit; `app.Run` is never called and no background refresh is started. -/
theorem main_bootstrap_load_failure (w : World) (sched : Nat → Bool) (e : GoError)
    (h : (∃ rerr d0 d1, w.read = (some rerr, d0) ∧
            w.load 0 w.remoteEndpoint d0 = (some e, d1)) ∨
         (∃ d0 d1, w.read = (none, d0) ∧ d0.lastChecked = "" ∧
            w.load 0 w.remoteEndpoint d0 = (some e, d1)) ∨
         (∃ rerr d0 d1 d2, w.read = (some rerr, d0) ∧
            w.load 0 w.remoteEndpoint d0 = (none, d1) ∧ d1.lastChecked = "" ∧
            w.load 1 w.remoteEndpoint d1 = (some e, d2))) :
    (main w sched).exit = some 1 ∧
    (∃ pre, (main w sched).trace = pre ++ [.load w.remoteEndpoint,
      .printErr (.remediation e w.networkRemediation), .exit 1]) ∧
    (∀ d, Ev.run d ∉ (main w sched).trace) ∧
    Ev.go ∉ (main w sched).trace := by
  have key : (bootstrap w).mpc = .halted ∧ (bootstrap w).exit = some 1 ∧
      (∃ pre, (bootstrap w).trace = pre ++ [.load w.remoteEndpoint,
        .printErr (.remediation e w.networkRemediation), .exit 1]) ∧
      (∀ d, Ev.run d ∉ (bootstrap w).trace) ∧ Ev.go ∉ (bootstrap w).trace := by
    rcases h with ⟨rerr, d0, d1, hr, hl⟩ | ⟨d0, d1, hr, he, hl⟩ | ⟨rerr, d0, d1, d2, hr, hl0, he, hl⟩
    · simp only [bootstrap, hr, hl, exitAtBootstrap, true_and]
      refine ⟨⟨[Ev.read] ++ (if verboseOutput w.args = true then
        [Ev.out (if rerr = w.errLegacyConfig then .legacyNotice else .createNotice),
          Ev.out .lineBreak] else []), by simp⟩, ?_, ?_⟩ <;>
        cases verboseOutput w.args <;> simp
    · simp only [bootstrap, repair, hr, he, hl, exitAtBootstrap, true_and, if_true]
      refine ⟨⟨[Ev.read] ++ (if verboseOutput w.args = true then
        [Ev.out .retryWarning, Ev.out .lineBreak] else []), by simp⟩, ?_, ?_⟩ <;>
        cases verboseOutput w.args <;> simp
    · simp only [bootstrap, repair, hr, hl0, he, hl, exitAtBootstrap, true_and, if_true]
      refine ⟨⟨[Ev.read] ++ (if verboseOutput w.args = true then
        [Ev.out (if rerr = w.errLegacyConfig then .legacyNotice else .createNotice),
          Ev.out .lineBreak] else []) ++ [.load w.remoteEndpoint] ++
        (if verboseOutput w.args = true then
          [Ev.out .retryWarning, Ev.out .lineBreak] else []), by simp⟩, ?_, ?_⟩ <;>
        cases verboseOutput w.args <;> simp
  rw [main_of_bootstrap_halted w sched key.1]
  exact key.2

theorem main_bootstrap_load_failure_witness :
    (main sampleOffline (fun _ => true)).exit = some 1 ∧
    (∀ d, Ev.run d ∉ (main sampleOffline (fun _ => true)).trace) ∧
    Ev.go ∉ (main sampleOffline (fun _ => true)).trace :=
  have h := main_bootstrap_load_failure sampleOffline (fun _ => true) (.msg "connection refused")
    (Or.inl ⟨.msg "no such file", sampleDoc, sampleDoc, rfl, rfl⟩)
  ⟨h.1, h.2.2.1, h.2.2.2⟩

/-- C7: once the bootstrap has succeeded, for every schedule the exit status
is 1 exactly when `app.Run` returned an error and 0 otherwise, whatever the
background refresh did. The main line is, in order: the call of `app.Run`,
the report of its error, the rendezvous with `afterWrite` when a refresh was
started, and the exit. When the background call of `file.Load` failed with
`err`, the main line ends with the read of `errLoadConfig`, the call of
`afterWrite`, the print of the `RemediationError` that wraps `err`, and the
exit with the status of the command; when it succeeded nothing is printed to
the error stream by `afterWrite`. A `RemediationError` is printed exactly in
that case: only inside `afterWrite`, after `app.Run` has returned, and only
for a failed refresh. -/
theorem main_exit_status (w : World) (sched : Nat → Bool) (h : (bootstrap w).mpc = .callRun) :
    ∃ d,
      (main w sched).exit = some (if (w.run d).isSome then 1 else 0) ∧
      (main w sched).trace.filter Ev.isMain =
        .run d :: report (w.run d) ++
          (if (bootstrap w).wait then
            [.send, .recv, .readErrLoadConfig (refreshErr w (bootstrap w)), .afterWrite] ++
              afterWrite (bootstrap w).verboseOutput (refreshErr w (bootstrap w))
           else []) ++
          [.exit (if (w.run d).isSome then 1 else 0)] ∧
      (∀ e, Ev.printErr e ∈ (main w sched).trace →
        (bootstrap w).wait = true ∧ refreshErr w (bootstrap w) = some e) ∧
      (∀ err, (bootstrap w).wait = true →
        (w.load (bootstrap w).loads (bootstrap w).file.remoteConfig (bootstrap w).file).1
          = some err →
        (main w sched).trace.filter Ev.isMain =
          .run d ::
            (match w.run d with
              | some rerr => [Ev.printDeduced rerr]
              | none => []) ++
            [.send, .recv,
             .readErrLoadConfig (some (.remediation
               (.wrap
                 "there was a problem updating the versioning information for the Fastly CLI:\n\n"
                 err)
               w.bugRemediation)),
             .afterWrite,
             .printErr (.remediation
               (.wrap
                 "there was a problem updating the versioning information for the Fastly CLI:\n\n"
                 err)
               w.bugRemediation),
             .exit (if (w.run d).isSome then 1 else 0)]) ∧
      ((bootstrap w).wait = true →
        (w.load (bootstrap w).loads (bootstrap w).file.remoteConfig (bootstrap w).file).1
          = none →
        (main w sched).trace.filter Ev.isMain =
          .run d ::
            (match w.run d with
              | some rerr => [Ev.printDeduced rerr]
              | none => []) ++
            [.send, .recv, .readErrLoadConfig none, .afterWrite] ++
            (if (bootstrap w).verboseOutput then [Ev.out .updateSuccessful] else []) ++
            [.exit (if (w.run d).isSome then 1 else 0)]) ∧
      ((bootstrap w).wait = false →
        (main w sched).trace.filter Ev.isMain =
          .run d ::
            (match w.run d with
              | some rerr => [Ev.printDeduced rerr]
              | none => []) ++
            [.exit (if (w.run d).isSome then 1 else 0)]) ∧
      (∀ e, Ev.printErr e ∈ (main w sched).trace ↔
        (bootstrap w).wait = true ∧
        ∃ err,
          (w.load (bootstrap w).loads (bootstrap w).file.remoteConfig (bootstrap w).file).1
            = some err ∧
          e = .remediation
            (.wrap
              "there was a problem updating the versioning information for the Fastly CLI:\n\n"
              err)
            w.bugRemediation) := by
  obtain ⟨d, mid, -, -, -, -, hml, hex⟩ := main_line_of_run w sched h
  have hmem : ∀ e, Ev.printErr e ∈ (main w sched).trace ↔
      Ev.printErr e ∈ (main w sched).trace.filter Ev.isMain := by
    intro e
    rw [List.mem_filter]
    exact ⟨fun he => ⟨he, rfl⟩, fun he => he.1⟩
  have hfail : ∀ err, (bootstrap w).wait = true →
      (w.load (bootstrap w).loads (bootstrap w).file.remoteConfig (bootstrap w).file).1
        = some err →
      (main w sched).trace.filter Ev.isMain =
        .run d ::
          (match w.run d with
            | some rerr => [Ev.printDeduced rerr]
            | none => []) ++
          [.send, .recv,
           .readErrLoadConfig (some (.remediation
             (.wrap
               "there was a problem updating the versioning information for the Fastly CLI:\n\n"
               err)
             w.bugRemediation)),
           .afterWrite,
           .printErr (.remediation
             (.wrap
               "there was a problem updating the versioning information for the Fastly CLI:\n\n"
               err)
             w.bugRemediation),
           .exit (if (w.run d).isSome then 1 else 0)] := by
    intro err hw hl
    rw [hml]
    cases hr : w.run d <;>
      simp [hw, hl, hr, report, rendezvous, afterWrite, refreshErr, GoError.isRemediation]
  have hgood : (bootstrap w).wait = true →
      (w.load (bootstrap w).loads (bootstrap w).file.remoteConfig (bootstrap w).file).1
        = none →
      (main w sched).trace.filter Ev.isMain =
        .run d ::
          (match w.run d with
            | some rerr => [Ev.printDeduced rerr]
            | none => []) ++
          [.send, .recv, .readErrLoadConfig none, .afterWrite] ++
          (if (bootstrap w).verboseOutput then [Ev.out .updateSuccessful] else []) ++
          [.exit (if (w.run d).isSome then 1 else 0)] := by
    intro hw hl
    rw [hml]
    cases hr : w.run d <;> cases hv : (bootstrap w).verboseOutput <;>
      simp [hw, hl, hr, hv, report, rendezvous, afterWrite, refreshErr]
  have hnone : (bootstrap w).wait = false →
      (main w sched).trace.filter Ev.isMain =
        .run d ::
          (match w.run d with
            | some rerr => [Ev.printDeduced rerr]
            | none => []) ++
          [.exit (if (w.run d).isSome then 1 else 0)] := by
    intro hw
    rw [hml]
    cases hr : w.run d <;> simp [hw, hr, report]
  have hiff : ∀ e, Ev.printErr e ∈ (main w sched).trace ↔
      (bootstrap w).wait = true ∧
      ∃ err,
        (w.load (bootstrap w).loads (bootstrap w).file.remoteConfig (bootstrap w).file).1
          = some err ∧
        e = .remediation
          (.wrap
            "there was a problem updating the versioning information for the Fastly CLI:\n\n"
            err)
          w.bugRemediation := by
    intro e
    rw [hmem]
    cases hw : (bootstrap w).wait with
    | false =>
      rw [hnone hw]
      cases hr : w.run d <;> simp
    | true =>
      cases hl : (w.load (bootstrap w).loads (bootstrap w).file.remoteConfig
        (bootstrap w).file).1 with
      | none =>
        rw [hgood hw hl]
        cases hr : w.run d <;> cases hv : (bootstrap w).verboseOutput <;> simp
      | some err =>
        rw [hfail err hw hl]
        cases hr : w.run d <;> simp
  refine ⟨d, hex, hml, ?_, hfail, hgood, hnone, hiff⟩
  intro e he
  obtain ⟨hw, err, hl, hee⟩ := (hiff e).mp he
  refine ⟨hw, ?_⟩
  simp [refreshErr, hl, hee]

theorem main_exit_status_witness :
    (bootstrap sampleWorld).mpc = .callRun ∧
    refreshErr sampleWorld (bootstrap sampleWorld) ≠ none ∧
    (main sampleWorld (fun _ => false)).exit = some 0 ∧
    Ev.printErr (.remediation
      (.wrap "there was a problem updating the versioning information for the Fastly CLI:\n\n"
        (.msg "connection refused"))
      "file an issue") ∈ (main sampleWorld (fun _ => false)).trace ∧
    (main sampleWorld (fun _ => false)).trace.getLast? = some (.exit 0) ∧
    (main sampleWorld (fun _ => false)).trace.dropLast.getLast? =
      some (.printErr (.remediation
        (.wrap "there was a problem updating the versioning information for the Fastly CLI:\n\n"
          (.msg "connection refused"))
        "file an issue")) :=
  ⟨by decide, by decide,
   (main_exit_status sampleWorld (fun _ => false) (by decide)).elim (fun _ h => h.1),
   (main_exit_status sampleWorld (fun _ => false) (by decide)).elim
     (fun _ h => (h.2.2.2.2.2.2 _).mpr ⟨by decide, .msg "connection refused", rfl, rfl⟩),
   by decide, by decide⟩

theorem afterWrite_filter_isBootstrap (verbose : Bool) (v : Option GoError) :
    (afterWrite verbose v).filter Ev.isBootstrap = [] := by
  unfold afterWrite
  cases v with
  | none => cases verbose <;> simp [Ev.isBootstrap]
  | some e =>
    cases verbose <;> by_cases h : e.isRemediation = true <;> simp [h, Ev.isBootstrap]

theorem stepMain_trace (w : World) (s : State) :
    ∃ evs, (stepMain w s).trace = s.trace ++ evs ∧ evs.filter Ev.isBootstrap = [] := by
  obtain ⟨file, elc, wait, verbose, loads, runErr, mpc, bpc, trace, exit⟩ := s
  cases mpc with
  | callRun => exact ⟨[.run file], by simp [stepMain], by simp [Ev.isBootstrap]⟩
  | reportErr =>
    cases runErr with
    | none => exact ⟨[], by simp [stepMain], by simp⟩
    | some err => exact ⟨[.printDeduced err], by simp [stepMain], by simp [Ev.isBootstrap]⟩
  | receive => exact ⟨[.send, .recv], by simp [stepMain], by simp [Ev.isBootstrap]⟩
  | callAfterWrite =>
    by_cases hp : Ev.assertionPanic ∈ afterWrite verbose elc
    · exact ⟨[.readErrLoadConfig elc, .afterWrite] ++ afterWrite verbose elc ++ [.exit 2],
        by simp [stepMain, hp],
        by simp [Ev.isBootstrap, afterWrite_filter_isBootstrap]⟩
    · exact ⟨[.readErrLoadConfig elc, .afterWrite] ++ afterWrite verbose elc,
        by simp [stepMain, hp],
        by simp [Ev.isBootstrap, afterWrite_filter_isBootstrap]⟩
  | finish =>
    exact ⟨[.exit (if runErr.isSome then 1 else 0)], by simp [stepMain],
      by simp [Ev.isBootstrap]⟩
  | halted => exact ⟨[], by simp [stepMain], by simp⟩

theorem stepBg_trace (w : World) (s : State) :
    ∃ evs, (stepBg w s).trace = s.trace ++ evs ∧ evs.filter Ev.isBootstrap = [] := by
  obtain ⟨file, elc, wait, verbose, loads, runErr, mpc, bpc, trace, exit⟩ := s
  cases bpc with
  | load =>
    rcases hld : w.load loads file.remoteConfig file with ⟨_ | lerr, doc1⟩ <;>
      exact ⟨[.bgLoad file.remoteConfig], by simp [stepBg, hld], by simp [Ev.isBootstrap]⟩
  | setErr e =>
    exact ⟨_, by simp only [stepBg]; rfl, by simp [Ev.isBootstrap]⟩
  | idle => exact ⟨[], by simp [stepBg], by simp⟩
  | send => exact ⟨[], by simp [stepBg], by simp⟩
  | finished => exact ⟨[], by simp [stepBg], by simp⟩

/-- The bootstrap events of a run are those of its bootstrap: nothing that
happens later is a read, a synchronous load, a start of a refresh or one of
the bootstrap texts. -/
theorem main_bootstrap_events (w : World) (sched : Nat → Bool) :
    (main w sched).trace.filter Ev.isBootstrap = (bootstrap w).trace.filter Ev.isBootstrap := by
  unfold main
  apply steps_invariant w
    (fun s => s.trace.filter Ev.isBootstrap = (bootstrap w).trace.filter Ev.isBootstrap)
  · intro s hs _
    obtain ⟨evs, htr, hev⟩ := stepMain_trace w s
    simp only [htr, List.filter_append, hev, List.append_nil, hs]
  · intro s hs _
    obtain ⟨evs, htr, hev⟩ := stepBg_trace w s
    simp only [htr, List.filter_append, hev, List.append_nil, hs]
  · rfl

theorem main_go_iff (w : World) (sched : Nat → Bool) :
    Ev.go ∈ (main w sched).trace ↔ Ev.go ∈ (bootstrap w).trace := by
  have h := main_bootstrap_events w sched
  have h1 : ∀ t : List Ev, Ev.go ∈ t ↔ Ev.go ∈ t.filter Ev.isBootstrap := by
    intro t
    simp [List.mem_filter, Ev.isBootstrap]
  rw [h1 (main w sched).trace, h1 (bootstrap w).trace, h]

/-- C4: every run of `main` ends, under every schedule. When a background
refresh was started, the receive, the read of `errLoadConfig`, the call of
`afterWrite` and the exit happen exactly once each and in this order, whether
`app.Run` returned an error (exit 1) or nil (exit 0) and whether the refresh
failed or not; the value read is the one the refresh assigned (nil when it
assigned none). When no refresh was started there is no receive. -/
theorem main_rendezvous (w : World) (sched : Nat → Bool) :
    (main w sched).mpc = .halted ∧
    (∃ c, (main w sched).trace.getLast? = some (.exit c)) ∧
    (Ev.go ∈ (main w sched).trace →
      ∃ v d, (main w sched).trace.filter Ev.isRendezvous =
          [.recv, .readErrLoadConfig v, .afterWrite,
            .exit (if (w.run d).isSome then 1 else 0)] ∧
        Ev.run d ∈ (main w sched).trace ∧
        (∀ e, Ev.setErrLoadConfig e ∈ (main w sched).trace ↔ v = some e)) ∧
    (Ev.go ∉ (main w sched).trace → Ev.recv ∉ (main w sched).trace) := by
  rcases bootstrap_cases w with ⟨hh, -, pre, e, htr, hpre, hgo⟩ |
    ⟨verbose, doc, loads, t, hb, ht, hgo⟩
  · have hm := main_of_bootstrap_halted w sched hh
    have hlast := main_exit_last w sched (by rw [hm]; exact hh)
    refine ⟨by rw [hm]; exact hh, hlast, ?_, ?_⟩
    · intro hg
      rw [hm, htr] at hg
      simp [hgo] at hg
    · intro _
      rw [hm, htr]
      intro hr
      simp at hr
      have := hpre _ hr
      simp [Ev.isBootstrap] at this
  · have hcall : (bootstrap w).mpc = .callRun := by rw [hb]; exact launch_mpc w verbose doc loads t
    obtain ⟨d, mid, hi, hh, hte, hball, hml, -⟩ := main_line_of_run w sched hcall
    have hlast := main_exit_last w sched hh
    have hgw : Ev.go ∈ (bootstrap w).trace ↔ (bootstrap w).wait = true := by
      rw [hb]; exact (launch_go w verbose doc loads t hgo).1
    have hgw2 : Ev.go ∈ (main w sched).trace ↔ (bootstrap w).wait = true := by
      rw [main_go_iff]; exact hgw
    have hrv : (main w sched).trace.filter Ev.isRendezvous =
        (if (bootstrap w).wait then
          [.recv, .readErrLoadConfig (refreshErr w (bootstrap w)), .afterWrite] else []) ++
        [.exit (if (w.run d).isSome then 1 else 0)] := by
      rw [filter_isRendezvous_eq, hml]
      cases hw : (bootstrap w).wait <;>
        simp [hw, rendezvous, List.filter_append, report_filter_isRendezvous,
          afterWrite_filter_isRendezvous, Ev.isRendezvous]
    have hrun : Ev.run d ∈ (main w sched).trace := by
      have : Ev.run d ∈ (main w sched).trace.filter Ev.isMain := by rw [hml]; simp
      exact (List.mem_filter.mp this).1
    refine ⟨hh, hlast, ?_, ?_⟩
    · intro hg
      have hw : (bootstrap w).wait = true := hgw2.mp hg
      refine ⟨refreshErr w (bootstrap w), d, by rw [hrv]; simp [hw], hrun, ?_⟩
      intro e2
      have hfin : (main w sched).bpc = .finished := by
        have hbv := hi.bg_vars
        have hnw := hi.bg_wait
        cases hb2 : (main w sched).bpc <;> rw [hb2] at hbv <;>
          simp_all [bgVars]
      have hbl := hi.bg_line
      rw [hfin] at hbl
      have hiff : Ev.setErrLoadConfig e2 ∈ (main w sched).trace ↔
          Ev.setErrLoadConfig e2 ∈ mid.filter Ev.isBg := by
        rw [hte, List.mem_append, List.mem_filter]
        constructor
        · rintro (hin | hin)
          · have := hball _ hin
            simp [Ev.isBootstrap] at this
          · exact ⟨hin, rfl⟩
        · intro hin; exact Or.inr hin.1
      rw [hiff, hbl]
      cases hv : refreshErr w (bootstrap w) <;> simp [bgLine, hv]
      exact eq_comm
    · intro hg
      have hw : (bootstrap w).wait = false := by
        cases hw : (bootstrap w).wait with
        | false => rfl
        | true => exact absurd (hgw2.mpr hw) hg
      intro hr
      have : Ev.recv ∈ (main w sched).trace.filter Ev.isRendezvous :=
        List.mem_filter.mpr ⟨hr, rfl⟩
      rw [hrv] at this
      simp [hw] at this

theorem main_trace_extends (w : World) (sched : Nat → Bool) :
    ∃ mid, (main w sched).trace = (bootstrap w).trace ++ mid := by
  unfold main
  apply steps_invariant w (fun s => ∃ mid, s.trace = (bootstrap w).trace ++ mid)
  · rintro s ⟨mid, hs⟩ _
    obtain ⟨evs, htr, -⟩ := stepMain_trace w s
    exact ⟨mid ++ evs, by rw [htr, hs, List.append_assoc]⟩
  · rintro s ⟨mid, hs⟩ _
    obtain ⟨evs, htr, -⟩ := stepBg_trace w s
    exact ⟨mid ++ evs, by rw [htr, hs, List.append_assoc]⟩
  · exact ⟨[], by simp⟩

/-- C5, refuted as stated: the document read has an empty `lastChecked`, the
repair load from the fixed endpoint returns without error, and the document
then passed to `app.Run` still has an empty `lastChecked`. -/
theorem main_repair_leaves_lastChecked_empty :
    sampleStillEmpty.read = (none, { sampleDoc with lastChecked := "" }) ∧
    (sampleStillEmpty.load 0 sampleStillEmpty.remoteEndpoint
      { sampleDoc with lastChecked := "" }).1 = none ∧
    (main sampleStillEmpty (fun _ => true)).trace.take 4 =
      [.read, .load "https://example.org/fixed", .go,
        .run { sampleDoc with lastChecked := "" }] := by
  decide

/-- The bootstrap when the document in memory after the read (`k = 0`) or
after the load that follows a failed read (`k = 1`) is `d0`. -/
theorem bootstrap_eq_repair (w : World) (d0 : Doc) (k : Nat)
    (hread : (w.read = (none, d0) ∧ k = 0) ∨
      (∃ rerr dr, w.read = (some rerr, dr) ∧ w.load 0 w.remoteEndpoint dr = (none, d0) ∧ k = 1)) :
    ∃ t0, bootstrap w = repair w (verboseOutput w.args) d0 k t0 ∧
      t0.count (.load w.remoteEndpoint) = k ∧ (∀ d, Ev.run d ∉ t0) ∧
      (∀ ev ∈ t0, Ev.isBootstrap ev = true) ∧ Ev.go ∉ t0 := by
  rcases hread with ⟨hr, hk⟩ | ⟨rerr, dr, hr, hl, hk⟩
  · subst hk
    exact ⟨[.read], by simp [bootstrap, hr], by simp, by simp, by simp [Ev.isBootstrap], by simp⟩
  · subst hk
    have hn : Ev.isBootstrap
        (.out (if rerr = w.errLegacyConfig then .legacyNotice else .createNotice)) = true :=
      isBootstrap_notice _
    refine ⟨[Ev.read] ++ (if verboseOutput w.args = true then
      [Ev.out (if rerr = w.errLegacyConfig then .legacyNotice else .createNotice),
        Ev.out .lineBreak] else []) ++ [.load w.remoteEndpoint],
      by simp [bootstrap, hr, hl], ?_, ?_, ?_, ?_⟩ <;>
      cases verboseOutput w.args <;> simp [hn] <;> simp [Ev.isBootstrap]

/-- C5, amended: when the document in memory after the local read (or after
the bootstrap load that follows a failed read) has an empty `lastChecked`,
`main` calls `file.Load` on the fixed remote endpoint once more before
`app.Run`; when that repair returns without error `main` does not look at
`lastChecked` again: `app.Run` is called exactly with the document the repair
left in memory or, when that document is stale and the background load ran
first, with the one the background load left. -/
theorem main_repair_before_run (w : World) (sched : Nat → Bool) (d0 : Doc) (k : Nat)
    (hread : (w.read = (none, d0) ∧ k = 0) ∨
      (∃ rerr dr, w.read = (some rerr, dr) ∧ w.load 0 w.remoteEndpoint dr = (none, d0) ∧ k = 1))
    (hempty : d0.lastChecked = "") :
    (∃ pre post, (main w sched).trace = pre ++ Ev.load w.remoteEndpoint :: post ∧
      pre.count (.load w.remoteEndpoint) = k ∧ ∀ d, Ev.run d ∉ pre) ∧
    (∀ d1, w.load k w.remoteEndpoint d0 = (none, d1) →
      ∃ d, Ev.run d ∈ (main w sched).trace ∧
        (∀ d2, Ev.run d2 ∈ (main w sched).trace → d2 = d) ∧
        (d = d1 ∨ (w.stale d1.lastChecked d1.ttl = true ∧
          d = (w.load (k + 1) d1.remoteConfig d1).2))) := by
  obtain ⟨t0, hb, hcount, hrun, hboot, hgo⟩ := bootstrap_eq_repair w d0 k hread
  obtain ⟨mid, hmid⟩ := main_trace_extends w sched
  have hwarn : ∀ v : Bool, (if v = true then [Ev.out .retryWarning, Ev.out .lineBreak] else []).count
      (.load w.remoteEndpoint) = 0 ∧ ∀ d, Ev.run d ∉
      (if v = true then [Ev.out .retryWarning, Ev.out .lineBreak] else []) := by
    intro v; cases v <;> simp
  constructor
  · have hc : (t0 ++ (if verboseOutput w.args = true then
        [Ev.out .retryWarning, Ev.out .lineBreak] else [])).count (.load w.remoteEndpoint) = k := by
      rw [List.count_append, hcount, (hwarn _).1]; rfl
    have hnr : ∀ d, Ev.run d ∉ t0 ++ (if verboseOutput w.args = true then
        [Ev.out .retryWarning, Ev.out .lineBreak] else []) := by
      intro d hd
      rcases List.mem_append.mp hd with h1 | h1
      · exact hrun d h1
      · exact (hwarn _).2 d h1
    rcases hld : w.load k w.remoteEndpoint d0 with ⟨_ | e, d1⟩
    · refine ⟨_, (if w.stale d1.lastChecked d1.ttl = true then
          (if verboseOutput w.args = true then [Ev.out .backgroundInfo] else []) ++ [.go]
          else []) ++ mid, ?_, hc, hnr⟩
      rw [hmid, hb]
      simp only [repair, hempty, if_true, hld, launch]
      split <;> simp
    · refine ⟨_, [.printErr (.remediation e w.networkRemediation), .exit 1] ++ mid, ?_, hc, hnr⟩
      rw [hmid, hb]
      simp [repair, hempty, hld, exitAtBootstrap]
  · intro d1 hld
    have hb2 : bootstrap w = launch w (verboseOutput w.args) d1 (k + 1) (t0 ++
        (if verboseOutput w.args = true then [Ev.out .retryWarning, Ev.out .lineBreak]
          else []) ++ [.load w.remoteEndpoint]) := by
      rw [hb]; simp [repair, hempty, hld]
    have hgo2 : Ev.go ∉ t0 ++
        (if verboseOutput w.args = true then [Ev.out .retryWarning, Ev.out .lineBreak]
          else []) ++ [.load w.remoteEndpoint] := by
      cases verboseOutput w.args <;> simp [hgo]
    have hcall : (bootstrap w).mpc = .callRun := by rw [hb2]; exact launch_mpc _ _ _ _ _
    obtain ⟨d, mid2, hi, -, -, -, hml, -⟩ := main_line_of_run w sched hcall
    have hl := launch_go w (verboseOutput w.args) d1 (k + 1) _ hgo2
    have hfile : (bootstrap w).file = d1 := by rw [hb2]; exact hl.2.2
    have hwait : (bootstrap w).wait = w.stale d1.lastChecked d1.ttl := by rw [hb2]; exact hl.2.1
    have hloads : (bootstrap w).loads = k + 1 := by
      rw [hb2]; unfold launch; split <;> rfl
    refine ⟨d, ?_, ?_, ?_⟩
    · have : Ev.run d ∈ (main w sched).trace.filter Ev.isMain := by rw [hml]; simp
      exact (List.mem_filter.mp this).1
    · intro d2 hd2
      have : Ev.run d2 ∈ (main w sched).trace.filter Ev.isMain :=
        List.mem_filter.mpr ⟨hd2, rfl⟩
      rw [hml] at this
      have hnot : ∀ v : Option GoError, Ev.run d2 ∉
          afterWrite (bootstrap w).verboseOutput v := by
        intro v
        unfold afterWrite
        cases v with
        | none => cases (bootstrap w).verboseOutput <;> simp
        | some e =>
          cases (bootstrap w).verboseOutput <;> by_cases hr : e.isRemediation = true <;>
            simp [hr]
      cases hr : w.run d <;> cases hw : (bootstrap w).wait <;>
        simpa [hr, hw, report, rendezvous, hnot] using this
    · rcases hi.doc with hd | ⟨hw, hd⟩
      · left; rw [← hd, hfile]
      · right
        refine ⟨by rw [← hwait]; exact hw, ?_⟩
        rw [← hd]
        simp [refreshed, hfile, hloads]

theorem main_repair_before_run_witness :
    ∃ d, Ev.run d ∈ (main sampleStillEmpty (fun _ => true)).trace ∧
      (∀ d2, Ev.run d2 ∈ (main sampleStillEmpty (fun _ => true)).trace → d2 = d) ∧
      (d = { sampleDoc with lastChecked := "" } ∨
        (sampleStillEmpty.stale "" sampleDoc.ttl = true ∧
          d = (sampleStillEmpty.load 1 sampleDoc.remoteConfig
            { sampleDoc with lastChecked := "" }).2)) :=
  (main_repair_before_run sampleStillEmpty (fun _ => true) { sampleDoc with lastChecked := "" } 0
    (Or.inl ⟨rfl, rfl⟩) rfl).2 { sampleDoc with lastChecked := "" } rfl

theorem launch_load_url (w : World) (verbose : Bool) (doc : Doc) (loads : Nat) (t : List Ev)
    (url : String) (h : Ev.load url ∈ (launch w verbose doc loads t).trace) :
    Ev.load url ∈ t := by
  unfold launch at h
  cases hs : w.stale doc.lastChecked doc.ttl <;> cases verbose <;> simpa [hs] using h

theorem repair_load_url (w : World) (verbose : Bool) (doc : Doc) (loads : Nat) (t : List Ev)
    (url : String) (ht : Ev.load url ∈ t → url = w.remoteEndpoint)
    (h : Ev.load url ∈ (repair w verbose doc loads t).trace) : url = w.remoteEndpoint := by
  unfold repair at h
  by_cases he : doc.lastChecked = ""
  · simp only [he, if_true] at h
    rcases hld : w.load loads w.remoteEndpoint doc with ⟨_ | e, d1⟩
    · rw [hld] at h
      have h2 := launch_load_url w verbose d1 (loads + 1) _ url h
      cases verbose <;> simp at h2 <;> rcases h2 with h2 | h2 <;>
        first | exact ht h2 | exact h2
    · rw [hld] at h
      simp only [exitAtBootstrap] at h
      cases verbose <;> simp at h <;> rcases h with h | h <;>
        first | exact ht h | exact h
  · simp only [he, if_false] at h
    exact ht (launch_load_url w verbose doc loads t url h)

/-- Every synchronous load of the bootstrap goes to the fixed endpoint. -/
theorem bootstrap_load_url (w : World) (url : String)
    (h : Ev.load url ∈ (bootstrap w).trace) : url = w.remoteEndpoint := by
  unfold bootstrap at h
  rcases hr : w.read with ⟨_ | rerr, d0⟩
  · rw [hr] at h
    exact repair_load_url w _ d0 0 [.read] url (by simp) h
  · rw [hr] at h
    simp only at h
    rcases hld : w.load 0 w.remoteEndpoint d0 with ⟨_ | e, d1⟩
    · rw [hld] at h
      refine repair_load_url w _ d1 1 _ url ?_ h
      cases verboseOutput w.args <;> simp
    · rw [hld] at h
      simp only [exitAtBootstrap] at h
      cases verboseOutput w.args <;> simpa using h

/-- The background loads of a run: none when the bootstrap failed, and
otherwise only loads from the `RemoteConfig` field of the document the
bootstrap left in memory, made after the refresh was started. -/
theorem main_bgLoad (w : World) (sched : Nat → Bool) (url : String)
    (h : Ev.bgLoad url ∈ (main w sched).trace) :
    (bootstrap w).mpc = .callRun ∧ (bootstrap w).wait = true ∧
    url = (bootstrap w).file.remoteConfig := by
  rcases bootstrap_cases w with ⟨hh, -, pre, e, htr, hpre, -⟩ |
    ⟨verbose, doc, loads, t, hb, ht, hgo⟩
  · rw [main_of_bootstrap_halted w sched hh, htr] at h
    simp at h
    have := hpre _ h
    simp [Ev.isBootstrap] at this
  · have hcall : (bootstrap w).mpc = .callRun := by rw [hb]; exact launch_mpc w verbose doc loads t
    obtain ⟨d, mid, hi, -, hte, hball, -, -⟩ := main_line_of_run w sched hcall
    have hin : Ev.bgLoad url ∈ mid.filter Ev.isBg := by
      rw [hte, List.mem_append] at h
      rcases h with h | h
      · have := hball _ h
        simp [Ev.isBootstrap] at this
      · exact List.mem_filter.mpr ⟨h, rfl⟩
    rw [hi.bg_line] at hin
    have hbv := hi.bg_vars
    refine ⟨hcall, ?_, ?_⟩
    · cases hb2 : (main w sched).bpc <;> rw [hb2] at hbv hin <;>
        first | exact hbv.1 | simp [bgLine] at hin
    · cases hb2 : (main w sched).bpc <;> rw [hb2] at hin <;> simp [bgLine] at hin
      all_goals first | exact hin | skip
      all_goals
        rcases hin with hin | hin
        · exact hin
        · cases hre : refreshErr w (bootstrap w) <;> simp [hre] at hin

/-- The events of the background refresh in a run whose bootstrap succeeded:
none when no refresh was started, and otherwise one load followed by the
assignment of `errLoadConfig` when the load failed. -/
theorem main_bg_events (w : World) (sched : Nat → Bool) (h : (bootstrap w).mpc = .callRun) :
    (main w sched).trace.filter Ev.isBg =
      if (bootstrap w).wait then
        .bgLoad (bootstrap w).file.remoteConfig ::
          (match refreshErr w (bootstrap w) with
            | some e => [.setErrLoadConfig e]
            | none => [])
      else [] := by
  obtain ⟨d, mid, hi, hh, hte, hball, -, -⟩ := main_line_of_run w sched h
  rw [hte, List.filter_append, filter_isBg_bootstrap _ hball, List.nil_append, hi.bg_line]
  have hbv := hi.bg_vars
  have hbw := hi.bg_wait
  cases hw : (bootstrap w).wait with
  | false =>
    have hidle := Inv_bpc_of_wait_false w _ _ d mid hi hw
    simp [hidle, bgLine]
  | true =>
    cases hb2 : (main w sched).bpc <;> rw [hb2] at hbv <;>
      (simp [bgVars, hh, hw] at hbv; try simp [bgLine])

/-- The bootstrap records one load event per call of `file.Load` it made. -/
theorem bootstrap_count_load (w : World) :
    (bootstrap w).trace.count (.load w.remoteEndpoint) = (bootstrap w).loads := by
  unfold bootstrap
  rcases hr : w.read with ⟨_ | rerr, d0⟩
  · simp only [repair]
    by_cases hl : d0.lastChecked = ""
    · rcases hld : w.load 0 w.remoteEndpoint d0 with ⟨_ | e, d1⟩
      · simp only [hl, if_true, launch]
        cases verboseOutput w.args <;> cases w.stale d1.lastChecked d1.ttl <;>
          simp [List.count_cons]
      · simp only [hl, if_true, exitAtBootstrap]
        cases verboseOutput w.args <;> simp [List.count_cons]
    · simp only [hl, if_false, launch]
      cases verboseOutput w.args <;> cases w.stale d0.lastChecked d0.ttl <;>
        simp [List.count_cons]
  · simp only
    have hn : (Ev.out (if rerr = w.errLegacyConfig then Text.legacyNotice
        else Text.createNotice) == Ev.load w.remoteEndpoint) = false := by
      split <;> rfl
    rcases hld0 : w.load 0 w.remoteEndpoint d0 with ⟨_ | e0, d1⟩
    · simp only [repair]
      by_cases hl : d1.lastChecked = ""
      · rcases hld : w.load 1 w.remoteEndpoint d1 with ⟨_ | e, d2⟩
        · simp only [hl, if_true, launch]
          cases verboseOutput w.args <;> cases w.stale d2.lastChecked d2.ttl <;>
            simp [List.count_cons, hn]
        · simp only [hl, if_true, exitAtBootstrap]
          cases verboseOutput w.args <;> simp [List.count_cons, hn]
      · simp only [hl, if_false, launch]
        cases verboseOutput w.args <;> cases w.stale d1.lastChecked d1.ttl <;>
          simp [List.count_cons, hn]
    · simp only [exitAtBootstrap]
      cases verboseOutput w.args <;> simp [List.count_cons, hn]

theorem main_count_load (w : World) (sched : Nat → Bool) :
    (main w sched).trace.count (.load w.remoteEndpoint) = (bootstrap w).loads := by
  have h := main_bootstrap_events w sched
  have h1 : ∀ t : List Ev, t.count (Ev.load w.remoteEndpoint) =
      (t.filter Ev.isBootstrap).count (Ev.load w.remoteEndpoint) := by
    intro t
    exact (List.count_filter (p := Ev.isBootstrap) (a := Ev.load w.remoteEndpoint) (l := t)
      rfl).symm
  rw [h1 (main w sched).trace, h, ← h1, bootstrap_count_load]

/-- C11: every synchronous load made by `main` goes to the fixed endpoint
`config.RemoteEndpoint`; every load made by the background refresh goes to the
`RemoteConfig` field of the document held in memory when the bootstrap is
over, and there is such a load whenever a refresh was started; so the
refresh goes to the fixed endpoint only when that field holds the same
address. The loads are the calls of `file.Load`: the document the bootstrap
ends with is what `file.Load` on the fixed endpoint left (once after a failed
read, once more when `lastChecked` is empty), with one load event per call;
when a refresh was started the document and `errLoadConfig` at the end of the
run are what the call of `file.Load` on the `RemoteConfig` address of that
document left and returned, and otherwise they are as the bootstrap left
them. The load step of the refresh itself calls `file.Load` with the
`RemoteConfig` field of the document then in memory and leaves its result in
memory. -/
theorem main_load_urls (w : World) (sched : Nat → Bool) :
    (∀ url, Ev.load url ∈ (main w sched).trace → url = w.remoteEndpoint) ∧
    (∀ url, Ev.bgLoad url ∈ (main w sched).trace → url = (bootstrap w).file.remoteConfig) ∧
    (Ev.go ∈ (main w sched).trace →
      Ev.bgLoad (bootstrap w).file.remoteConfig ∈ (main w sched).trace) ∧
    ((bootstrap w).file.remoteConfig ≠ w.remoteEndpoint →
      Ev.bgLoad w.remoteEndpoint ∉ (main w sched).trace) ∧
    (∀ rerr d0, w.read = (some rerr, d0) →
      ((w.load 0 w.remoteEndpoint d0).1.isSome = true ∨
        (w.load 0 w.remoteEndpoint d0).2.lastChecked ≠ "") →
      (bootstrap w).file = (w.load 0 w.remoteEndpoint d0).2 ∧ (bootstrap w).loads = 1) ∧
    (∀ rerr d0, w.read = (some rerr, d0) → (w.load 0 w.remoteEndpoint d0).1 = none →
      (w.load 0 w.remoteEndpoint d0).2.lastChecked = "" →
      (bootstrap w).file =
        (w.load 1 w.remoteEndpoint (w.load 0 w.remoteEndpoint d0).2).2 ∧
      (bootstrap w).loads = 2) ∧
    (∀ d0, w.read = (none, d0) → d0.lastChecked = "" →
      (bootstrap w).file = (w.load 0 w.remoteEndpoint d0).2 ∧ (bootstrap w).loads = 1) ∧
    (∀ d0, w.read = (none, d0) → d0.lastChecked ≠ "" →
      (bootstrap w).file = d0 ∧ (bootstrap w).loads = 0) ∧
    (main w sched).trace.count (.load w.remoteEndpoint) = (bootstrap w).loads ∧
    (Ev.go ∈ (main w sched).trace →
      (main w sched).file =
        (w.load (bootstrap w).loads (bootstrap w).file.remoteConfig (bootstrap w).file).2 ∧
      (main w sched).errLoadConfig =
        (w.load (bootstrap w).loads (bootstrap w).file.remoteConfig (bootstrap w).file).1.map
          (fun err => GoError.remediation
            (.wrap
              "there was a problem updating the versioning information for the Fastly CLI:\n\n"
              err)
            w.bugRemediation)) ∧
    (Ev.go ∉ (main w sched).trace →
      (main w sched).file = (bootstrap w).file ∧ (main w sched).errLoadConfig = none) ∧
    (∀ s : State, s.bpc = .load →
      (stepBg w s).file = (w.load s.loads s.file.remoteConfig s.file).2 ∧
      (stepBg w s).trace = s.trace ++ [.bgLoad s.file.remoteConfig] ∧
      (stepBg w s).loads = s.loads + 1) := by
  have hstep : ∀ s : State, s.bpc = .load →
      (stepBg w s).file = (w.load s.loads s.file.remoteConfig s.file).2 ∧
      (stepBg w s).trace = s.trace ++ [.bgLoad s.file.remoteConfig] ∧
      (stepBg w s).loads = s.loads + 1 := by
    intro s hs
    obtain ⟨file, elc, wait, verbose, loads, runErr, mpc, bpc, trace, exit⟩ := s
    simp only at hs
    subst hs
    simp only [stepBg]
    rcases hld : w.load loads file.remoteConfig file with ⟨_ | err, doc1⟩ <;> simp
  have hgo_cases : (Ev.go ∈ (main w sched).trace →
      (bootstrap w).mpc = .callRun ∧ (bootstrap w).wait = true) ∧
      (Ev.go ∉ (main w sched).trace →
        (bootstrap w).mpc = .halted ∨
          ((bootstrap w).mpc = .callRun ∧ (bootstrap w).wait = false)) := by
    rw [main_go_iff]
    rcases bootstrap_cases w with ⟨hh, -, pre, e, htr, -, hgo⟩ |
      ⟨verbose, doc, loads, t, hb, -, hgo⟩
    · refine ⟨fun hg => ?_, fun _ => Or.inl hh⟩
      rw [htr] at hg
      simp [hgo] at hg
    · have hcall : (bootstrap w).mpc = .callRun := by
        rw [hb]; exact launch_mpc w verbose doc loads t
      have hl := (launch_go w verbose doc loads t hgo).1
      rw [← hb] at hl
      refine ⟨fun hg => ⟨hcall, hl.mp hg⟩, fun hg => Or.inr ⟨hcall, ?_⟩⟩
      cases hw : (bootstrap w).wait with
      | false => rfl
      | true => exact absurd (hl.mpr hw) hg
  have hbl :
      (∀ rerr d0, w.read = (some rerr, d0) →
        ((w.load 0 w.remoteEndpoint d0).1.isSome = true ∨
          (w.load 0 w.remoteEndpoint d0).2.lastChecked ≠ "") →
        (bootstrap w).file = (w.load 0 w.remoteEndpoint d0).2 ∧ (bootstrap w).loads = 1) ∧
      (∀ rerr d0, w.read = (some rerr, d0) → (w.load 0 w.remoteEndpoint d0).1 = none →
        (w.load 0 w.remoteEndpoint d0).2.lastChecked = "" →
        (bootstrap w).file =
          (w.load 1 w.remoteEndpoint (w.load 0 w.remoteEndpoint d0).2).2 ∧
        (bootstrap w).loads = 2) ∧
      (∀ d0, w.read = (none, d0) → d0.lastChecked = "" →
        (bootstrap w).file = (w.load 0 w.remoteEndpoint d0).2 ∧ (bootstrap w).loads = 1) ∧
      (∀ d0, w.read = (none, d0) → d0.lastChecked ≠ "" →
        (bootstrap w).file = d0 ∧ (bootstrap w).loads = 0) := by
    refine ⟨?_, ?_, ?_, ?_⟩
    · intro rerr d0 hr hcase
      rcases hld : w.load 0 w.remoteEndpoint d0 with ⟨_ | e, d1⟩
      · rw [hld] at hcase
        have hl : d1.lastChecked ≠ "" := by simpa using hcase
        simp only [bootstrap, hr, hld, repair, hl, if_false, launch]
        split <;> exact ⟨rfl, rfl⟩
      · simp [bootstrap, hr, hld, exitAtBootstrap]
    · intro rerr d0 hr hok hl
      rcases hld : w.load 0 w.remoteEndpoint d0 with ⟨r, d1⟩
      rw [hld] at hok hl
      simp only at hok hl
      subst hok
      rcases hld1 : w.load 1 w.remoteEndpoint d1 with ⟨_ | e, d2⟩
      · simp only [bootstrap, hr, hld, repair, hl, if_true, hld1, launch]
        split <;> exact ⟨rfl, rfl⟩
      · simp [bootstrap, hr, hld, repair, hl, hld1, exitAtBootstrap]
    · intro d0 hr hl
      rcases hld : w.load 0 w.remoteEndpoint d0 with ⟨_ | e, d1⟩
      · simp only [bootstrap, hr, repair, hl, if_true, hld, launch]
        split <;> exact ⟨rfl, rfl⟩
      · simp [bootstrap, hr, repair, hl, hld, exitAtBootstrap]
    · intro d0 hr hl
      simp only [bootstrap, hr, repair, hl, if_false, launch]
      split <;> exact ⟨rfl, rfl⟩
  obtain ⟨hb1, hb2, hb3, hb4⟩ := hbl
  refine ⟨?_, ?_, ?_, ?_, hb1, hb2, hb3, hb4, main_count_load w sched, ?_, ?_, hstep⟩
  · intro url h
    have h1 : Ev.load url ∈ (main w sched).trace.filter Ev.isBootstrap :=
      List.mem_filter.mpr ⟨h, rfl⟩
    rw [main_bootstrap_events] at h1
    exact bootstrap_load_url w url (List.mem_filter.mp h1).1
  · intro url h
    exact (main_bgLoad w sched url h).2.2
  · intro hg
    obtain ⟨hcall, hw⟩ := hgo_cases.1 hg
    have hev := main_bg_events w sched hcall
    have : Ev.bgLoad (bootstrap w).file.remoteConfig ∈ (main w sched).trace.filter Ev.isBg := by
      rw [hev]; simp [hw]
    exact (List.mem_filter.mp this).1
  · intro hne h
    exact hne (main_bgLoad w sched _ h).2.2.symm
  · intro hg
    obtain ⟨hcall, hw⟩ := hgo_cases.1 hg
    obtain ⟨hf, he⟩ := main_final_vars w sched hcall
    rw [hw] at hf he
    refine ⟨by simpa using hf, ?_⟩
    rw [he]
    simp only [if_true, refreshErr]
    cases (w.load (bootstrap w).loads (bootstrap w).file.remoteConfig (bootstrap w).file).1 <;>
      rfl
  · intro hg
    rcases hgo_cases.2 hg with hh | ⟨hcall, hw⟩
    · rw [main_of_bootstrap_halted w sched hh]
      exact ⟨rfl, bootstrap_errLoadConfig w⟩
    · obtain ⟨hf, he⟩ := main_final_vars w sched hcall
      rw [hw] at hf he
      exact ⟨by simpa using hf, by simpa using he⟩

theorem main_load_urls_witness :
    Ev.load "https://example.org/fixed" ∈ (main sampleStillEmpty (fun _ => false)).trace ∧
    Ev.bgLoad "https://example.org/cfg" ∈ (main sampleStillEmpty (fun _ => false)).trace ∧
    Ev.bgLoad "https://example.org/fixed" ∉ (main sampleStillEmpty (fun _ => false)).trace ∧
    (main sampleStillEmpty (fun _ => false)).file =
      (sampleStillEmpty.load 1 "https://example.org/cfg"
        { sampleDoc with lastChecked := "" }).2 ∧
    (main sampleStillEmpty (fun _ => false)).file = sampleDoc ∧
    (main sampleStillEmpty (fun _ => false)).file.lastChecked = "2021-06-01T10:00:00Z" ∧
    (bootstrap sampleStillEmpty).file =
      (sampleStillEmpty.load 0 "https://example.org/fixed"
        { sampleDoc with lastChecked := "" }).2 :=
  ⟨by decide,
   (main_load_urls sampleStillEmpty (fun _ => false)).2.2.1 (by decide),
   (main_load_urls sampleStillEmpty (fun _ => false)).2.2.2.1 (by decide),
   ((main_load_urls sampleStillEmpty (fun _ => false)).2.2.2.2.2.2.2.2.2.1 (by decide)).1,
   ((main_load_urls sampleStillEmpty (fun _ => false)).2.2.2.2.2.2.2.2.2.1 (by decide)).1.trans
     (by decide),
   by decide,
   ((main_load_urls sampleStillEmpty (fun _ => false)).2.2.2.2.2.2.1
     { sampleDoc with lastChecked := "" } rfl rfl).1⟩

/-- C12: when a background refresh was started, the trace splits at the
first call of `app.Run` into a part before it, which contains the start of
the refresh and neither a receive nor a send on the completion channel, and
the rest: `main` calls `app.Run` without waiting for the refresh. -/
theorem main_run_without_waiting (w : World) (sched : Nat → Bool)
    (h : Ev.go ∈ (main w sched).trace) :
    ∃ pre post d, (main w sched).trace = pre ++ Ev.run d :: post ∧
      Ev.go ∈ pre ∧ Ev.recv ∉ pre ∧ Ev.send ∉ pre ∧ ∀ d2, Ev.run d2 ∉ pre := by
  have hg := (main_go_iff w sched).mp h
  rcases bootstrap_cases w with ⟨-, -, pre, e, htr, -, hgo⟩ |
    ⟨verbose, doc, loads, t, hb, -, -⟩
  · rw [htr] at hg
    simp [hgo] at hg
  · have hcall : (bootstrap w).mpc = .callRun := by
      rw [hb]; exact launch_mpc w verbose doc loads t
    obtain ⟨d, mid, -, -, hte, hball, hml, -⟩ := main_line_of_run w sched hcall
    have hmid : mid.filter Ev.isMain = .run d :: (report (w.run d) ++
        (if (bootstrap w).wait then
          rendezvous (bootstrap w).verboseOutput (refreshErr w (bootstrap w)) else []) ++
        [.exit (if (w.run d).isSome then 1 else 0)]) := by
      rw [hte, List.filter_append, filter_isMain_bootstrap _ hball] at hml
      simpa using hml
    obtain ⟨l1, l2, hsplit, hl1, -, -⟩ := List.filter_eq_cons_iff.mp hmid
    have hnot : ∀ ev, Ev.isMain ev = true → ev ∉ (bootstrap w).trace ++ l1 := by
      intro ev hev hin
      rcases List.mem_append.mp hin with h1 | h1
      · have := isMain_of_isBootstrap ev (hball ev h1)
        rw [hev] at this
        exact absurd this (by decide)
      · exact hl1 ev h1 hev
    refine ⟨(bootstrap w).trace ++ l1, l2, d, ?_, List.mem_append_left _ hg,
      hnot _ rfl, hnot _ rfl, fun d2 => hnot _ rfl⟩
    rw [hte, hsplit, List.append_assoc]

theorem main_run_without_waiting_witness :
    (main sampleWorld (fun _ => true)).trace.take 4 =
      [.read, .go, .run sampleDoc, .bgLoad "https://example.org/cfg"] ∧
    ∃ pre post d, (main sampleWorld (fun _ => true)).trace = pre ++ Ev.run d :: post ∧
      Ev.go ∈ pre ∧ Ev.recv ∉ pre ∧ Ev.send ∉ pre ∧ ∀ d2, Ev.run d2 ∉ pre :=
  ⟨by decide, main_run_without_waiting sampleWorld (fun _ => true) (by decide)⟩

theorem launch_count_go (w : World) (verbose : Bool) (doc : Doc) (loads : Nat) (t : List Ev)
    (ht : Ev.go ∉ t) :
    (launch w verbose doc loads t).trace.count .go =
      if w.stale doc.lastChecked doc.ttl then 1 else 0 := by
  have h0 : t.count Ev.go = 0 := List.count_eq_zero.mpr ht
  unfold launch
  cases w.stale doc.lastChecked doc.ttl <;> cases verbose <;> simp [List.count_append, h0]

theorem main_count_go (w : World) (sched : Nat → Bool) :
    (main w sched).trace.count .go = (bootstrap w).trace.count .go := by
  have h := main_bootstrap_events w sched
  have h1 : ∀ t : List Ev, t.count Ev.go = (t.filter Ev.isBootstrap).count Ev.go := by
    intro t
    exact (List.count_filter (p := Ev.isBootstrap) (a := Ev.go) (l := t) rfl).symm
  rw [h1 (main w sched).trace, h1 (bootstrap w).trace, h]

/-- C14: a run of `main` starts at most one background refresh and makes at
most one background load. When the bootstrap succeeded, the refresh is started
exactly when `check.Stale` reports the document in memory stale. When it does,
the refresh is started once (`wait` is set and the background line stands
at its load) and runs: after its start it makes exactly one call of
`file.Load`, on the `RemoteConfig` address of that document, whose result is
the document in memory at the end of the run, and the main line receives its
completion. When it does not, no background load happens, the
document stays as the bootstrap left it, nothing is received, and every
synchronous load of the run is one of the bootstrap. -/
theorem main_one_refresh (w : World) (sched : Nat → Bool) :
    (main w sched).trace.count .go ≤ 1 ∧
    (main w sched).trace.countP Ev.isBgLoad ≤ 1 ∧
    ((bootstrap w).mpc = .callRun →
      (Ev.go ∈ (main w sched).trace ↔
        w.stale (bootstrap w).file.lastChecked (bootstrap w).file.ttl = true)) ∧
    ((bootstrap w).mpc = .callRun →
      w.stale (bootstrap w).file.lastChecked (bootstrap w).file.ttl = false →
      Ev.go ∉ (main w sched).trace ∧ (∀ url, Ev.bgLoad url ∉ (main w sched).trace) ∧
      (main w sched).trace.filter Ev.isBootstrap = (bootstrap w).trace.filter Ev.isBootstrap) ∧
    ((bootstrap w).mpc = .callRun →
      w.stale (bootstrap w).file.lastChecked (bootstrap w).file.ttl = true →
      (main w sched).trace.count .go = 1 ∧
      (main w sched).trace.countP Ev.isBgLoad = 1 ∧
      (∃ pre post, (main w sched).trace = pre ++ Ev.go :: post ∧
        Ev.bgLoad (bootstrap w).file.remoteConfig ∈ post ∧ Ev.recv ∈ post) ∧
      (main w sched).file =
        (w.load (bootstrap w).loads (bootstrap w).file.remoteConfig (bootstrap w).file).2 ∧
      (bootstrap w).wait = true ∧ (bootstrap w).bpc = .load) ∧
    ((bootstrap w).mpc = .callRun →
      w.stale (bootstrap w).file.lastChecked (bootstrap w).file.ttl = false →
      (main w sched).trace.countP Ev.isBgLoad = 0 ∧ Ev.recv ∉ (main w sched).trace ∧
      (main w sched).file = (bootstrap w).file ∧
      (bootstrap w).wait = false ∧ (bootstrap w).bpc = .idle) := by
  have hcp : ∀ t : List Ev, t.countP Ev.isBgLoad = (t.filter Ev.isBg).countP Ev.isBgLoad := by
    intro t
    rw [List.countP_filter]
    congr 1
    funext ev
    cases ev <;> rfl
  rw [hcp]
  rcases bootstrap_cases w with ⟨hh, -, pre, e, htr, hpre, hgo⟩ |
    ⟨verbose, doc, loads, t, hb, ht, hgo⟩
  · have hm := main_of_bootstrap_halted w sched hh
    refine ⟨?_, ?_, ?_, ?_, ?_, ?_⟩
    · rw [hm, htr]
      simp [List.count_append, List.count_eq_zero.mpr hgo]
    · rw [hm, htr, List.filter_append, filter_isBg_bootstrap _ hpre]
      simp [Ev.isBg]
    · intro hc; rw [hh] at hc; exact absurd hc (by decide)
    · intro hc; rw [hh] at hc; exact absurd hc (by decide)
    · intro hc; rw [hh] at hc; exact absurd hc (by decide)
    · intro hc; rw [hh] at hc; exact absurd hc (by decide)
  · have hcall : (bootstrap w).mpc = .callRun := by
      rw [hb]; exact launch_mpc w verbose doc loads t
    have hl := launch_go w verbose doc loads t hgo
    have hfile : (bootstrap w).file = doc := by rw [hb]; exact hl.2.2
    have hwait : (bootstrap w).wait = w.stale doc.lastChecked doc.ttl := by
      rw [hb]
      unfold launch
      cases w.stale doc.lastChecked doc.ttl <;> rfl
    have hbpc : (bootstrap w).bpc = if w.stale doc.lastChecked doc.ttl then .load else .idle := by
      rw [hb]
      unfold launch
      cases w.stale doc.lastChecked doc.ttl <;> rfl
    have hgoiff : Ev.go ∈ (main w sched).trace ↔ w.stale doc.lastChecked doc.ttl = true := by
      rw [main_go_iff, ← hwait, hb]
      exact hl.1
    have hev := main_bg_events w sched hcall
    obtain ⟨hfin, -⟩ := main_final_vars w sched hcall
    obtain ⟨d, mid, -, -, hte, hball, hml, -⟩ := main_line_of_run w sched hcall
    refine ⟨?_, ?_, ?_, ?_, ?_, ?_⟩
    · rw [main_count_go, hb, launch_count_go w verbose doc loads t hgo]
      split <;> simp
    · rw [hev]
      cases hw : (bootstrap w).wait <;> cases hre : refreshErr w (bootstrap w) <;>
        simp [Ev.isBgLoad]
    · intro _
      rw [hfile]
      exact hgoiff
    · intro _ hst
      rw [hfile] at hst
      refine ⟨fun hg => ?_, fun url hbg => ?_, main_bootstrap_events w sched⟩
      · rw [hgoiff.mp hg] at hst
        exact absurd hst (by decide)
      · have := (main_bgLoad w sched url hbg).2.1
        rw [hwait, hst] at this
        exact absurd this (by decide)
    · intro _ hst
      have hst2 : w.stale doc.lastChecked doc.ttl = true := by rw [hfile] at hst; exact hst
      have hw : (bootstrap w).wait = true := by rw [hwait]; exact hst2
      refine ⟨?_, ?_, ?_, ?_, hw, by rw [hbpc, hst2]; rfl⟩
      · rw [main_count_go, hb, launch_count_go w verbose doc loads t hgo, hst2]
        rfl
      · rw [hev]
        cases hre : refreshErr w (bootstrap w) <;> simp [hw, Ev.isBgLoad]
      · have hbt : (bootstrap w).trace =
            (t ++ (if verbose then [Ev.out .backgroundInfo] else [])) ++ [.go] := by
          rw [hb]; exact launch_trace_go w verbose doc loads t hst2
        refine ⟨t ++ (if verbose then [Ev.out .backgroundInfo] else []), mid, ?_, ?_, ?_⟩
        · rw [hte, hbt]
          simp
        · have h1 : Ev.bgLoad (bootstrap w).file.remoteConfig ∈
              (main w sched).trace.filter Ev.isBg := by
            rw [hev]; simp [hw]
          have h2 := (List.mem_filter.mp h1).1
          rw [hte, List.mem_append] at h2
          rcases h2 with h2 | h2
          · have := hball _ h2
            simp [Ev.isBootstrap] at this
          · exact h2
        · have h1 : Ev.recv ∈ (main w sched).trace.filter Ev.isMain := by
            rw [hml]; simp [hw, rendezvous]
          have h2 := (List.mem_filter.mp h1).1
          rw [hte, List.mem_append] at h2
          rcases h2 with h2 | h2
          · have := hball _ h2
            simp [Ev.isBootstrap] at this
          · exact h2
      · rw [hfin, hw]
        rfl
    · intro _ hst
      have hst2 : w.stale doc.lastChecked doc.ttl = false := by rw [hfile] at hst; exact hst
      have hw : (bootstrap w).wait = false := by rw [hwait]; exact hst2
      refine ⟨?_, ?_, ?_, hw, by rw [hbpc, hst2]; rfl⟩
      · rw [hev]
        simp [hw]
      · intro hr
        have h1 : Ev.recv ∈ (main w sched).trace.filter Ev.isMain :=
          List.mem_filter.mpr ⟨hr, rfl⟩
        rw [hml] at h1
        cases hrun : w.run d <;> simp [hw, hrun, report] at h1
      · rw [hfin, hw]
        rfl

theorem main_one_refresh_witness :
    (bootstrap sampleWorld).mpc = .callRun ∧
    (main sampleWorld (fun _ => false)).trace.count .go = 1 ∧
    Ev.go ∈ (main sampleWorld (fun _ => false)).trace ∧
    Ev.go ∉ (main sampleFresh (fun _ => false)).trace ∧
    (main sampleWorld (fun _ => false)).trace.countP Ev.isBgLoad = 1 ∧
    (∃ pre post, (main sampleWorld (fun _ => false)).trace = pre ++ Ev.go :: post ∧
      Ev.bgLoad "https://example.org/cfg" ∈ post ∧ Ev.recv ∈ post) ∧
    (main sampleFresh (fun _ => false)).trace.countP Ev.isBgLoad = 0 ∧
    (main sampleWorld (fun _ => false)).trace =
      [.read, .go, .bgLoad "https://example.org/cfg",
       .setErrLoadConfig (.remediation
         (.wrap "there was a problem updating the versioning information for the Fastly CLI:\n\n"
           (.msg "connection refused"))
         "file an issue"),
       .run sampleDoc, .send, .recv,
       .readErrLoadConfig (some (.remediation
         (.wrap "there was a problem updating the versioning information for the Fastly CLI:\n\n"
           (.msg "connection refused"))
         "file an issue")),
       .afterWrite,
       .printErr (.remediation
         (.wrap "there was a problem updating the versioning information for the Fastly CLI:\n\n"
           (.msg "connection refused"))
         "file an issue"),
       .exit 0] :=
  ⟨by decide, by decide,
   ((main_one_refresh sampleWorld (fun _ => false)).2.2.1 (by decide)).mpr rfl,
   ((main_one_refresh sampleFresh (fun _ => false)).2.2.2.1 (by decide) rfl).1,
   ((main_one_refresh sampleWorld (fun _ => false)).2.2.2.2.1 (by decide) rfl).2.1,
   ((main_one_refresh sampleWorld (fun _ => false)).2.2.2.2.1 (by decide) rfl).2.2.1,
   ((main_one_refresh sampleFresh (fun _ => false)).2.2.2.2.2 (by decide) rfl).1,
   by decide⟩

theorem afterWrite_mem (verbose : Bool) (v : Option GoError) (ev : Ev)
    (h : ev ∈ afterWrite verbose v) :
    ev = .out .updateSuccessful ∨ ev = .assertionPanic ∨ ∃ e, ev = .printErr e := by
  unfold afterWrite at h
  cases v with
  | none => cases verbose <;> (simp at h; try simp [h])
  | some e =>
    cases verbose <;> by_cases hr : e.isRemediation = true <;>
      (simp [hr] at h; try simp [h])

/-- C20: in every run of `main`, under every schedule, the type assertion in
`afterWrite` does not panic: whenever `errLoadConfig` is read for
`afterWrite` it is nil or a `RemediationError`, the one the background
refresh assigned; the process never ends through the panic. -/
theorem main_assertion_never_panics (w : World) (sched : Nat → Bool) :
    Ev.assertionPanic ∉ (main w sched).trace ∧
    (∀ v, Ev.readErrLoadConfig v ∈ (main w sched).trace →
      v = none ∨ ∃ e, v = some e ∧ e.isRemediation = true ∧
        Ev.setErrLoadConfig e ∈ (main w sched).trace) ∧
    (main w sched).exit ≠ some 2 := by
  rcases bootstrap_cases w with ⟨hh, hex, pre, e, htr, hpre, -⟩ |
    ⟨verbose, doc, loads, t, hb, -, -⟩
  · have hm := main_of_bootstrap_halted w sched hh
    rw [hm]
    refine ⟨?_, ?_, by rw [hex]; decide⟩
    · rw [htr]
      intro h
      simp at h
      have := hpre _ h
      simp [Ev.isBootstrap] at this
    · intro v h
      rw [htr] at h
      simp at h
      have := hpre _ h
      simp [Ev.isBootstrap] at this
  · have hcall : (bootstrap w).mpc = .callRun := by
      rw [hb]; exact launch_mpc w verbose doc loads t
    obtain ⟨d, mid, -, -, -, -, hml, hexit⟩ := main_line_of_run w sched hcall
    have hev := main_bg_events w sched hcall
    have hnp := afterWrite_refreshErr_no_panic w (bootstrap w) (bootstrap w).verboseOutput
    refine ⟨?_, ?_, ?_⟩
    · intro h
      have h1 : Ev.assertionPanic ∈ (main w sched).trace.filter Ev.isMain :=
        List.mem_filter.mpr ⟨h, rfl⟩
      rw [hml] at h1
      cases hr : w.run d <;> cases hw : (bootstrap w).wait <;>
        simp [hr, hw, report, rendezvous, hnp] at h1
    · intro v h
      have h1 : Ev.readErrLoadConfig v ∈ (main w sched).trace.filter Ev.isMain :=
        List.mem_filter.mpr ⟨h, rfl⟩
      rw [hml] at h1
      have hna : Ev.readErrLoadConfig v ∉
          afterWrite (bootstrap w).verboseOutput (refreshErr w (bootstrap w)) := by
        intro hin
        rcases afterWrite_mem _ _ _ hin with h2 | h2 | ⟨e2, h2⟩ <;> simp at h2
      have hv : (bootstrap w).wait = true ∧ v = refreshErr w (bootstrap w) := by
        cases hr : w.run d <;> cases hw : (bootstrap w).wait <;>
          simp [hr, hw, report, rendezvous, hna] at h1 <;> simp [h1]
      obtain ⟨hw, hv⟩ := hv
      cases hre : refreshErr w (bootstrap w) with
      | none => left; rw [hv, hre]
      | some e2 =>
        right
        refine ⟨e2, by rw [hv, hre], ?_, ?_⟩
        · unfold refreshErr at hre
          cases hl : (w.load (bootstrap w).loads (bootstrap w).file.remoteConfig
            (bootstrap w).file).1 <;> simp [hl] at hre
          rw [← hre]; rfl
        · have : Ev.setErrLoadConfig e2 ∈ (main w sched).trace.filter Ev.isBg := by
            rw [hev]; simp [hw, hre]
          exact (List.mem_filter.mp this).1
    · rw [hexit]
      split <;> simp

theorem control_append (t u : List Ev) : control (t ++ u) = control t ++ control u := by
  simp [control]

theorem control_afterWrite (v1 v2 : Bool) (elc : Option GoError) :
    control (afterWrite v1 elc) = control (afterWrite v2 elc) := by
  unfold afterWrite control
  cases elc with
  | none => cases v1 <;> cases v2 <;> simp [Ev.isText]
  | some e =>
    cases v1 <;> cases v2 <;> by_cases hr : e.isRemediation = true <;> simp [hr, Ev.isText]

theorem afterWrite_panic_iff (v1 v2 : Bool) (elc : Option GoError) :
    Ev.assertionPanic ∈ afterWrite v1 elc ↔ Ev.assertionPanic ∈ afterWrite v2 elc := by
  unfold afterWrite
  cases elc with
  | none => cases v1 <;> cases v2 <;> simp
  | some e =>
    cases v1 <;> cases v2 <;> by_cases hr : e.isRemediation = true <;> simp [hr]

theorem stepMain_sameControl (w1 w2 : World) (s1 s2 : State) (hrun : w1.run = w2.run)
    (h : sameControl s1 s2) : sameControl (stepMain w1 s1) (stepMain w2 s2) := by
  obtain ⟨file, elc, wait, v1, loads, runErr, mpc, bpc, t1, exit⟩ := s1
  obtain ⟨file2, elc2, wait2, v2, loads2, runErr2, mpc2, bpc2, t2, exit2⟩ := s2
  obtain ⟨h1, h2, h3, h4, h5, h6, h7, h8, h9⟩ := h
  simp only at h1 h2 h3 h4 h5 h6 h7 h8 h9
  subst h1 h2 h3 h4 h5 h6 h7 h8
  cases mpc with
  | callRun =>
    simp only [stepMain, afterRun, hrun]
    refine ⟨rfl, rfl, rfl, rfl, rfl, rfl, rfl, rfl, ?_⟩
    simp [control_append, h9]
  | reportErr =>
    cases runErr with
    | none => exact ⟨rfl, rfl, rfl, rfl, rfl, rfl, rfl, rfl, h9⟩
    | some err =>
      simp only [stepMain, afterRun]
      exact ⟨rfl, rfl, rfl, rfl, rfl, rfl, rfl, rfl, by simp [control_append, h9]⟩
  | receive =>
    simp only [stepMain]
    exact ⟨rfl, rfl, rfl, rfl, rfl, rfl, rfl, rfl, by simp [control_append, h9]⟩
  | callAfterWrite =>
    have hc := control_afterWrite v1 v2 elc
    have hp := afterWrite_panic_iff v1 v2 elc
    simp only [stepMain]
    by_cases hpanic : Ev.assertionPanic ∈ afterWrite v1 elc
    · rw [if_pos hpanic, if_pos (hp.mp hpanic)]
      exact ⟨rfl, rfl, rfl, rfl, rfl, rfl, rfl, rfl, by simp only [control_append, h9, hc]⟩
    · rw [if_neg hpanic, if_neg (fun h => hpanic (hp.mpr h))]
      exact ⟨rfl, rfl, rfl, rfl, rfl, rfl, rfl, rfl, by simp only [control_append, h9, hc]⟩
  | finish =>
    simp only [stepMain]
    exact ⟨rfl, rfl, rfl, rfl, rfl, rfl, rfl, rfl, by simp [control_append, h9]⟩
  | halted => exact ⟨rfl, rfl, rfl, rfl, rfl, rfl, rfl, rfl, h9⟩

theorem stepBg_sameControl (w1 w2 : World) (s1 s2 : State) (hload : w1.load = w2.load)
    (hbug : w1.bugRemediation = w2.bugRemediation)
    (h : sameControl s1 s2) : sameControl (stepBg w1 s1) (stepBg w2 s2) := by
  obtain ⟨file, elc, wait, v1, loads, runErr, mpc, bpc, t1, exit⟩ := s1
  obtain ⟨file2, elc2, wait2, v2, loads2, runErr2, mpc2, bpc2, t2, exit2⟩ := s2
  obtain ⟨h1, h2, h3, h4, h5, h6, h7, h8, h9⟩ := h
  simp only at h1 h2 h3 h4 h5 h6 h7 h8 h9
  subst h1 h2 h3 h4 h5 h6 h7 h8
  cases bpc with
  | load =>
    simp only [stepBg, hload]
    rcases w2.load loads file.remoteConfig file with ⟨_ | lerr, doc1⟩ <;>
      exact ⟨rfl, rfl, rfl, rfl, rfl, rfl, rfl, rfl, by simp [control_append, h9]⟩
  | setErr e =>
    simp only [stepBg, hbug]
    exact ⟨rfl, rfl, rfl, rfl, rfl, rfl, rfl, rfl, by simp [control_append, h9]⟩
  | idle => exact ⟨rfl, rfl, rfl, rfl, rfl, rfl, rfl, rfl, h9⟩
  | send => exact ⟨rfl, rfl, rfl, rfl, rfl, rfl, rfl, rfl, h9⟩
  | finished => exact ⟨rfl, rfl, rfl, rfl, rfl, rfl, rfl, rfl, h9⟩

theorem step_sameControl (w1 w2 : World) (s1 s2 : State) (pick : Bool)
    (hrun : w1.run = w2.run) (hload : w1.load = w2.load)
    (hbug : w1.bugRemediation = w2.bugRemediation)
    (h : sameControl s1 s2) : sameControl (step w1 pick s1) (step w2 pick s2) := by
  have hm : mainCanStep s1 = mainCanStep s2 := by
    unfold mainCanStep; rw [h.2.2.2.2.2.1, h.2.2.2.2.2.2.1]
  have hb : bgCanStep s1 = bgCanStep s2 := by
    unfold bgCanStep; rw [h.2.2.2.2.2.1, h.2.2.2.2.2.2.1]
  unfold step
  rw [hm, hb]
  cases pick <;> cases mainCanStep s2 <;> cases bgCanStep s2 <;>
    first
    | exact h
    | exact stepMain_sameControl w1 w2 s1 s2 hrun h
    | exact stepBg_sameControl w1 w2 s1 s2 hload hbug h

theorem steps_sameControl (w1 w2 : World) (n : Nat) (sched : Nat → Bool) (s1 s2 : State)
    (hrun : w1.run = w2.run) (hload : w1.load = w2.load)
    (hbug : w1.bugRemediation = w2.bugRemediation)
    (h : sameControl s1 s2) : sameControl (steps w1 n sched s1) (steps w2 n sched s2) := by
  induction n generalizing sched s1 s2 with
  | zero => exact h
  | succ n ih => exact ih _ _ _ (step_sameControl w1 w2 s1 s2 (sched 0) hrun hload hbug h)

theorem control_texts (c : Bool) (ts : List Text) :
    control (if c = true then ts.map Ev.out else []) = [] := by
  cases c <;> simp [control, Ev.isText]

theorem launch_sameControl (w : World) (args2 : List String) (v1 v2 : Bool) (doc : Doc)
    (loads : Nat) (t1 t2 : List Ev) (h : control t1 = control t2) :
    sameControl (launch w v1 doc loads t1) (launch { w with args := args2 } v2 doc loads t2) := by
  unfold launch
  cases w.stale doc.lastChecked doc.ttl
  · exact ⟨rfl, rfl, rfl, rfl, rfl, rfl, rfl, rfl, h⟩
  · refine ⟨rfl, rfl, rfl, rfl, rfl, rfl, rfl, rfl, ?_⟩
    have h1 := control_texts v1 [.backgroundInfo]
    have h2 := control_texts v2 [.backgroundInfo]
    simp only [List.map] at h1 h2
    simp only [if_true, control_append, h, h1, h2]

theorem repair_sameControl (w : World) (args2 : List String) (v1 v2 : Bool) (doc : Doc)
    (loads : Nat) (t1 t2 : List Ev) (h : control t1 = control t2) :
    sameControl (repair w v1 doc loads t1) (repair { w with args := args2 } v2 doc loads t2) := by
  unfold repair
  by_cases he : doc.lastChecked = ""
  · have h1 := control_texts v1 [.retryWarning, .lineBreak]
    have h2 := control_texts v2 [.retryWarning, .lineBreak]
    simp only [List.map] at h1 h2
    simp only [he, if_true]
    rcases w.load loads w.remoteEndpoint doc with ⟨_ | e, d1⟩
    · exact launch_sameControl w args2 v1 v2 d1 (loads + 1) _ _
        (by simp only [control_append, h, h1, h2])
    · exact ⟨rfl, rfl, rfl, rfl, rfl, rfl, rfl, rfl,
        by simp only [exitAtBootstrap, control_append, h, h1, h2]⟩
  · simp only [he, if_false]
    exact launch_sameControl w args2 v1 v2 doc loads t1 t2 h

theorem bootstrap_sameControl (w : World) (args2 : List String) :
    sameControl (bootstrap w) (bootstrap { w with args := args2 }) := by
  unfold bootstrap
  rcases w.read with ⟨_ | rerr, d0⟩
  · exact repair_sameControl w args2 _ _ d0 0 _ _ rfl
  · simp only
    have h1 := control_texts (verboseOutput w.args)
      [if rerr = w.errLegacyConfig then .legacyNotice else .createNotice, .lineBreak]
    have h2 := control_texts (verboseOutput args2)
      [if rerr = w.errLegacyConfig then .legacyNotice else .createNotice, .lineBreak]
    simp only [List.map] at h1 h2
    rcases w.load 0 w.remoteEndpoint d0 with ⟨_ | e, d1⟩
    · exact repair_sameControl w args2 _ _ d1 1 _ _ (by simp only [control_append, h1, h2])
    · exact ⟨rfl, rfl, rfl, rfl, rfl, rfl, rfl, rfl,
        by simp only [exitAtBootstrap, control_append, h1, h2]⟩

theorem mem_control_iff (ev : Ev) (t : List Ev) (h : Ev.isText ev = false) :
    ev ∈ control t ↔ ev ∈ t := by
  simp [control, List.mem_filter, h]

/-- C13: two runs of `main` under the same schedule and with the same results
of Read, Load, Stale and Run, whose command lines differ (so that `-v` or
`--verbose` may be detected in one and not in the other), have the same trace
once the informational texts are left out: the same calls of Read, Load and
Run with the same arguments, the same start of a refresh, the same
rendezvous, the same errors printed; the exit status and the document in
memory are the same. -/
theorem main_verbose_noninterference (w : World) (args2 : List String) (sched : Nat → Bool) :
    control (main w sched).trace = control (main { w with args := args2 } sched).trace ∧
    (main w sched).exit = (main { w with args := args2 } sched).exit ∧
    (main w sched).file = (main { w with args := args2 } sched).file ∧
    (Ev.go ∈ (main w sched).trace ↔ Ev.go ∈ (main { w with args := args2 } sched).trace) ∧
    (Ev.recv ∈ (main w sched).trace ↔
      Ev.recv ∈ (main { w with args := args2 } sched).trace) := by
  have h : sameControl (main w sched) (main { w with args := args2 } sched) :=
    steps_sameControl w { w with args := args2 } 8 sched _ _ rfl rfl rfl
      (bootstrap_sameControl w args2)
  obtain ⟨h1, -, -, -, -, -, -, h8, h9⟩ := h
  refine ⟨h9, h8, h1, ?_, ?_⟩
  · rw [← mem_control_iff Ev.go (main w sched).trace rfl,
      ← mem_control_iff Ev.go (main { w with args := args2 } sched).trace rfl, h9]
  · rw [← mem_control_iff Ev.recv (main w sched).trace rfl,
      ← mem_control_iff Ev.recv (main { w with args := args2 } sched).trace rfl, h9]

end cmd

namespace filesystem

theorem osStat_ok (fault : Option GoError) (p : Path) (fs : FS) (n : Node)
    (h : osStat fault p fs = .ok n) : fault = none ∧ fs p = some n := by
  unfold osStat at h
  cases fault with
  | some e => simp at h
  | none =>
    cases hp : fs p with
    | none => simp [hp] at h
    | some m =>
      simp [hp] at h
      exact ⟨rfl, by rw [h]⟩

/-- What a successful `copyContents` leaves: the destination is a regular
file holding the bytes of the source, flushed, and nothing else changed; it
succeeds only when the flush did. -/
theorem copyContents_ok (f : CopyFaults) (src dst : Path) (fs : FS) (ss : Node)
    (hsrc : fs src = some ss) (hok : (copyContents f src dst fs).1 = none) :
    f.sync = none ∧ f.copy = none ∧
    ∃ n, (copyContents f src dst fs).2 dst = some n ∧ n.data = ss.data ∧
      n.synced = true ∧ n.regular = true := by
  unfold copyContents at hok ⊢
  rw [hsrc] at hok ⊢
  cases ho : f.openSrc with
  | some e => simp [ho] at hok
  | none =>
    cases hm : f.mkdirAll with
    | some e => simp [ho, hm] at hok
    | none =>
      cases hc : f.create with
      | some e => simp [ho, hm, hc] at hok
      | none =>
        cases hcp : f.copy with
        | some we => simp [ho, hm, hc, hcp] at hok
        | none =>
          cases hsy : f.sync with
          | some e => simp [ho, hm, hc, hcp, hsy] at hok
          | none => simp [FS.set]

theorem copyContents_frame (f : CopyFaults) (src dst : Path) (fs : FS) (p : Path)
    (hp : p ≠ dst) : (copyContents f src dst fs).2 p = fs p := by
  unfold copyContents
  cases f.openSrc <;> cases fs src <;> cases f.mkdirAll <;> cases f.create <;>
    cases f.copy <;> cases f.sync <;> simp [FS.set, hp]

/-- C16: `CopyFile(src, dst)` on a regular source file. When the destination
exists and is the same file, it returns nil and leaves the file system as it
was. Otherwise, when it returns nil, the destination exists as a regular file
whose bytes are exactly those of the source, whatever it held before, and it
was flushed, which means the flush did not fail. No other path is touched. -/
theorem CopyFile_contract (f : CopyFaults) (src dst : Path) (fs : FS) (ss : Node)
    (hstat : osStat f.statSrc src fs = .ok ss) (hreg : ss.regular = true) :
    (∀ ds, osStat f.statDst dst fs = .ok ds → ds.regular = true → ss.ino = ds.ino →
      CopyFile f src dst fs = (none, fs)) ∧
    ((¬ ∃ ds, osStat f.statDst dst fs = .ok ds ∧ ss.ino = ds.ino) →
      (CopyFile f src dst fs).1 = none →
      f.sync = none ∧
      ∃ n, (CopyFile f src dst fs).2 dst = some n ∧ n.data = ss.data ∧
        n.synced = true ∧ n.regular = true) ∧
    (∀ p, p ≠ dst → (CopyFile f src dst fs).2 p = fs p) := by
  have hsrc := (osStat_ok _ _ _ _ hstat).2
  refine ⟨?_, ?_, ?_⟩
  · intro ds hds hdreg hino
    simp [CopyFile, hstat, hreg, hds, hdreg, hino]
  · intro hnot hok
    unfold CopyFile at hok ⊢
    rw [hstat] at hok ⊢
    simp only [hreg, Bool.not_true, Bool.false_eq_true, if_false] at hok ⊢
    cases hds : osStat f.statDst dst fs with
    | error e =>
      rw [hds] at hok
      simp only at hok ⊢
      by_cases hne : e.is ErrNotExist = true
      · simp only [hne, Bool.not_true, Bool.false_eq_true, if_false] at hok ⊢
        obtain ⟨h1, -, h2⟩ := copyContents_ok f src dst fs ss hsrc hok
        exact ⟨h1, h2⟩
      · simp [hne] at hok
    | ok ds =>
      rw [hds] at hok
      simp only at hok ⊢
      have hino : ss.ino ≠ ds.ino := fun h => hnot ⟨ds, hds, h⟩
      by_cases hdreg : ds.regular = true
      · simp only [hdreg, Bool.not_true, Bool.false_eq_true, if_false, hino] at hok ⊢
        obtain ⟨h1, -, h2⟩ := copyContents_ok f src dst fs ss hsrc hok
        exact ⟨h1, h2⟩
      · simp [hdreg] at hok
  · intro p hp
    unfold CopyFile
    rw [hstat]
    simp only [hreg, Bool.not_true, Bool.false_eq_true, if_false]
    cases hds : osStat f.statDst dst fs with
    | error e =>
      simp only
      split
      · rfl
      · exact copyContents_frame f src dst fs p hp
    | ok ds =>
      simp only
      split
      · rfl
      · split
        · rfl
        · exact copyContents_frame f src dst fs p hp

theorem CopyFile_contract_witness :
    CopyFile {} "/bin/fastly" "/bin/fastly" update.sampleTwoFiles
      = (none, update.sampleTwoFiles) ∧
    (CopyFile {} "/tmp/fastly-dl" "/bin/fastly" update.sampleTwoFiles).1 = none ∧
    ∃ n, (CopyFile {} "/tmp/fastly-dl" "/bin/fastly" update.sampleTwoFiles).2 "/bin/fastly"
        = some n ∧ n.data = update.sampleStaged.data ∧ n.synced = true ∧ n.regular = true :=
  ⟨(CopyFile_contract {} "/bin/fastly" "/bin/fastly" update.sampleTwoFiles update.sampleOrig
      rfl rfl).1 update.sampleOrig rfl rfl rfl,
   by decide,
   ((CopyFile_contract {} "/tmp/fastly-dl" "/bin/fastly" update.sampleTwoFiles
      update.sampleStaged rfl rfl).2.1
      (by
        rintro ⟨ds, h, hino⟩
        have h2 : (Except.ok update.sampleOrig : Except GoError Node) = Except.ok ds := h
        cases h2
        exact absurd hino (by decide))
      (by decide)).2⟩

end filesystem

namespace check

/-- C15: the staleness check fails open. For every timestamp parser, every
time to live and every current time, a `lastChecked` that is missing (empty)
or that the parser rejects is stale. -/
theorem isStale_fails_open (parseTime : String → Option Int) (lastChecked : String)
    (ttl now : Int) (h : lastChecked = "" ∨ parseTime lastChecked = none) :
    isStale parseTime lastChecked ttl now = true := by
  unfold isStale
  rcases h with h | h
  · simp [h]
  · simp [h]

theorem isStale_fails_open_witness :
    isStale sampleParseTime "" 300 1000 = true ∧
    isStale sampleParseTime "yesterday" 300 1000 = true ∧
    isStale sampleParseTime "900" 300 1000 = false :=
  ⟨isStale_fails_open sampleParseTime "" 300 1000 (Or.inl rfl),
   isStale_fails_open sampleParseTime "yesterday" 300 1000 (Or.inr (by decide)),
   by decide⟩

end check

namespace papertrail

/-- C17: with both `--verbose` and `--json` set, `Exec` returns
`ErrInvalidVerboseJSONCombo` at once: neither `cmd.ServiceDetails` nor
`ListPapertrails` is called, nothing is written to `out`, and nothing is
logged. -/
theorem Exec_verbose_json_exclusive (e : ListEnv) (hv : e.verbose = true) (hj : e.json = true) :
    (Exec e).err = some errors.ErrInvalidVerboseJSONCombo ∧
    (Exec e).calls = [] ∧ (Exec e).out = [] ∧ (Exec e).errLog = [] := by
  simp [Exec, hv, hj]

theorem Exec_verbose_json_exclusive_witness :
    (Exec { sampleList with verbose := true, json := true }).err
      = some (.remediation (.msg "invalid flag combination, --verbose and --json")
          "Use either --verbose or --json, not both.") ∧
    (Exec { sampleList with verbose := true, json := true }).calls = [] ∧
    (Exec { sampleList with verbose := true, json := true }).out = [] ∧
    (Exec { sampleList with verbose := true, json := true }).errLog = [] :=
  Exec_verbose_json_exclusive { sampleList with verbose := true, json := true } rfl rfl

end papertrail

namespace openstack

/-- C18: `ConstructInput` returns an error and a nil input exactly when both
`--compression-codec` and `--gzip-level` were set; in every other case it
returns a nil error and an input whose ServiceID, ServiceVersion, Name,
BucketName, AccessKey, User and URL are the two arguments and the required
fields of the command. -/
theorem ConstructInput_mutually_exclusive (c : CreateCommand) (serviceID : String)
    (serviceVersion : Int) :
    ((c.compressionCodec.wasSet = true ∧ c.gzipLevel.wasSet = true) ↔
      ((ConstructInput c serviceID serviceVersion).1 = none ∧
        (ConstructInput c serviceID serviceVersion).2 ≠ none)) ∧
    (¬ (c.compressionCodec.wasSet = true ∧ c.gzipLevel.wasSet = true) →
      ∃ input, ConstructInput c serviceID serviceVersion = (some input, none) ∧
        input.serviceID = serviceID ∧ input.serviceVersion = serviceVersion ∧
        input.name = c.endpointName ∧ input.bucketName = c.bucketName ∧
        input.accessKey = c.accessKey ∧ input.user = c.user ∧ input.url = c.url) ∧
    ((c.compressionCodec.wasSet = true ∧ c.gzipLevel.wasSet = true) →
      ConstructInput c serviceID serviceVersion = (none, some errMutuallyExclusive)) := by
  unfold ConstructInput
  by_cases h : c.compressionCodec.wasSet = true ∧ c.gzipLevel.wasSet = true
  · simp [h.1, h.2]
  · have hb : (c.compressionCodec.wasSet && c.gzipLevel.wasSet) = false := by
      cases h1 : c.compressionCodec.wasSet <;> cases h2 : c.gzipLevel.wasSet <;> simp_all
    simp [hb, h]

theorem ConstructInput_mutually_exclusive_witness :
    ConstructInput { sampleCreate with compressionCodec := ⟨true, "zstd"⟩ } "123" 4
      = (none, some errMutuallyExclusive) ∧
    ∃ input, ConstructInput sampleCreate "123" 4 = (some input, none) ∧
      input.serviceID = "123" ∧ input.serviceVersion = 4 ∧
      input.name = "log" ∧ input.bucketName = "bucket" ∧
      input.accessKey = "foo" ∧ input.user = "user" ∧ input.url = "https://example.com" :=
  ⟨(ConstructInput_mutually_exclusive { sampleCreate with compressionCodec := ⟨true, "zstd"⟩ }
      "123" 4).2.2 ⟨rfl, rfl⟩,
   (ConstructInput_mutually_exclusive sampleCreate "123" 4).2.1 (by decide)⟩

end openstack

namespace cmd

theorem splitAtEq_append (a b : List Char) (h : '=' ∉ a) :
    splitAtEq (a ++ '=' :: b) = some (a, b) := by
  induction a with
  | nil => simp [splitAtEq]
  | cons x xs ih =>
    have hx : x ≠ '=' := fun hx => h (by simp [hx])
    have hxs : '=' ∉ xs := fun hm => h (List.mem_cons_of_mem _ hm)
    simp [splitAtEq, hx, ih hxs]

theorem splitAtEq_sound (cs a b : List Char) (h : splitAtEq cs = some (a, b)) :
    cs = a ++ '=' :: b ∧ '=' ∉ a := by
  induction cs generalizing a with
  | nil => simp [splitAtEq] at h
  | cons c cs ih =>
    unfold splitAtEq at h
    by_cases hc : c = '='
    · simp only [hc, if_true, Option.some.injEq, Prod.mk.injEq] at h
      obtain ⟨rfl, rfl⟩ := h
      simp [hc]
    · simp only [hc, if_false] at h
      cases hs : splitAtEq cs with
      | none => simp [hs] at h
      | some ab =>
        obtain ⟨a2, b2⟩ := ab
        simp only [hs, Option.some.injEq, Prod.mk.injEq] at h
        obtain ⟨rfl, rfl⟩ := h
        obtain ⟨h1, h2⟩ := ih a2 hs
        refine ⟨by rw [h1]; simp, ?_⟩
        intro hm
        rcases List.mem_cons.mp hm with hm | hm
        · exact hc hm.symm
        · exact h2 hm

theorem splitAtEq_none (cs : List Char) : splitAtEq cs = none ↔ '=' ∉ cs := by
  constructor
  · intro h hm
    induction cs with
    | nil => simp at hm
    | cons c cs ih =>
      unfold splitAtEq at h
      by_cases hc : c = '='
      · simp [hc] at h
      · simp only [hc, if_false] at h
        cases hs : splitAtEq cs with
        | some ab => simp [hs] at h
        | none =>
          have hm2 : '=' ∈ cs := by
            rcases List.mem_cons.mp hm with h1 | h1
            · exact absurd h1.symm hc
            · exact h1
          exact ih hs hm2
  · intro h
    cases hs : splitAtEq cs with
    | none => rfl
    | some ab =>
      obtain ⟨a, b⟩ := ab
      have := (splitAtEq_sound cs a b hs).1
      exact absurd (by rw [this]; simp) h

theorem data_append_eq (k v : String) : (k ++ "=" ++ v).data = k.data ++ '=' :: v.data := by
  simp [String.data_append]

/-- The split of an entry: two tokens exactly when the entry reads
`key=value` with no `=` in the key, and then the tokens are the key and the
value. -/
theorem splitN2_entry (kv k v : String) : splitN2 kv = [k, v] ↔ isEntry kv k v := by
  unfold splitN2 isEntry
  constructor
  · intro h
    cases hs : splitAtEq kv.data with
    | none => simp [hs] at h
    | some ab =>
      obtain ⟨a, b⟩ := ab
      simp only [hs, List.cons.injEq, and_true] at h
      obtain ⟨rfl, rfl⟩ := h
      obtain ⟨h1, h2⟩ := splitAtEq_sound kv.data a b hs
      refine ⟨?_, h2⟩
      apply String.ext
      rw [data_append_eq]
      exact h1
  · rintro ⟨h1, h2⟩
    have hd : kv.data = k.data ++ '=' :: v.data := by rw [h1, data_append_eq]
    rw [hd, splitAtEq_append _ _ h2]

theorem splitN2_length (kv : String) :
    (∃ k v, splitN2 kv = [k, v]) ∨ splitN2 kv = [kv] := by
  unfold splitN2
  cases hs : splitAtEq kv.data with
  | none => right; rfl
  | some ab => left; exact ⟨_, _, rfl⟩

theorem isEntry_unique (kv k1 v1 k2 v2 : String) (h1 : isEntry kv k1 v1)
    (h2 : isEntry kv k2 v2) : k1 = k2 ∧ v1 = v2 := by
  have e1 := (splitN2_entry kv k1 v1).mpr h1
  have e2 := (splitN2_entry kv k2 v2).mpr h2
  rw [e1] at e2
  simp at e2
  exact e2

/-- One entry of the environment: it sets its key to its value and nothing
else, and an entry without `=` changes nothing. -/
theorem parseEnvStep_spec (env : EnvMap) (kv q : String) :
    (∀ v, isEntry kv q v → parseEnvStep env kv q = some v) ∧
    ((∀ v, ¬ isEntry kv q v) → parseEnvStep env kv q = env q) := by
  unfold parseEnvStep
  rcases splitN2_length kv with ⟨k, v, hkv⟩ | hkv
  · have he := (splitN2_entry kv k v).mp hkv
    rw [hkv]
    constructor
    · intro v2 h2
      obtain ⟨hk, hv⟩ := isEntry_unique kv k v q v2 he h2
      simp [hk, hv]
    · intro hno
      have hq : q ≠ k := fun hq => hno v (hq ▸ he)
      simp [hq]
  · rw [hkv]
    constructor
    · intro v2 h2
      have := (splitN2_entry kv q v2).mpr h2
      rw [hkv] at this
      simp at this
    · intro _; rfl

theorem parseEnv_append (l : List String) (kv : String) :
    parseEnv (l ++ [kv]) = parseEnvStep (parseEnv l) kv := by
  simp [parseEnv, List.foldl_append]

theorem parseEnv_lookup (environ : List String) (q val : String) :
    parseEnv environ q = some val ↔
      ∃ pre kv post, environ = pre ++ kv :: post ∧ isEntry kv q val ∧
        ∀ kv2 ∈ post, ∀ v2, ¬ isEntry kv2 q v2 := by
  induction environ using List.reverseRecOn generalizing val with
  | nil => simp [parseEnv]
  | append_singleton l kv ih =>
    rw [parseEnv_append]
    obtain ⟨hyes, hno⟩ := parseEnvStep_spec (parseEnv l) kv q
    by_cases hk : ∃ v, isEntry kv q v
    · obtain ⟨v, hv⟩ := hk
      rw [hyes v hv]
      constructor
      · intro h
        simp only [Option.some.injEq] at h
        subst h
        exact ⟨l, kv, [], by simp, hv, by simp⟩
      · rintro ⟨pre, kv2, post, heq, he, hlast⟩
        rcases List.eq_nil_or_concat post with hp | ⟨post2, x, hp⟩
        · subst hp
          have : kv2 = kv := by
            have := congrArg List.getLast? heq
            simpa using this.symm
          subst this
          rw [(isEntry_unique kv2 q v q val hv he).2]
        · subst hp
          have h2 : l ++ [kv] = (pre ++ kv2 :: post2) ++ [x] := by rw [heq]; simp
          have hx : x = kv := by
            have := (List.append_inj' h2 rfl).2
            simpa using this.symm
          subst hx
          exact absurd hv (hlast x (by simp) v)
    · have hk2 : ∀ v, ¬ isEntry kv q v := fun v hv => hk ⟨v, hv⟩
      rw [hno hk2, ih]
      constructor
      · rintro ⟨pre, kv2, post, heq, he, hlast⟩
        refine ⟨pre, kv2, post ++ [kv], by rw [heq]; simp, he, ?_⟩
        intro kv3 h3 v3
        rcases List.mem_append.mp h3 with h3 | h3
        · exact hlast kv3 h3 v3
        · simp at h3; subst h3; exact hk2 v3
      · rintro ⟨pre, kv2, post, heq, he, hlast⟩
        rcases List.eq_nil_or_concat post with hp | ⟨post2, x, hp⟩
        · subst hp
          have : kv2 = kv := by
            have := congrArg List.getLast? heq
            simpa using this.symm
          subst this
          exact absurd he (hk2 val)
        · subst hp
          have h2 : l ++ [kv] = (pre ++ kv2 :: post2) ++ [x] := by rw [heq]; simp
          obtain ⟨hl, hx⟩ := List.append_inj' h2 rfl
          exact ⟨pre, kv2, post2, hl, he, fun kv3 h3 v3 => hlast kv3 (by simp [h3]) v3⟩

theorem isEntry_iff_mem (kv : String) : '=' ∈ kv.data ↔ ∃ k v, isEntry kv k v := by
  constructor
  · intro h
    cases hs : splitAtEq kv.data with
    | none => exact absurd h ((splitAtEq_none kv.data).mp hs)
    | some ab =>
      obtain ⟨a, b⟩ := ab
      refine ⟨String.mk a, String.mk b, (splitN2_entry kv _ _).mp ?_⟩
      simp [splitN2, hs]
  · rintro ⟨k, v, h1, -⟩
    rw [h1, data_append_eq]
    simp

/-- C19: `parseEnv` on any list of strings. An entry contains `=` exactly when
it reads `key=value` for a key without `=`, and it does so for one key and one
value only: the text before its first `=` and everything after it. The map
returned holds `val` at `q` exactly when some entry reads `q=val` and no later
entry has the key `q`; so entries without `=` contribute nothing, the last
entry of a key wins, and there are no other keys. -/
theorem parseEnv_spec :
    (∀ kv : String, '=' ∈ kv.data ↔ ∃ k v, isEntry kv k v) ∧
    (∀ kv k1 v1 k2 v2 : String, isEntry kv k1 v1 → isEntry kv k2 v2 → k1 = k2 ∧ v1 = v2) ∧
    (∀ (environ : List String) (q val : String),
      parseEnv environ q = some val ↔
        ∃ pre kv post, environ = pre ++ kv :: post ∧ isEntry kv q val ∧
          ∀ kv2 ∈ post, ∀ v2, ¬ isEntry kv2 q v2) :=
  ⟨isEntry_iff_mem, isEntry_unique, parseEnv_lookup⟩

/-- The map `parseEnv` returns for the sample environment. -/
theorem parseEnv_sample :
    parseEnv sampleEnviron "HOME" = some "/tmp" ∧
    parseEnv sampleEnviron "FASTLY_API_TOKEN" = some "a=b" ∧
    parseEnv sampleEnviron "junk" = none ∧
    parseEnv sampleEnviron "PATH" = none := by
  decide

end cmd

namespace snippet

/-- The fields `constructInput` copies whatever the optional flags are. -/
theorem constructInput_required (content : String → String) (c : CreateCommand)
    (serviceID : String) (serviceVersion : Int) :
    (constructInput content c serviceID serviceVersion).content = content c.content ∧
    (constructInput content c serviceID serviceVersion).name = c.name ∧
    (constructInput content c serviceID serviceVersion).serviceID = serviceID ∧
    (constructInput content c serviceID serviceVersion).serviceVersion = serviceVersion ∧
    (constructInput content c serviceID serviceVersion).type = c.location := by
  obtain ⟨ct, ⟨dw, dv⟩, loc, nm, ⟨pw, pv⟩⟩ := c
  cases dw <;> cases pw <;> simp [constructInput]

/-- C21: `CreateCommand.constructInput`, for every command, service and
version. `Dynamic` is 1 exactly when `--dynamic` was set and 0 exactly when it
was not, and it does not depend on the boolean given to the flag: a command
whose `--dynamic` was set yields 1 for the value true and for the value false.
`Priority` points to the flag's value when `--priority` was set and is nil
exactly when it was not; it does not depend on the value parsed when the flag
was not set. -/
theorem constructInput_dynamic_priority :
    ∀ (content : String → String) (c : CreateCommand) (serviceID : String)
      (serviceVersion : Int),
      ((constructInput content c serviceID serviceVersion).dynamic = 1 ↔
        c.dynamic.wasSet = true) ∧
      ((constructInput content c serviceID serviceVersion).dynamic = 0 ↔
        c.dynamic.wasSet = false) ∧
      (∀ b : Bool, (constructInput content { c with dynamic := ⟨true, b⟩ } serviceID
        serviceVersion).dynamic = 1) ∧
      (∀ b : Bool, (constructInput content { c with dynamic := ⟨false, b⟩ } serviceID
        serviceVersion).dynamic = 0) ∧
      (∀ v : Int, (constructInput content c serviceID serviceVersion).priority = some v ↔
        c.priority.wasSet = true ∧ c.priority.value = v) ∧
      ((constructInput content c serviceID serviceVersion).priority = none ↔
        c.priority.wasSet = false) ∧
      (∀ v : Int, (constructInput content { c with priority := ⟨false, v⟩ } serviceID
        serviceVersion).priority = none) := by
  intro content c serviceID serviceVersion
  obtain ⟨ct, ⟨dw, dv⟩, loc, nm, ⟨pw, pv⟩⟩ := c
  cases dw <;> cases pw <;> simp [constructInput]

/-- The inputs built for the sample commands: an explicit `--dynamic=false`
gives `Dynamic` 1 and a nil `Priority`; no `--dynamic` and `--priority 1` give
`Dynamic` 0 and a `Priority` of 1. -/
theorem constructInput_sample :
    constructInput id sampleCreate "123" 3 =
      { serviceID := "123", serviceVersion := 3, name := "foo", type := "recv",
        content := "# some vcl", dynamic := 1, priority := none } ∧
    constructInput id samplePriority "123" 3 =
      { serviceID := "123", serviceVersion := 3, name := "foo", type := "recv",
        content := "# some vcl", dynamic := 0, priority := some 1 } := by
  decide

end snippet

namespace stats

/-! ## The realtime loops -/

theorem responsesFrom_append {α : Type}
    (client : Nat → GetRealtimeStatsInput → Except GoError (Envelope α))
    (xs : List GetRealtimeStatsInput) (x : GetRealtimeStatsInput) (i : Nat) :
    responsesFrom client i (xs ++ [x]) =
      responsesFrom client i xs ++ [client (i + xs.length) x] := by
  induction xs generalizing i with
  | nil => simp [responsesFrom]
  | cons y ys ih =>
    rw [List.cons_append, responsesFrom, ih, responsesFrom, List.length_cons,
      show i + 1 + ys.length = i + (ys.length + 1) by omega, List.cons_append]

theorem lastSuccess_append_ok {α : Type} (rs : List (Except GoError (Envelope α)))
    (envelope : Envelope α) :
    lastSuccess (rs ++ [.ok envelope]) = envelope.timestamp := by
  simp [lastSuccess, List.foldl_append]

theorem lastSuccess_append_error {α : Type} (rs : List (Except GoError (Envelope α)))
    (err : GoError) :
    lastSuccess (rs ++ [.error err]) = lastSuccess rs := by
  simp [lastSuccess, List.foldl_append]

theorem loopFor_succ_running (body : Loop → Outcome) (n : Nat) (s : Loop)
    (h : loopFor body n = .running s) : loopFor body (n + 1) = body s := by
  simp [loopFor, h]

theorem loopFor_returned (body : Loop → Outcome) (n : Nat) (err : GoError) (s : Loop)
    (h : loopFor body n = .returned err s) (k : Nat) :
    loopFor body (n + k) = .returned err s := by
  induction k with
  | zero => exact h
  | succ k ih => rw [← Nat.add_assoc]; simp [loopFor, ih]

theorem loopFor_panicked (body : Loop → Outcome) (n : Nat) (s : Loop)
    (h : loopFor body n = .panicked s) (k : Nat) :
    loopFor body (n + k) = .panicked s := by
  induction k with
  | zero => exact h
  | succ k ih => rw [← Nat.add_assoc]; simp [loopFor, ih]

/-- A loop that is not looping any more stopped in a turn of its body. -/
theorem loopFor_stopped (body : Loop → Outcome) (n : Nat) (o : Outcome)
    (h : loopFor body n = o) (hs : ∀ s, o ≠ .running s) :
    ∃ m s, m < n ∧ loopFor body m = .running s ∧ body s = o := by
  induction n with
  | zero => exact absurd h.symm (by simpa [loopFor] using hs start)
  | succ n ih =>
    cases hn : loopFor body n with
    | running s => exact ⟨n, s, Nat.lt_succ_self n, hn, by rw [← h, loopFor_succ_running _ _ _ hn]⟩
    | returned err s =>
      have h1 : loopFor body n = o := by rw [← h]; simp [loopFor, hn]
      obtain ⟨m, s0, hm, h2, h3⟩ := ih h1
      exact ⟨m, s0, Nat.lt_succ_of_lt hm, h2, h3⟩
    | panicked s =>
      have h1 : loopFor body n = o := by rw [← h]; simp [loopFor, hn]
      obtain ⟨m, s0, hm, h2, h3⟩ := ih h1
      exact ⟨m, s0, Nat.lt_succ_of_lt hm, h2, h3⟩

theorem loopFor_succ_cases (body : Loop → Outcome) (n : Nat) :
    (∃ s, loopFor body n = .running s ∧ loopFor body (n + 1) = body s) ∨
    ((∀ s, loopFor body n ≠ .running s) ∧ loopFor body (n + 1) = loopFor body n) := by
  cases hn : loopFor body n with
  | running s => exact Or.inl ⟨s, rfl, by simp [loopFor, hn]⟩
  | returned err s => exact Or.inr ⟨by simp, by simp [loopFor, hn]⟩
  | panicked s => exact Or.inr ⟨by simp, by simp [loopFor, hn]⟩

/-- The timestamps of a loop whose every turn sends one request with the
current timestamp and then holds the timestamp of the response when the
request succeeded and the same timestamp when it failed. -/
theorem loopFor_timestamps {α : Type}
    (client : Nat → GetRealtimeStatsInput → Except GoError (Envelope α))
    (service : String) (body : Loop → Outcome)
    (hreq : ∀ s, (body s).state.requests = s.requests ++ [⟨service, s.timestamp⟩])
    (hok : ∀ s envelope, client s.requests.length ⟨service, s.timestamp⟩ = .ok envelope →
      (body s).state.timestamp = envelope.timestamp)
    (herr : ∀ s err, client s.requests.length ⟨service, s.timestamp⟩ = .error err →
      (body s).state.timestamp = s.timestamp)
    (n : Nat) :
    (loopFor body n).state.timestamp =
      lastSuccess (responsesFrom client 0 (loopFor body n).state.requests) ∧
    (∀ pre req post, (loopFor body n).state.requests = pre ++ req :: post →
      req = ⟨service, lastSuccess (responsesFrom client 0 pre)⟩) ∧
    (∀ s, loopFor body n = .running s → s.requests.length = n) := by
  induction n with
  | zero =>
    refine ⟨by simp [loopFor, Outcome.state, start, responsesFrom, lastSuccess], ?_, ?_⟩
    · intro pre req post h
      simp [loopFor, Outcome.state, start] at h
    · intro s h
      simp only [loopFor, Outcome.running.injEq] at h
      subst h
      rfl
  | succ n ih =>
    obtain ⟨ih1, ih2, ih3⟩ := ih
    rcases loopFor_succ_cases body n with ⟨s, hn, hs⟩ | ⟨hn, hs⟩
    · rw [hs]
      rw [hn] at ih1 ih2
      simp only [Outcome.state] at ih1 ih2
      have hlen := ih3 s hn
      refine ⟨?_, ?_, ?_⟩
      · rw [hreq s, responsesFrom_append, Nat.zero_add]
        cases hc : client s.requests.length ⟨service, s.timestamp⟩ with
        | error err => rw [lastSuccess_append_error, herr s err hc, ih1]
        | ok envelope => rw [lastSuccess_append_ok, hok s envelope hc]
      · intro pre req post h
        rw [hreq s] at h
        rcases List.eq_nil_or_concat post with hp | ⟨post1, x, hp⟩
        · subst hp
          obtain ⟨h1, h2⟩ := List.append_inj' h rfl
          simp only [List.cons.injEq, and_true] at h2
          rw [← h2, ← h1, ← ih1]
        · subst hp
          have h3 : s.requests ++ [(⟨service, s.timestamp⟩ : GetRealtimeStatsInput)] =
              (pre ++ req :: post1) ++ [x] := by
            rw [h]; simp
          obtain ⟨h1, -⟩ := List.append_inj' h3 rfl
          exact ih2 pre req post1 h1
      · intro s1 h1
        have h2 := hreq s
        rw [h1] at h2
        simp only [Outcome.state] at h2
        rw [h2, List.length_append, hlen]
        rfl
    · rw [hs]
      refine ⟨ih1, ih2, ?_⟩
      intro s h
      exact absurd h (hn s)

theorem written_cons (d : String) (ds : List String) :
    written (d :: ds) = [OutEv.write d, OutEv.break] ++ written ds := by
  simp [written]

/-- The inner loop of `loopJSON`: either every write succeeds and all the data
is on `out`, or the first write that fails ends it with the wrapped error and
the data before it on `out`. -/
theorem writeData_cases (write : List OutEv → String → Option GoError) (ds : List String)
    (out : List OutEv) :
    ((∀ pre d post, ds = pre ++ d :: post → write (out ++ written pre) d = none) ∧
      writeData write ds out = (out ++ written ds, none)) ∨
    (∃ pre d post werr, ds = pre ++ d :: post ∧
      (∀ p x q, pre = p ++ x :: q → write (out ++ written p) x = none) ∧
      write (out ++ written pre) d = some werr ∧
      writeData write ds out =
        (out ++ written pre, some (.wrap "error: unable to write data to stdout: " werr))) := by
  induction ds generalizing out with
  | nil =>
    left
    refine ⟨?_, by simp [writeData, written]⟩
    intro pre d post h
    simp at h
  | cons a rest ih =>
    cases hw : write out a with
    | some werr =>
      right
      refine ⟨[], a, rest, werr, rfl, ?_, by simpa [written] using hw,
        by simp [writeData, hw, written]⟩
      intro p x q h
      simp at h
    | none =>
      rcases ih (out ++ [.write a, .break]) with ⟨h1, h2⟩ | ⟨pre, d, post, werr, h1, h2, h3, h4⟩
      · left
        refine ⟨?_, by simp [writeData, hw, h2, written_cons]⟩
        intro pre d post h
        cases pre with
        | nil =>
          simp only [List.nil_append, List.cons.injEq] at h
          rw [← h.1]
          simpa [written] using hw
        | cons b pre1 =>
          simp only [List.cons_append, List.cons.injEq] at h
          obtain ⟨hb, hr⟩ := h
          subst hb
          have := h1 pre1 d post hr
          rw [written_cons, ← List.append_assoc]
          exact this
      · right
        refine ⟨a :: pre, d, post, werr, by simp [h1], ?_, ?_, ?_⟩
        · intro p x q h
          cases p with
          | nil =>
            simp only [List.nil_append, List.cons.injEq] at h
            rw [← h.1]
            simpa [written] using hw
          | cons b p1 =>
            simp only [List.cons_append, List.cons.injEq] at h
            obtain ⟨hb, hr⟩ := h
            subst hb
            have := h2 p1 x q hr
            rw [written_cons, ← List.append_assoc]
            exact this
        · rw [written_cons, ← List.append_assoc]
          exact h3
        · rw [written_cons, ← List.append_assoc]
          simp [writeData, hw, h4]

/-- Blocks whose maps are not nil do not make the inner loop of `loopText`
panic. -/
theorem fmtBlocks_no_panic (fmtBlock : List OutEv → String → Agg → Option GoError)
    (service : String) (blocks : List Block) (out : List OutEv)
    (h : ∀ block ∈ blocks, block.aggregated ≠ none) :
    (fmtBlocks fmtBlock service blocks out).2 = false := by
  induction blocks generalizing out with
  | nil => rfl
  | cons b rest ih =>
    have hb := h b (List.mem_cons_self _ _)
    have hr : ∀ block ∈ rest, block.aggregated ≠ none :=
      fun block hm => h block (List.mem_cons_of_mem _ hm)
    cases ha : b.aggregated with
    | none => exact absurd ha hb
    | some agg =>
      simp only [fmtBlocks, ha]
      cases hf : fmtBlock out service (mapDelete (mapSet agg "start_time" (.uint b.recorded))
        "miss_histogram") with
      | none => simp only [hf]; exact ih _ hr
      | some err => simp only [hf]; exact ih _ hr

/-- A block whose map is nil makes the inner loop of `loopText` panic when
the blocks before it have maps. -/
theorem fmtBlocks_panic (fmtBlock : List OutEv → String → Agg → Option GoError)
    (service : String) (pre : List Block) (b : Block) (post : List Block) (out : List OutEv)
    (h : ∀ block ∈ pre, block.aggregated ≠ none) (hb : b.aggregated = none) :
    (fmtBlocks fmtBlock service (pre ++ b :: post) out).2 = true := by
  induction pre generalizing out with
  | nil => simp [fmtBlocks, hb]
  | cons a rest ih =>
    have ha := h a (List.mem_cons_self _ _)
    have hr : ∀ block ∈ rest, block.aggregated ≠ none :=
      fun block hm => h block (List.mem_cons_of_mem _ hm)
    cases hag : a.aggregated with
    | none => exact absurd hag ha
    | some agg =>
      simp only [List.cons_append, fmtBlocks, hag]
      cases hf : fmtBlock out service (mapDelete (mapSet agg "start_time" (.uint a.recorded))
        "miss_histogram") with
      | none => simp only [hf]; exact ih _ hr
      | some err => simp only [hf]; exact ih _ hr

/-- The inner loop of `loopJSON` when the first write that fails is the one
after the data `pre`. -/
theorem writeData_fail (write : List OutEv → String → Option GoError) (pre : List String)
    (d : String) (post : List String) (out : List OutEv) (werr : GoError)
    (hpre : ∀ p x q, pre = p ++ x :: q → write (out ++ written p) x = none)
    (hd : write (out ++ written pre) d = some werr) :
    writeData write (pre ++ d :: post) out =
      (out ++ written pre, some (.wrap "error: unable to write data to stdout: " werr)) := by
  induction pre generalizing out with
  | nil =>
    have hd1 : write out d = some werr := by simpa [written] using hd
    simp [writeData, hd1, written]
  | cons a rest ih =>
    have ha : write out a = none := by simpa [written] using hpre [] a rest rfl
    have h1 : ∀ p x q, rest = p ++ x :: q →
        write (out ++ [.write a, .break] ++ written p) x = none := by
      intro p x q h
      have := hpre (a :: p) x q (by rw [h]; rfl)
      rw [written_cons, ← List.append_assoc] at this
      exact this
    have h2 : write (out ++ [.write a, .break] ++ written rest) d = some werr := by
      rw [written_cons, ← List.append_assoc] at hd
      exact hd
    rw [List.cons_append, writeData]
    simp only [ha]
    rw [ih _ h1 h2, written_cons, ← List.append_assoc]

theorem turnJSON_error (e : JSONEnv) (service : String) (s : Loop) (err : GoError)
    (h : e.getRealtimeStatsJSON s.requests.length ⟨service, s.timestamp⟩ = .error err) :
    turnJSON e service s =
      .running { s with requests := s.requests ++ [⟨service, s.timestamp⟩],
                        out := s.out ++ [.error (.wrap "fetching stats: " err)] } := by
  simp [turnJSON, h]

theorem turnJSON_written (e : JSONEnv) (service : String) (s : Loop)
    (envelope : Envelope String)
    (h : e.getRealtimeStatsJSON s.requests.length ⟨service, s.timestamp⟩ = .ok envelope)
    (hw : ∀ pre d post, envelope.data = pre ++ d :: post →
      e.write (s.out ++ written pre) d = none) :
    turnJSON e service s =
      .running { timestamp := envelope.timestamp,
                 requests := s.requests ++ [⟨service, s.timestamp⟩],
                 out := s.out ++ written envelope.data } := by
  rcases writeData_cases e.write envelope.data s.out with
    ⟨-, h2⟩ | ⟨pre, d, post, werr, h1, -, h3, -⟩
  · simp [turnJSON, h, h2]
  · rw [hw pre d post h1] at h3
    cases h3

theorem turnJSON_write_fails (e : JSONEnv) (service : String) (s : Loop)
    (envelope : Envelope String) (pre : List String) (d : String) (post : List String)
    (werr : GoError)
    (h : e.getRealtimeStatsJSON s.requests.length ⟨service, s.timestamp⟩ = .ok envelope)
    (hdata : envelope.data = pre ++ d :: post)
    (hpre : ∀ p x q, pre = p ++ x :: q → e.write (s.out ++ written p) x = none)
    (hd : e.write (s.out ++ written pre) d = some werr) :
    turnJSON e service s =
      .returned (.wrap "error: unable to write data to stdout: " werr)
        { timestamp := envelope.timestamp,
          requests := s.requests ++ [⟨service, s.timestamp⟩],
          out := s.out ++ written pre } := by
  simp [turnJSON, h, hdata, writeData_fail e.write pre d post s.out werr hpre hd]

/-- What a turn of `loopJSON` that does not leave the loop running did. -/
theorem turnJSON_stopped (e : JSONEnv) (service : String) (s : Loop) (o : Outcome)
    (h : turnJSON e service s = o) (hs : ∀ s1, o ≠ .running s1) :
    ∃ envelope pre d post werr,
      e.getRealtimeStatsJSON s.requests.length ⟨service, s.timestamp⟩ = .ok envelope ∧
      envelope.data = pre ++ d :: post ∧
      (∀ p x q, pre = p ++ x :: q → e.write (s.out ++ written p) x = none) ∧
      e.write (s.out ++ written pre) d = some werr ∧
      o = .returned (.wrap "error: unable to write data to stdout: " werr)
        { timestamp := envelope.timestamp,
          requests := s.requests ++ [⟨service, s.timestamp⟩],
          out := s.out ++ written pre } := by
  cases hc : e.getRealtimeStatsJSON s.requests.length ⟨service, s.timestamp⟩ with
  | error err =>
    rw [turnJSON_error e service s err hc] at h
    exact absurd h.symm (hs _)
  | ok envelope =>
    rcases writeData_cases e.write envelope.data s.out with
      ⟨h1, -⟩ | ⟨pre, d, post, werr, h1, h2, h3, -⟩
    · rw [turnJSON_written e service s envelope hc h1] at h
      exact absurd h.symm (hs _)
    · rw [turnJSON_write_fails e service s envelope pre d post werr hc h1 h2 h3] at h
      exact ⟨envelope, pre, d, post, werr, rfl, h1, h2, h3, h.symm⟩

theorem turnJSON_requests (e : JSONEnv) (service : String) (s : Loop) :
    (turnJSON e service s).state.requests = s.requests ++ [⟨service, s.timestamp⟩] := by
  cases ho : turnJSON e service s with
  | running s1 =>
    cases hc : e.getRealtimeStatsJSON s.requests.length ⟨service, s.timestamp⟩ with
    | error err =>
      rw [turnJSON_error e service s err hc] at ho
      cases ho
      rfl
    | ok envelope =>
      rcases writeData_cases e.write envelope.data s.out with
        ⟨h1, -⟩ | ⟨pre, d, post, werr, h1, h2, h3, -⟩
      · rw [turnJSON_written e service s envelope hc h1] at ho
        cases ho
        rfl
      · rw [turnJSON_write_fails e service s envelope pre d post werr hc h1 h2 h3] at ho
        cases ho
  | returned err s1 =>
    obtain ⟨envelope, pre, d, post, werr, -, -, -, -, h5⟩ :=
      turnJSON_stopped e service s _ ho (by simp)
    cases h5
    rfl
  | panicked s1 =>
    obtain ⟨envelope, pre, d, post, werr, -, -, -, -, h5⟩ :=
      turnJSON_stopped e service s _ ho (by simp)
    cases h5

theorem turnJSON_timestamp_ok (e : JSONEnv) (service : String) (s : Loop)
    (envelope : Envelope String)
    (h : e.getRealtimeStatsJSON s.requests.length ⟨service, s.timestamp⟩ = .ok envelope) :
    (turnJSON e service s).state.timestamp = envelope.timestamp := by
  rcases writeData_cases e.write envelope.data s.out with
    ⟨h1, -⟩ | ⟨pre, d, post, werr, h1, h2, h3, -⟩
  · rw [turnJSON_written e service s envelope h h1]
    rfl
  · rw [turnJSON_write_fails e service s envelope pre d post werr h h1 h2 h3]
    rfl

theorem turnJSON_timestamp_error (e : JSONEnv) (service : String) (s : Loop) (err : GoError)
    (h : e.getRealtimeStatsJSON s.requests.length ⟨service, s.timestamp⟩ = .error err) :
    (turnJSON e service s).state.timestamp = s.timestamp := by
  rw [turnJSON_error e service s err h]
  rfl

theorem turnText_error (e : TextEnv) (service : String) (s : Loop) (err : GoError)
    (h : e.getRealtimeStatsJSON s.requests.length ⟨service, s.timestamp⟩ = .error err) :
    turnText e service s =
      .running { s with requests := s.requests ++ [⟨service, s.timestamp⟩],
                        out := s.out ++ [.error (.wrap "fetching stats: " err)] } := by
  simp [turnText, h]

theorem turnText_ok (e : TextEnv) (service : String) (s : Loop) (envelope : Envelope Block)
    (h : e.getRealtimeStatsJSON s.requests.length ⟨service, s.timestamp⟩ = .ok envelope) :
    turnText e service s =
      if (fmtBlocks e.fmtBlock service envelope.data s.out).2 = true then
        .panicked { timestamp := envelope.timestamp,
                    requests := s.requests ++ [⟨service, s.timestamp⟩],
                    out := (fmtBlocks e.fmtBlock service envelope.data s.out).1 }
      else
        .running { timestamp := envelope.timestamp,
                   requests := s.requests ++ [⟨service, s.timestamp⟩],
                   out := (fmtBlocks e.fmtBlock service envelope.data s.out).1 } := by
  simp only [turnText, h]
  generalize fmtBlocks e.fmtBlock service envelope.data s.out = r
  obtain ⟨out, b⟩ := r
  cases b <;> simp

theorem turnText_requests (e : TextEnv) (service : String) (s : Loop) :
    (turnText e service s).state.requests = s.requests ++ [⟨service, s.timestamp⟩] := by
  cases hc : e.getRealtimeStatsJSON s.requests.length ⟨service, s.timestamp⟩ with
  | error err =>
    rw [turnText_error e service s err hc]
    rfl
  | ok envelope =>
    rw [turnText_ok e service s envelope hc]
    split <;> rfl

theorem turnText_timestamp_ok (e : TextEnv) (service : String) (s : Loop)
    (envelope : Envelope Block)
    (h : e.getRealtimeStatsJSON s.requests.length ⟨service, s.timestamp⟩ = .ok envelope) :
    (turnText e service s).state.timestamp = envelope.timestamp := by
  rw [turnText_ok e service s envelope h]
  split <;> rfl

theorem turnText_timestamp_error (e : TextEnv) (service : String) (s : Loop) (err : GoError)
    (h : e.getRealtimeStatsJSON s.requests.length ⟨service, s.timestamp⟩ = .error err) :
    (turnText e service s).state.timestamp = s.timestamp := by
  rw [turnText_error e service s err h]
  rfl

theorem turnText_not_returned (e : TextEnv) (service : String) (s : Loop) (err : GoError)
    (s1 : Loop) : turnText e service s ≠ .returned err s1 := by
  cases hc : e.getRealtimeStatsJSON s.requests.length ⟨service, s.timestamp⟩ with
  | error err1 =>
    rw [turnText_error e service s err1 hc]
    simp
  | ok envelope =>
    rw [turnText_ok e service s envelope hc]
    split <;> simp

/-- The loop `loopText` is looping after every number of turns when no block
of any response has a nil map. -/
theorem loopText_running (e : TextEnv) (service : String)
    (h : ∀ i input envelope, e.getRealtimeStatsJSON i input = .ok envelope →
      ∀ block ∈ envelope.data, block.aggregated ≠ none) (n : Nat) :
    ∃ s, loopText e service n = .running s := by
  induction n with
  | zero => exact ⟨start, rfl⟩
  | succ n ih =>
    obtain ⟨s, hs⟩ := ih
    unfold loopText at hs ⊢
    rw [loopFor_succ_running _ _ _ hs]
    cases hc : e.getRealtimeStatsJSON s.requests.length ⟨service, s.timestamp⟩ with
    | error err => exact ⟨_, turnText_error e service s err hc⟩
    | ok envelope =>
      rw [turnText_ok e service s envelope hc,
        fmtBlocks_no_panic e.fmtBlock service envelope.data s.out (h _ _ _ hc)]
      exact ⟨_, if_neg (by simp)⟩

/-- The loop `loopJSON` is looping after every number of turns when no write
fails. -/
theorem loopJSON_running (e : JSONEnv) (service : String)
    (h : ∀ out data, e.write out data = none) (n : Nat) :
    ∃ s, loopJSON e service n = .running s := by
  induction n with
  | zero => exact ⟨start, rfl⟩
  | succ n ih =>
    obtain ⟨s, hs⟩ := ih
    unfold loopJSON at hs ⊢
    rw [loopFor_succ_running _ _ _ hs]
    cases hc : e.getRealtimeStatsJSON s.requests.length ⟨service, s.timestamp⟩ with
    | error err => exact ⟨_, turnJSON_error e service s err hc⟩
    | ok envelope =>
      exact ⟨_, turnJSON_written e service s envelope hc (fun _ _ _ _ => h _ _)⟩

/-- The sample run of `loopJSON`: the requests carry the timestamps 0, 0, 100
and 100, and the fourth turn returns the error of the failed write. -/
theorem loopJSON_sample :
    loopJSON sampleJSON "svc" 3 =
      .running
        { timestamp := 100,
          requests := [⟨"svc", 0⟩, ⟨"svc", 0⟩, ⟨"svc", 100⟩],
          out := [.error (.wrap "fetching stats: " (.msg "timeout")), .write "first", .break,
                  .error (.wrap "fetching stats: " (.msg "timeout"))] } ∧
    loopJSON sampleJSON "svc" 9 =
      .returned (.wrap "error: unable to write data to stdout: " (.msg "broken pipe"))
        { timestamp := 200,
          requests := [⟨"svc", 0⟩, ⟨"svc", 0⟩, ⟨"svc", 100⟩, ⟨"svc", 100⟩],
          out := [.error (.wrap "fetching stats: " (.msg "timeout")), .write "first", .break,
                  .error (.wrap "fetching stats: " (.msg "timeout")),
                  .write "second", .break] } := by
  decide

/-- The sample runs of `loopText`: the requests carry the timestamps 0, 0, 100
and 101, the error of `fmtBlock` is printed and the next block is formatted;
a block with a nil map stops the loop with a panic. -/
theorem loopText_sample :
    loopText sampleText "svc" 4 =
      .running
        { timestamp := 102,
          requests := [⟨"svc", 0⟩, ⟨"svc", 0⟩, ⟨"svc", 100⟩, ⟨"svc", 101⟩],
          out := [.error (.wrap "fetching stats: " (.msg "timeout")),
                  .fmtBlock "svc" [("hits", .json "1"), ("start_time", .uint 98)],
                  .error (.wrap "formatting stats: " (.msg "bad value")),
                  .fmtBlock "svc" [("start_time", .uint 99)]] } ∧
    loopText sampleNilMap "svc" 5 =
      .panicked { timestamp := 7, requests := [⟨"svc", 0⟩], out := [] } := by
  decide

/-- C22: the realtime loops `loopJSON` and `loopText`, for every client, every
writer and every number of turns. Every request carries the service and the
timestamp of the last successful response before it, 0 when there was none, and
the variable `timestamp` holds that value for the requests sent so far; a loop
that is still looping after `n` turns has sent `n` requests. A failed fetch
only prints the error: the loop goes on, with the same timestamp, to the next
request. In `loopJSON` a fetch whose data is all written keeps the loop going
with the timestamp of the response; a write that fails makes it return the
wrapped error for good; it returns in no other way, never panics, and goes on
for ever when no write fails. `loopText` never returns, and goes on for ever
when no block of a response has a nil map. -/
theorem loops_timestamp_last_success :
    (∀ (e : JSONEnv) (service : String) (n : Nat),
      (∀ pre req post, (loopJSON e service n).state.requests = pre ++ req :: post →
        req = ⟨service, lastSuccess (responsesFrom e.getRealtimeStatsJSON 0 pre)⟩) ∧
      (loopJSON e service n).state.timestamp =
        lastSuccess
          (responsesFrom e.getRealtimeStatsJSON 0 (loopJSON e service n).state.requests) ∧
      (∀ s, loopJSON e service n = .running s → s.requests.length = n) ∧
      (∀ s err, loopJSON e service n = .running s →
        e.getRealtimeStatsJSON s.requests.length ⟨service, s.timestamp⟩ = .error err →
        loopJSON e service (n + 1) =
          .running { s with requests := s.requests ++ [⟨service, s.timestamp⟩],
                            out := s.out ++ [.error (.wrap "fetching stats: " err)] }) ∧
      (∀ s envelope, loopJSON e service n = .running s →
        e.getRealtimeStatsJSON s.requests.length ⟨service, s.timestamp⟩ = .ok envelope →
        (∀ pre d post, envelope.data = pre ++ d :: post →
          e.write (s.out ++ written pre) d = none) →
        loopJSON e service (n + 1) =
          .running { timestamp := envelope.timestamp,
                     requests := s.requests ++ [⟨service, s.timestamp⟩],
                     out := s.out ++ written envelope.data }) ∧
      (∀ s envelope pre d post werr, loopJSON e service n = .running s →
        e.getRealtimeStatsJSON s.requests.length ⟨service, s.timestamp⟩ = .ok envelope →
        envelope.data = pre ++ d :: post →
        (∀ p x q, pre = p ++ x :: q → e.write (s.out ++ written p) x = none) →
        e.write (s.out ++ written pre) d = some werr →
        ∀ k, loopJSON e service (n + 1 + k) =
          .returned (.wrap "error: unable to write data to stdout: " werr)
            { timestamp := envelope.timestamp,
              requests := s.requests ++ [⟨service, s.timestamp⟩],
              out := s.out ++ written pre }) ∧
      (∀ err s1, loopJSON e service n = .returned err s1 →
        ∃ m s envelope pre d post werr, m < n ∧ loopJSON e service m = .running s ∧
          e.getRealtimeStatsJSON s.requests.length ⟨service, s.timestamp⟩ = .ok envelope ∧
          envelope.data = pre ++ d :: post ∧
          e.write (s.out ++ written pre) d = some werr ∧
          err = .wrap "error: unable to write data to stdout: " werr) ∧
      (∀ s, loopJSON e service n ≠ .panicked s) ∧
      ((∀ out data, e.write out data = none) → ∃ s, loopJSON e service n = .running s)) ∧
    (∀ (e : TextEnv) (service : String) (n : Nat),
      (∀ pre req post, (loopText e service n).state.requests = pre ++ req :: post →
        req = ⟨service, lastSuccess (responsesFrom e.getRealtimeStatsJSON 0 pre)⟩) ∧
      (loopText e service n).state.timestamp =
        lastSuccess
          (responsesFrom e.getRealtimeStatsJSON 0 (loopText e service n).state.requests) ∧
      (∀ s, loopText e service n = .running s → s.requests.length = n) ∧
      (∀ s err, loopText e service n = .running s →
        e.getRealtimeStatsJSON s.requests.length ⟨service, s.timestamp⟩ = .error err →
        loopText e service (n + 1) =
          .running { s with requests := s.requests ++ [⟨service, s.timestamp⟩],
                            out := s.out ++ [.error (.wrap "fetching stats: " err)] }) ∧
      (∀ s envelope, loopText e service n = .running s →
        e.getRealtimeStatsJSON s.requests.length ⟨service, s.timestamp⟩ = .ok envelope →
        (loopText e service (n + 1)).state.timestamp = envelope.timestamp) ∧
      (∀ err s, loopText e service n ≠ .returned err s) ∧
      ((∀ i input envelope, e.getRealtimeStatsJSON i input = .ok envelope →
          ∀ block ∈ envelope.data, block.aggregated ≠ none) →
        ∃ s, loopText e service n = .running s)) := by
  constructor
  · intro e service n
    obtain ⟨h1, h2, h3⟩ := loopFor_timestamps e.getRealtimeStatsJSON service
      (turnJSON e service) (turnJSON_requests e service) (turnJSON_timestamp_ok e service)
      (turnJSON_timestamp_error e service) n
    refine ⟨h2, h1, h3, ?_, ?_, ?_, ?_, ?_, fun hw => loopJSON_running e service hw n⟩
    · intro s err hs hc
      unfold loopJSON at hs ⊢
      rw [loopFor_succ_running _ _ _ hs, turnJSON_error e service s err hc]
    · intro s envelope hs hc hw
      unfold loopJSON at hs ⊢
      rw [loopFor_succ_running _ _ _ hs, turnJSON_written e service s envelope hc hw]
    · intro s envelope pre d post werr hs hc hdata hpre hd k
      unfold loopJSON at hs ⊢
      apply loopFor_returned
      rw [loopFor_succ_running _ _ _ hs,
        turnJSON_write_fails e service s envelope pre d post werr hc hdata hpre hd]
    · intro err s1 h
      obtain ⟨m, s, hm, hs, ht⟩ := loopFor_stopped (turnJSON e service) n _ h (by simp)
      obtain ⟨envelope, pre, d, post, werr, hc, hdata, -, hd, ho⟩ :=
        turnJSON_stopped e service s _ ht (by simp)
      simp only [Outcome.returned.injEq] at ho
      exact ⟨m, s, envelope, pre, d, post, werr, hm, hs, hc, hdata, hd, ho.1⟩
    · intro s1 h
      obtain ⟨m, s, -, -, ht⟩ := loopFor_stopped (turnJSON e service) n _ h (by simp)
      obtain ⟨envelope, pre, d, post, werr, -, -, -, -, ho⟩ :=
        turnJSON_stopped e service s _ ht (by simp)
      cases ho
  · intro e service n
    obtain ⟨h1, h2, h3⟩ := loopFor_timestamps e.getRealtimeStatsJSON service
      (turnText e service) (turnText_requests e service) (turnText_timestamp_ok e service)
      (turnText_timestamp_error e service) n
    refine ⟨h2, h1, h3, ?_, ?_, ?_, fun hm => loopText_running e service hm n⟩
    · intro s err hs hc
      unfold loopText at hs ⊢
      rw [loopFor_succ_running _ _ _ hs, turnText_error e service s err hc]
    · intro s envelope hs hc
      unfold loopText at hs ⊢
      rw [loopFor_succ_running _ _ _ hs, turnText_timestamp_ok e service s envelope hc]
    · intro err s1 h
      obtain ⟨m, s, -, -, ht⟩ := loopFor_stopped (turnText e service) n _ h (by simp)
      exact turnText_not_returned e service s err s1 ht

end stats

namespace filesystem

/-- What a `CopyFile` that returns nil found and left: the source is a regular
file, and either the destination was the same file and nothing changed, or the
destination is now a regular file with the bytes of the source, flushed. -/
theorem CopyFile_ok (f : CopyFaults) (src dst : Path) (fs : FS)
    (hok : (CopyFile f src dst fs).1 = none) :
    ∃ ss, fs src = some ss ∧ ss.regular = true ∧
      ((∃ ds, fs dst = some ds ∧ ss.ino = ds.ino ∧ (CopyFile f src dst fs).2 = fs) ∨
        (f.sync = none ∧ ∃ n, (CopyFile f src dst fs).2 dst = some n ∧ n.data = ss.data ∧
          n.synced = true ∧ n.regular = true)) := by
  unfold CopyFile at hok ⊢
  cases hss : osStat f.statSrc src fs with
  | error e => simp [hss] at hok
  | ok ss =>
    have hsrc := (osStat_ok _ _ _ _ hss).2
    rw [hss] at hok
    simp only at hok ⊢
    by_cases hreg : ss.regular = true
    · refine ⟨ss, hsrc, hreg, ?_⟩
      simp only [hreg, Bool.not_true, Bool.false_eq_true, if_false] at hok ⊢
      cases hds : osStat f.statDst dst fs with
      | error e =>
        rw [hds] at hok
        simp only at hok ⊢
        by_cases hne : e.is ErrNotExist = true
        · simp only [hne, Bool.not_true, Bool.false_eq_true, if_false] at hok ⊢
          obtain ⟨h1, -, h2⟩ := copyContents_ok f src dst fs ss hsrc hok
          exact Or.inr ⟨h1, h2⟩
        · simp [hne] at hok
      | ok ds =>
        rw [hds] at hok
        simp only at hok ⊢
        have hdst := (osStat_ok _ _ _ _ hds).2
        by_cases hdreg : ds.regular = true
        · by_cases hino : ss.ino = ds.ino
          · left
            exact ⟨ds, hdst, hino, by simp [hdreg, hino]⟩
          · simp only [hdreg, Bool.not_true, Bool.false_eq_true, if_false, hino] at hok ⊢
            obtain ⟨h1, -, h2⟩ := copyContents_ok f src dst fs ss hsrc hok
            exact Or.inr ⟨h1, h2⟩
        · simp [hdreg] at hok
    · simp [hreg] at hok

end filesystem

namespace update

/-- The staged binary is at the staging path when the replacement step is
reached, provided the staging path is neither the executable's path nor its
`~` path. -/
theorem beforeMove_staged (e : ExecEnv) (fs : FS) (execPath : Path) (staged : Node)
    (hstaged : e.dlFile = some staged) (h1 : e.dlPath ≠ execPath)
    (h2 : e.dlPath ≠ execPath ++ "~") :
    (beforeMove e fs execPath).fs e.dlPath = some staged := by
  have hD : downloaded e fs e.dlPath = some staged := by
    simp [downloaded, hstaged, FS.set]
  unfold beforeMove renameRunningAside
  cases hw : e.windows with
  | false => simpa using hD
  | true =>
    simp only [if_true]
    unfold osRename
    cases hra : e.renameAside with
    | some rerr =>
      unfold osRemove
      cases hrm : e.removeAside with
      | some e2 => simpa using hD
      | none =>
        cases hex : downloaded e fs (execPath ++ "~") with
        | none => simpa [hex] using hD
        | some x => simpa [hex, FS.set, h2] using hD
    | none =>
      cases hx : downloaded e fs execPath with
      | none =>
        unfold osRemove
        cases hrm : e.removeAside with
        | some e2 => simpa [hx] using hD
        | none =>
          cases hex : downloaded e fs (execPath ++ "~") with
          | none => simpa [hx, hex] using hD
          | some x => simpa [hx, hex, FS.set, h2] using hD
      | some n =>
        have htl : execPath ≠ execPath ++ "~" := Ne.symm (append_tilde_ne execPath)
        simpa [hx, htl, FS.set, h1, h2] using hD

/-- C8: once the replacement step is reached, the staged binary is first
moved with a rename into `currentPath`; `CopyFile` is called exactly when that
rename fails and at no other point; when `CopyFile` fails too, `Exec` returns
"error moving latest binary in place" wrapping the copy error and prints no
success message; when the rename succeeds, or it fails and `CopyFile`
succeeds, `Exec` returns nil and its last output is
"Updated <currentPath> to <latest>.". The file map follows: with the staged
binary at a staging path that is none of `currentPath`, the executable's path
and its `~` path, a rename that succeeds leaves the staged binary itself at
`currentPath`, and it succeeds whenever the system does not refuse it; a rename
that fails followed by a `CopyFile` that returns nil leaves at `currentPath` a
regular, flushed file with the bytes of the staged binary, unless
`currentPath` already was the same file as the staged binary. -/
theorem Exec_rename_then_copy (e : ExecEnv) (fs : FS) (execPath cur : Path)
    (hup : e.shouldUpdate = true) (hdl : e.dlErr = none)
    (hexe : e.executable = .ok execPath) (habs : e.abs execPath = .ok cur) :
    (∀ p q, Op.copyFile p q ∉ (beforeMove e fs execPath).ops) ∧
    (Exec e fs).ops =
      (beforeMove e fs execPath).ops ++ [.rename e.dlPath cur] ++
        (if (osRename e.renameStaged e.dlPath cur (beforeMove e fs execPath).fs).1.isSome
          then [.copyFile e.dlPath cur] else []) ++ [.removeAll e.dlPath] ∧
    (∀ cerr, (osRename e.renameStaged e.dlPath cur (beforeMove e fs execPath).fs).1.isSome →
      (filesystem.CopyFile e.copy e.dlPath cur
        (osRename e.renameStaged e.dlPath cur (beforeMove e fs execPath).fs).2).1 = some cerr →
      (Exec e fs).err = some (.wrap "error moving latest binary in place: " cerr) ∧
      ∀ s, OutEv.success s ∉ (Exec e fs).out) ∧
    ((osRename e.renameStaged e.dlPath cur (beforeMove e fs execPath).fs).1 = none ∨
      (filesystem.CopyFile e.copy e.dlPath cur
        (osRename e.renameStaged e.dlPath cur (beforeMove e fs execPath).fs).2).1 = none →
      (Exec e fs).err = none ∧
      (Exec e fs).out.getLast? =
        some (.success ("Updated " ++ cur ++ " to " ++ e.latest ++ "."))) ∧
    (∀ staged, e.dlFile = some staged → e.dlPath ≠ cur → e.dlPath ≠ execPath →
      e.dlPath ≠ execPath ++ "~" →
      (e.renameStaged = none →
        (osRename e.renameStaged e.dlPath cur (beforeMove e fs execPath).fs).1 = none) ∧
      ((osRename e.renameStaged e.dlPath cur (beforeMove e fs execPath).fs).1 = none →
        (Exec e fs).fs cur = some staged) ∧
      ((osRename e.renameStaged e.dlPath cur (beforeMove e fs execPath).fs).1.isSome →
        (filesystem.CopyFile e.copy e.dlPath cur
          (osRename e.renameStaged e.dlPath cur (beforeMove e fs execPath).fs).2).1 = none →
        (∃ ds, (beforeMove e fs execPath).fs cur = some ds ∧ staged.ino = ds.ino ∧
          (Exec e fs).fs cur = some ds) ∨
        (∃ n, (Exec e fs).fs cur = some n ∧ n.data = staged.data ∧ n.synced = true ∧
          n.regular = true))) := by
  have hfs : ∀ hne : e.dlPath ≠ cur, (Exec e fs).fs cur =
      (moveIntoPlace e e.dlPath cur (beforeMove e fs execPath)).fs cur := by
    intro hne
    rw [Exec_eq_of_reached e fs execPath cur hup hdl hexe habs]
    simp only
    unfold osRemoveAll
    cases e.removeAll <;> simp [FS.set, Ne.symm hne]
  have hfiles : ∀ staged, e.dlFile = some staged → e.dlPath ≠ cur → e.dlPath ≠ execPath →
      e.dlPath ≠ execPath ++ "~" →
      (e.renameStaged = none →
        (osRename e.renameStaged e.dlPath cur (beforeMove e fs execPath).fs).1 = none) ∧
      ((osRename e.renameStaged e.dlPath cur (beforeMove e fs execPath).fs).1 = none →
        (Exec e fs).fs cur = some staged) ∧
      ((osRename e.renameStaged e.dlPath cur (beforeMove e fs execPath).fs).1.isSome →
        (filesystem.CopyFile e.copy e.dlPath cur
          (osRename e.renameStaged e.dlPath cur (beforeMove e fs execPath).fs).2).1 = none →
        (∃ ds, (beforeMove e fs execPath).fs cur = some ds ∧ staged.ino = ds.ino ∧
          (Exec e fs).fs cur = some ds) ∨
        (∃ n, (Exec e fs).fs cur = some n ∧ n.data = staged.data ∧ n.synced = true ∧
          n.regular = true)) := by
    intro staged hstaged hne h1 h2
    have hst := beforeMove_staged e fs execPath staged hstaged h1 h2
    have hmf : (moveIntoPlace e e.dlPath cur (beforeMove e fs execPath)).fs =
        if (osRename e.renameStaged e.dlPath cur (beforeMove e fs execPath).fs).1 = none then
          (osRename e.renameStaged e.dlPath cur (beforeMove e fs execPath).fs).2
        else (filesystem.CopyFile e.copy e.dlPath cur
          (osRename e.renameStaged e.dlPath cur (beforeMove e fs execPath).fs).2).2 := by
      unfold moveIntoPlace
      rcases hmv : osRename e.renameStaged e.dlPath cur (beforeMove e fs execPath).fs
        with ⟨_ | rerr, fs1⟩
      · simp
      · rcases hcp : filesystem.CopyFile e.copy e.dlPath cur fs1 with ⟨_ | cerr, fs2⟩ <;>
          simp [hcp]
    rw [hfs hne, hmf]
    refine ⟨?_, ?_, ?_⟩
    · intro hnf
      simp [osRename, hnf, hst, hne]
    · intro hok
      rw [if_pos hok]
      rcases osRename_cases e.renameStaged e.dlPath cur (beforeMove e fs execPath).fs
        with ⟨hfail, -⟩ | ⟨-, n, hn, hcur⟩
      · exact absurd hok hfail
      · rw [hst] at hn
        cases hn
        exact hcur
    · intro hfail hcp
      have hfail2 : (osRename e.renameStaged e.dlPath cur (beforeMove e fs execPath).fs).1
          ≠ none := by
        intro h0
        rw [h0] at hfail
        exact absurd hfail (by decide)
      rcases osRename_cases e.renameStaged e.dlPath cur (beforeMove e fs execPath).fs
        with ⟨-, hsame⟩ | ⟨hok, -⟩
      · rw [if_neg hfail2]
        rw [hsame] at hcp ⊢
        obtain ⟨ss, hsrc, -, hcase⟩ :=
          filesystem.CopyFile_ok e.copy e.dlPath cur (beforeMove e fs execPath).fs hcp
        rw [hst] at hsrc
        cases hsrc
        rcases hcase with ⟨ds, hds, hino, hun⟩ | ⟨-, n, hn, hdata, hsync, hreg⟩
        · left
          exact ⟨ds, hds, hino, by rw [hun]; exact hds⟩
        · right
          exact ⟨n, hn, hdata, hsync, hreg⟩
      · exact absurd hok hfail2
  rw [Exec_eq_of_reached e fs execPath cur hup hdl hexe habs] at hfiles ⊢
  have hops : ∀ p q, Op.copyFile p q ∉ (beforeMove e fs execPath).ops := by
    intro p q
    unfold beforeMove renameRunningAside
    split
    · split
      · split <;> simp
      · simp
    · simp
  have hout : ∀ s, OutEv.success s ∉ (beforeMove e fs execPath).out := by
    intro s
    unfold beforeMove renameRunningAside
    split
    · split
      · split <;> simp
      · simp
    · simp
  refine ⟨hops, ?_, ?_, ?_, hfiles⟩
  · unfold moveIntoPlace
    rcases hmv : osRename e.renameStaged e.dlPath cur (beforeMove e fs execPath).fs
      with ⟨_ | rerr, fs1⟩
    · simp
    · rcases hcp : filesystem.CopyFile e.copy e.dlPath cur fs1 with ⟨_ | cerr, fs2⟩ <;>
        simp [hcp]
  · intro cerr hfail hcopy
    unfold moveIntoPlace
    rcases hmv : osRename e.renameStaged e.dlPath cur (beforeMove e fs execPath).fs
      with ⟨_ | rerr, fs1⟩
    · simp [hmv] at hfail
    · rw [hmv] at hcopy
      rcases hcp : filesystem.CopyFile e.copy e.dlPath cur fs1 with ⟨_ | cerr2, fs2⟩
      · simp [hcp] at hcopy
      · simp [hcp] at hcopy
        subst hcopy
        simpa [hcp] using hout
  · intro h
    unfold moveIntoPlace
    rcases hmv : osRename e.renameStaged e.dlPath cur (beforeMove e fs execPath).fs
      with ⟨_ | rerr, fs1⟩
    · simp
    · rw [hmv] at h
      rcases hcp : filesystem.CopyFile e.copy e.dlPath cur fs1 with ⟨_ | cerr2, fs2⟩
      · simp [hcp]
      · simp [hcp] at h

theorem Exec_rename_then_copy_witness :
    (Exec sampleCopyFails sampleFS).err =
      some (.wrap "error moving latest binary in place: "
        (.wrap "error copying file contents: " (.msg "no space left on device"))) ∧
    (Exec sampleEnv sampleFS).err = none ∧
    (Exec sampleEnv sampleFS).out.getLast? = some (.success "Updated /bin/fastly to 2.0.0.") ∧
    (Exec sampleEnv sampleFS).fs "/bin/fastly" = some sampleStaged ∧
    (Exec sampleRemoveAllFails sampleFS).fs "/bin/fastly" =
      some { regular := true, ino := 1, data := [7, 8, 9, 10], synced := true } ∧
    ((∃ ds, (beforeMove sampleRemoveAllFails sampleFS "/bin/fastly").fs "/bin/fastly" = some ds ∧
        sampleStaged.ino = ds.ino ∧
        (Exec sampleRemoveAllFails sampleFS).fs "/bin/fastly" = some ds) ∨
      (∃ n, (Exec sampleRemoveAllFails sampleFS).fs "/bin/fastly" = some n ∧
        n.data = sampleStaged.data ∧ n.synced = true ∧ n.regular = true)) :=
  ⟨((Exec_rename_then_copy sampleCopyFails sampleFS "/bin/fastly" "/bin/fastly"
      rfl rfl rfl rfl).2.2.1 _ (by decide) (by decide)).1,
   ((Exec_rename_then_copy sampleEnv sampleFS "/bin/fastly" "/bin/fastly"
      rfl rfl rfl rfl).2.2.2.1 (Or.inl (by decide))).1,
   ((Exec_rename_then_copy sampleEnv sampleFS "/bin/fastly" "/bin/fastly"
      rfl rfl rfl rfl).2.2.2.1 (Or.inl (by decide))).2,
   ((Exec_rename_then_copy sampleEnv sampleFS "/bin/fastly" "/bin/fastly"
      rfl rfl rfl rfl).2.2.2.2 sampleStaged rfl (by decide) (by decide) (by decide)).2.1
      (by decide),
   by decide,
   ((Exec_rename_then_copy sampleRemoveAllFails sampleFS "/bin/fastly" "/bin/fastly"
      rfl rfl rfl rfl).2.2.2.2 sampleStaged rfl (by decide) (by decide) (by decide)).2.2
      (by decide) (by decide)⟩

end update

end FastlyCLI
